import Mathlib

/-!
# Box breathing timer: session clock, session controller and statistics ledger

A shallow embedding of `src/app.js`.  The single mutable `state` object and the
module-level timer handles become one record `State`; every handler of the source
becomes a function `State → State` (or `State → Option State` where the source has a
`while` loop that may not terminate).  Calls to the collaborators outside the core
(tone, vibration, wake lock, storage) are recorded, in call order, in `State.effects`.
The fields of `state` that only the canvas renderer reads form a separate record
`RenderState`, and the two variables of its gradient cache form `GradientCache`; the
renderer computes with real numbers, and the rounding of floating-point arithmetic is
not modelled.
-/

namespace Box5n3

/-! ## Data model -/

/-- One entry of `pattern.phases`: `{ name, duration }`, duration in whole seconds. -/
structure Phase where
  name : String
  duration : Nat
  deriving Repr, DecidableEq

/-- One entry of `PATTERNS`.  Every pattern of the source has exactly four phases. -/
structure Pattern where
  name : String
  description : String
  phases : List Phase
  four : phases.length = 4

/-- The value of `state.timeLimit`, a string.  The code reads it only through its
truthiness (`state.timeLimit && ...`) and through `parseInt(state.timeLimit)`:
`empty` is `''`; `text v` is a non-empty string with `parseInt` value `v`, where
`none` stands for `NaN`. -/
inductive TimeLimit where
  | empty : TimeLimit
  | text (parsed : Option Nat) : TimeLimit
  deriving Repr, DecidableEq

/-- The statistics ledger `state.stats`.  Calendar days (`toDateString()` values) are
numbered consecutively, so the day before day `d` is `d - 1`; `none` is `null`. -/
structure Stats where
  totalSessions : Int
  totalMinutes : Int
  totalCycles : Int
  currentStreak : Int
  lastSessionDate : Option Int
  longestStreak : Int
  deriving Repr, DecidableEq

/-- Calls made to the collaborators outside the core, as the source makes them. -/
inductive Effect where
  | playTone (phaseIndex : Nat) : Effect
  | vibrate (pulses : List Nat) : Effect
  | requestWakeLock : Effect
  | releaseWakeLock : Effect
  | saveStats (ledger : Stats) : Effect
  deriving Repr, DecidableEq

/-- The `state` object together with the module-level timer handles.
`countdownIntervals` counts the live `countdownInterval` timers, `mainInterval` and
`animationFrame` say whether the 1 Hz timer and the frame callback are scheduled. -/
structure State where
  isPlaying : Bool
  isPaused : Bool
  isStartingCountdown : Bool
  startingCountdown : Int
  currentPhase : Nat
  phaseCountdown : Int
  totalTime : Nat
  cycleCount : Nat
  soundEnabled : Bool
  hapticEnabled : Bool
  timeLimit : TimeLimit
  selectedPattern : Pattern
  phaseMultiplier : ℚ
  sessionComplete : Bool
  timeLimitReached : Bool
  stats : Stats
  mainInterval : Bool
  animationFrame : Bool
  countdownIntervals : Nat
  effects : List Effect

/-! ## Pattern catalog (`PATTERNS`) -/

def PATTERNS.box : Pattern :=
  ⟨"Box Breathing", "Equal phases for balance",
    [⟨"Inhale", 4⟩, ⟨"Hold", 4⟩, ⟨"Exhale", 4⟩, ⟨"Wait", 4⟩], rfl⟩

def PATTERNS.relaxing : Pattern :=
  ⟨"4-7-8 Relaxing", "Calming breath for sleep",
    [⟨"Inhale", 4⟩, ⟨"Hold", 7⟩, ⟨"Exhale", 8⟩, ⟨"Wait", 0⟩], rfl⟩

def PATTERNS.energizing : Pattern :=
  ⟨"Energizing", "Quick energizing breath",
    [⟨"Inhale", 4⟩, ⟨"Hold", 2⟩, ⟨"Exhale", 4⟩, ⟨"Wait", 0⟩], rfl⟩

def PATTERNS.calming : Pattern :=
  ⟨"Calming", "Extended exhale for calm",
    [⟨"Inhale", 4⟩, ⟨"Hold", 4⟩, ⟨"Exhale", 6⟩, ⟨"Wait", 2⟩], rfl⟩

/-- The four patterns of the catalog. -/
def PATTERNS.all : List Pattern :=
  [PATTERNS.box, PATTERNS.relaxing, PATTERNS.energizing, PATTERNS.calming]

/-- A pattern with the four given base durations and the fixed phase names. -/
def Pattern.ofDurations (a b c d : Nat) : Pattern :=
  ⟨"Custom", "", [⟨"Inhale", a⟩, ⟨"Hold", b⟩, ⟨"Exhale", c⟩, ⟨"Wait", d⟩], rfl⟩

/-! ## Utility functions -/

/-- JavaScript `Math.round`: the nearest integer, halves rounded towards +∞. -/
def mathRound (x : ℚ) : Int := ⌊x + 1 / 2⌋

/-- The zeroed ledger returned by `loadStats` when nothing is stored. -/
def zeroStats : Stats :=
  { totalSessions := 0, totalMinutes := 0, totalCycles := 0,
    currentStreak := 0, lastSessionDate := none, longestStreak := 0 }

/-- A JavaScript value as `JSON.parse` returns it.  Numbers are whole numbers here, and a
date string is represented by the number of its day, as in `Stats`. -/
inductive Json where
  | null : Json
  | bool (b : Bool) : Json
  | num (n : Int) : Json
  | str (s : String) : Json
  | arr (items : List Json) : Json
  | obj (fields : List (String × Json)) : Json

/-- The object a ledger is: the value `JSON.parse` returns for the text `saveStats`
stored, and the literal `loadStats` falls back to. -/
def Stats.toJson (st : Stats) : Json :=
  Json.obj
    [("totalSessions", Json.num st.totalSessions),
     ("totalMinutes", Json.num st.totalMinutes),
     ("totalCycles", Json.num st.totalCycles),
     ("currentStreak", Json.num st.currentStreak),
     ("lastSessionDate",
        match st.lastSessionDate with
        | none => Json.null
        | some d => Json.num d),
     ("longestStreak", Json.num st.longestStreak)]

/-- What reading `localStorage.getItem('boxBreathingStats')` can give: an exception, `null`,
or a string `saved`, given together with what `JSON.parse(saved)` does: a value, or `none`
when it throws. -/
inductive StoredItem where
  | accessThrows : StoredItem
  | absent : StoredItem
  | text (saved : String) (parsed : Option Json) : StoredItem

/-- `loadStats()`: the value it returns for each way the reading can go. -/
def loadStats : StoredItem → Json
  | StoredItem.accessThrows => Stats.toJson zeroStats
  | StoredItem.absent => Stats.toJson zeroStats
  | StoredItem.text saved parsed =>
    if saved ≠ "" then
      match parsed with
      | some value => value
      | none => Stats.toJson zeroStats
    else Stats.toJson zeroStats

/-- `updateStreak`, with `today` the number of the current calendar day. -/
def updateStreak (today : Int) (st : Stats) : Stats :=
  let currentStreak : Int :=
    match st.lastSessionDate with
    | none => 1
    | some lastDate =>
      if lastDate = today then st.currentStreak
      else if lastDate = today - 1 then st.currentStreak + 1
      else 1
  { st with
    currentStreak := currentStreak
    lastSessionDate := some today
    longestStreak := max st.longestStreak currentStreak }

/-- `getPattern`: the state stores the selected catalog entry itself. -/
def getPattern (s : State) : Pattern := s.selectedPattern

/-- `getScaledPhaseDuration(phaseIndex)`.  The index is in range at every call site
(`0`, or a value reduced modulo 4). -/
def getScaledPhaseDuration (s : State) (phaseIndex : Nat) : Int :=
  let baseDuration := ((getPattern s).phases.getD phaseIndex ⟨"", 0⟩).duration
  mathRound ((baseDuration : ℚ) * s.phaseMultiplier)

/-- `getTotalCycleDuration`: the `reduce` over `pattern.phases`. -/
def getTotalCycleDuration (s : State) : Int :=
  (getPattern s).phases.foldl
    (fun sum phase => sum + mathRound ((phase.duration : ℚ) * s.phaseMultiplier)) 0

/-- `playTone(phaseIndex)`, recorded as a call. -/
def playTone (phaseIndex : Nat) (s : State) : State :=
  { s with effects := s.effects ++ [Effect.playTone phaseIndex] }

/-- `vibrate(pattern)`, recorded as a call. -/
def vibrate (pulses : List Nat) (s : State) : State :=
  { s with effects := s.effects ++ [Effect.vibrate pulses] }

def vibratePhaseChange (s : State) : State := vibrate [30, 50, 30] s

def vibrateSessionComplete (s : State) : State := vibrate [100, 50, 100, 50, 100] s

def requestWakeLock (s : State) : State :=
  { s with effects := s.effects ++ [Effect.requestWakeLock] }

def releaseWakeLock (s : State) : State :=
  { s with effects := s.effects ++ [Effect.releaseWakeLock] }

def saveStats (s : State) : State :=
  { s with effects := s.effects ++ [Effect.saveStats s.stats] }

/-- The initial `state` object; `stats` is what `loadStats()` returned. -/
def initialState (stats : Stats) : State :=
  { isPlaying := false, isPaused := false, isStartingCountdown := false,
    startingCountdown := 3, currentPhase := 0, phaseCountdown := 0,
    totalTime := 0, cycleCount := 0,
    soundEnabled := true, hapticEnabled := true,
    timeLimit := TimeLimit.empty, selectedPattern := PATTERNS.box, phaseMultiplier := 1,
    sessionComplete := false, timeLimitReached := false,
    stats := stats,
    mainInterval := false, animationFrame := false, countdownIntervals := 0,
    effects := [] }

/-! ## Session control functions -/

/-- `startMainInterval`: clears the previous 1 Hz timer and schedules a new one. -/
def startMainInterval (s : State) : State := { s with mainInterval := true }

/-- `animate`: returns at once unless playing, else draws and requests the next frame. -/
def animate (s : State) : State :=
  if s.isPlaying then { s with animationFrame := true } else s

/-- `startSession`. -/
def startSession (s : State) : State :=
  let s := { s with isPlaying := true, isPaused := false, currentPhase := 0 }
  let s := { s with phaseCountdown := getScaledPhaseDuration s 0 }
  let s := { s with totalTime := 0, cycleCount := 0 }
  let s := playTone 0 s
  let s := vibratePhaseChange s
  let s := requestWakeLock s
  let s := startMainInterval s
  animate s

/-- `startCountdown`, up to and including the cue it emits after scheduling the
countdown timer. -/
def startCountdown (s : State) : State :=
  let s := { s with isStartingCountdown := true, startingCountdown := 3,
                    sessionComplete := false, timeLimitReached := false }
  let s := { s with countdownIntervals := s.countdownIntervals + 1 }
  let s := playTone 0 s
  vibrate [30] s

/-- The callback of `countdownInterval`, run once per second while that timer lives. -/
def countdownTick (s : State) : State :=
  let s := { s with startingCountdown := s.startingCountdown - 1 }
  if s.startingCountdown > 0 then
    let s := playTone 0 s
    vibrate [30] s
  else
    let s := { s with countdownIntervals := s.countdownIntervals - 1 }
    let s := { s with isStartingCountdown := false }
    startSession s

/-- `pauseSession`. -/
def pauseSession (s : State) : State :=
  if !s.isPlaying then s
  else
    let s := { s with isPaused := true, isPlaying := false }
    let s := { s with mainInterval := false, animationFrame := false }
    releaseWakeLock s

/-- `resumeSession`. -/
def resumeSession (s : State) : State :=
  if !s.isPaused then s
  else
    let s := { s with isPaused := false, isPlaying := true }
    let s := requestWakeLock s
    let s := startMainInterval s
    animate s

/-- `stopSession`. -/
def stopSession (s : State) : State :=
  let s := { s with isPlaying := false, isPaused := false, isStartingCountdown := false }
  let s := { s with mainInterval := false, animationFrame := false }
  let s := releaseWakeLock s
  let s := { s with currentPhase := 0 }
  let s := { s with phaseCountdown := getScaledPhaseDuration s 0 }
  { s with totalTime := 0, cycleCount := 0, sessionComplete := false,
           timeLimitReached := false }

/-- `completeSession`; `today` is the calendar day `updateStreak` reads from the clock. -/
def completeSession (today : Int) (s : State) : State :=
  let s := { s with isPlaying := false, sessionComplete := true }
  let s := { s with mainInterval := false, animationFrame := false }
  let s := releaseWakeLock s
  let s := { s with stats := { s.stats with totalSessions := s.stats.totalSessions + 1 } }
  let s := { s with stats := { s.stats with
                totalMinutes := s.stats.totalMinutes + mathRound ((s.totalTime : ℚ) / 60) } }
  let s := { s with stats := { s.stats with
                totalCycles := s.stats.totalCycles + (s.cycleCount : Int) } }
  let s := { s with stats := updateStreak today s.stats }
  let s := saveStats s
  let s := vibrateSessionComplete s
  playTone 3 s

/-- How a piece of the tick handler ends: `done` after `completeSession(); return;`,
`next` when control falls through to the code that follows. -/
inductive Flow where
  | done (s : State) : Flow
  | next (s : State) : Flow

/-- The loop `while (getScaledPhaseDuration(state.currentPhase) === 0) { ... }` of the
tick handler.  `fuel` bounds the number of iterations of the body; `none` means the
bound was hit with the loop condition still true. -/
def skipZeroPhases (today : Int) : Nat → State → Option Flow
  | fuel, s =>
    if getScaledPhaseDuration s s.currentPhase = 0 then
      match fuel with
      | 0 => none
      | fuel + 1 =>
        let s := { s with currentPhase := (s.currentPhase + 1) % 4 }
        let s := { s with phaseCountdown := getScaledPhaseDuration s s.currentPhase }
        if s.currentPhase = 0 then
          let s := { s with cycleCount := s.cycleCount + 1 }
          if s.timeLimitReached then some (Flow.done (completeSession today s))
          else skipZeroPhases today fuel s
        else skipZeroPhases today fuel s
    else some (Flow.next s)

/-- The time-limit check at the head of the tick handler. -/
def checkTimeLimit (s : State) : State :=
  match s.timeLimit with
  | TimeLimit.empty => s
  | TimeLimit.text parsed =>
    if !s.timeLimitReached then
      match parsed with
      | none => s
      | some minutes =>
        let limitSeconds := minutes * 60
        if s.totalTime ≥ limitSeconds then { s with timeLimitReached := true } else s
    else s

/-- The callback of `mainInterval` (one logical tick).  `fuel` bounds the iterations of
the zero-duration skip loop; the result is `none` when that loop does not stop within
the bound. -/
def tick (today : Int) (fuel : Nat) (s : State) : Option State :=
  let s := { s with totalTime := s.totalTime + 1 }
  let s := checkTimeLimit s
  if s.phaseCountdown ≤ 1 then
    let s := { s with currentPhase := (s.currentPhase + 1) % 4 }
    let s := { s with phaseCountdown := getScaledPhaseDuration s s.currentPhase }
    let first : Flow :=
      if s.currentPhase = 0 then
        let s := { s with cycleCount := s.cycleCount + 1 }
        if s.timeLimitReached then Flow.done (completeSession today s) else Flow.next s
      else Flow.next s
    match first with
    | Flow.done s => some s
    | Flow.next s =>
      match skipZeroPhases today fuel s with
      | none => none
      | some (Flow.done s) => some s
      | some (Flow.next s) =>
        let s := playTone s.currentPhase s
        some (vibratePhaseChange s)
  else
    some { s with phaseCountdown := s.phaseCountdown - 1 }

/-- The state after `n` seconds of the 1 Hz timer: the callback runs once per second
while `mainInterval` is scheduled, and not at all once it has been cleared. -/
def ticks (today : Int) (fuel : Nat) : Nat → State → Option State
  | 0, s => some s
  | n + 1, s =>
    if s.mainInterval then
      match tick today fuel s with
      | none => none
      | some s => ticks today fuel n s
    else ticks today fuel n s

/-- `togglePlay`. -/
def togglePlay (s : State) : State :=
  if s.isPlaying then pauseSession s
  else if s.isPaused then resumeSession s
  else startCountdown s

/-- `resetToStart`. -/
def resetToStart (s : State) : State :=
  let s := stopSession s
  { s with sessionComplete := false, timeLimit := TimeLimit.empty }

/-- `startWithPreset(minutes)`: `minutes.toString()` is a non-empty digit string. -/
def startWithPreset (minutes : Nat) (s : State) : State :=
  let s := { s with timeLimit := TimeLimit.text (some minutes) }
  startCountdown s

/-! ## Rendering and user intents -/

/-- The four branches of `render()`: the countdown screen, the session screen (playing
or paused), the completion summary, and the settings screen of an idle session. -/
inductive Screen where
  | countdown : Screen
  | session : Screen
  | complete : Screen
  | settings : Screen
  deriving Repr, DecidableEq

/-- Which branch `render()` takes; it decides which buttons exist to be clicked. -/
def screen (s : State) : Screen :=
  if s.isStartingCountdown then Screen.countdown
  else if s.isPlaying || s.isPaused then Screen.session
  else if s.sessionComplete then Screen.complete
  else Screen.settings

/-- The `change` listener of the sound toggle. -/
def onSoundToggle (checked : Bool) (s : State) : State :=
  let s := { s with soundEnabled := checked }
  if s.soundEnabled then playTone 0 s else s

/-- The `change` listener of the haptic toggle. -/
def onHapticToggle (checked : Bool) (s : State) : State :=
  let s := { s with hapticEnabled := checked }
  if s.hapticEnabled then vibrate [30] s else s

/-- The `input` listener of the duration field: the value with every non-digit removed,
so either `''` (`none`) or a digit string (`some` of its value). -/
def onTimeLimitInput (digits : Option Nat) (s : State) : State :=
  match digits with
  | none => { s with timeLimit := TimeLimit.empty }
  | some n => { s with timeLimit := TimeLimit.text (some n) }

/-- The `input` listener of the pace slider. -/
def onPaceInput (m : ℚ) (s : State) : State := { s with phaseMultiplier := m }

/-- The `change` listener of the pattern select. -/
def onPatternChange (p : Pattern) (s : State) : State := { s with selectedPattern := p }

/-- The `visibilitychange` listener, for a tab that has become visible. -/
def onVisible (s : State) : State := if s.isPlaying then requestWakeLock s else s

/-- One transition of the controller: a click on a button the current screen shows, a
settings change on the settings screen, a firing of a scheduled timer, or the tab
becoming visible.  `render()` runs at the end of every handler, so the buttons on screen
are always those of `screen s`. -/
inductive Step : State → State → Prop where
  | clickTogglePlay (s : State) :
      screen s = Screen.session ∨ screen s = Screen.settings → Step s (togglePlay s)
  | clickStop (s : State) : screen s = Screen.session → Step s (stopSession s)
  | clickReset (s : State) : screen s = Screen.complete → Step s (resetToStart s)
  | clickPreset (s : State) (minutes : Nat) :
      screen s = Screen.settings → minutes = 2 ∨ minutes = 5 ∨ minutes = 10 →
      Step s (startWithPreset minutes s)
  | soundToggle (s : State) (checked : Bool) :
      screen s = Screen.settings → Step s (onSoundToggle checked s)
  | hapticToggle (s : State) (checked : Bool) :
      screen s = Screen.settings → Step s (onHapticToggle checked s)
  | timeLimitInput (s : State) (digits : Option Nat) :
      screen s = Screen.settings → Step s (onTimeLimitInput digits s)
  | paceInput (s : State) (m : ℚ) :
      screen s = Screen.settings → Step s (onPaceInput m s)
  | patternChange (s : State) (p : Pattern) :
      screen s = Screen.settings → p ∈ PATTERNS.all → Step s (onPatternChange p s)
  | countdownTimer (s : State) : 0 < s.countdownIntervals → Step s (countdownTick s)
  | mainTimer (s s' : State) (today : Int) (fuel : Nat) :
      s.mainInterval = true → tick today fuel s = some s' → Step s s'
  | visible (s : State) : Step s (onVisible s)

/-- The states the controller can reach from the initial state. -/
inductive Reachable (stats : Stats) : State → Prop where
  | init : Reachable stats (initialState stats)
  | step (s s' : State) : Reachable stats s → Step s s' → Reachable stats s'

/-! ## Animation sampler and scene renderer -/

/-- The progress computation of `animate`, from the effective duration of the current
phase, the remaining countdown and the seconds elapsed since the last tick. -/
def sampleProgress (phaseDuration phaseCountdown : Int) (elapsed : ℚ) : ℚ :=
  let effectiveCountdown := (phaseCountdown : ℚ) - elapsed
  let progress :=
    if phaseDuration > 0 then ((phaseDuration : ℚ) - effectiveCountdown) / phaseDuration
    else 0
  max 0 (min 1 progress)

/-- The progress `animate` hands to `drawScene`, for a frame `elapsed` seconds after the
last tick (`elapsed = (now - lastStateUpdate) / 1000`). -/
def animateProgress (s : State) (elapsed : ℚ) : ℚ :=
  sampleProgress (getScaledPhaseDuration s s.currentPhase) s.phaseCountdown elapsed

/-- The fields of `state` that only the renderer reads.  JavaScript numbers are taken as
real numbers: the rounding of floating-point arithmetic is not modelled. -/
structure RenderState where
  viewportWidth : ℝ
  viewportHeight : ℝ
  prefersReducedMotion : Bool
  pulseStartTime : Option ℝ

/-- `easedProgress` of `drawScene`: the progress clamped to [0, 1] and eased. -/
noncomputable def easedProgress (progress : ℝ) : ℝ :=
  let clampedProgress := max 0 (min 1 progress)
  0.5 - Real.cos (Real.pi * clampedProgress) / 2

/-- The quantities `drawScene` computes before it issues its draw calls. -/
structure Scene where
  sizeWithoutBreath : ℝ
  breathInfluence : ℝ
  pulseBoost : ℝ
  size : ℝ
  adjustedLeft : ℝ
  adjustedTop : ℝ
  points : List (ℝ × ℝ)
  currentX : ℝ
  currentY : ℝ

/-- `drawScene({ progress, phase, timestamp })` up to where the draw calls start; `none`
when it returns without drawing (no viewport, or an idle session). -/
noncomputable def drawScene (s : State) (r : RenderState) (progress : ℝ) (phase : Nat)
    (timestamp : ℝ) : Option Scene :=
  let width := r.viewportWidth
  let height := r.viewportHeight
  if width = 0 ∨ height = 0 then none
  else if !s.isPlaying && !s.sessionComplete && !s.isStartingCountdown then none
  else
    let easedProgress := easedProgress progress
    let baseSize := min width height * 0.55
    let margin : ℝ := 30
    let sizeWithoutBreath := min baseSize (min width height - margin * 2)
    let verticalOffset := min (height * 0.12) 80
    let centerY := height / 2 + verticalOffset
    let centerX := width / 2
    let top := centerY - sizeWithoutBreath / 2
    let left := centerX - sizeWithoutBreath / 2
    let now := timestamp
    let allowMotion := !r.prefersReducedMotion
    let currentPhaseObj := (getPattern s).phases.getD s.currentPhase ⟨"", 0⟩
    let breathInfluence : ℝ :=
      if currentPhaseObj.name = "Inhale" then easedProgress
      else if currentPhaseObj.name = "Exhale" then 1 - easedProgress
      else if currentPhaseObj.name = "Hold" then
        (if allowMotion then 1 + 0.02 * Real.sin (now / 300) else 1)
      else (if allowMotion then 0.02 * Real.sin (now / 300) else 0)
    let pulseBoost : ℝ :=
      match r.pulseStartTime with
      | some pulseStartTime =>
        if allowMotion then
          let pulseElapsed := (now - pulseStartTime) / 1000
          if pulseElapsed < 0.4 then Real.sin (pulseElapsed / 0.4 * Real.pi) * 0.5 else 0
        else 0
      | none => 0
    let size := sizeWithoutBreath * (1 + 0.1 * breathInfluence + 0.02 * pulseBoost)
    let adjustedLeft := left + (sizeWithoutBreath - size) / 2
    let adjustedTop := top + (sizeWithoutBreath - size) / 2
    let points : List (ℝ × ℝ) :=
      [(adjustedLeft, adjustedTop + size), (adjustedLeft, adjustedTop),
       (adjustedLeft + size, adjustedTop), (adjustedLeft + size, adjustedTop + size)]
    let startPoint := points.getD phase (0, 0)
    let endPoint := points.getD ((phase + 1) % 4) (0, 0)
    let currentX := startPoint.1 + easedProgress * (endPoint.1 - startPoint.1)
    let currentY := startPoint.2 + easedProgress * (endPoint.2 - startPoint.2)
    some
      { sizeWithoutBreath := sizeWithoutBreath, breathInfluence := breathInfluence,
        pulseBoost := pulseBoost, size := size, adjustedLeft := adjustedLeft,
        adjustedTop := adjustedTop, points := points, currentX := currentX,
        currentY := currentY }

/-- `PHASE_COLORS`. -/
def PHASE_COLORS : List String := ["#f97316", "#fbbf24", "#38bdf8", "#22c55e"]

/-- JavaScript `Math.round` on a real number. -/
noncomputable def mathRoundReal (x : ℝ) : Int := ⌊x + 1 / 2⌋

/-- A CSS colour as `drawScene` writes it: a call `hexToRgba(hex, alpha)`, recorded by its
two arguments (`hexToRgba` is a pure function of them), or a string literal. -/
inductive Colour where
  | hexToRgba (hex : String) (alpha : ℝ) : Colour
  | css (text : String) : Colour

/-- A radial gradient object: the six arguments of `ctx.createRadialGradient` and the
colour stops added to it, in call order. -/
structure Gradient where
  x0 : ℝ
  y0 : ℝ
  r0 : ℝ
  x1 : ℝ
  y1 : ℝ
  r1 : ℝ
  colorStops : List (ℝ × Colour)

/-- The fingerprint `gradientKey` of `drawScene`.  The source joins the four values into
the string `size-accentColor-left-top`; an accent colour is `#` followed by six digits
and the three numbers are printed integers, so two such strings are equal exactly when
the four values are. -/
structure GradientKey where
  size : Int
  accentColor : String
  left : Int
  top : Int
  deriving DecidableEq

/-- The module variables `cachedGradient` (`none` is `null`) and `cachedGradientKey`
(`none` is the empty string). -/
structure GradientCache where
  cachedGradient : Option Gradient
  cachedGradientKey : Option GradientKey

/-- The cache when the script is loaded. -/
def emptyCache : GradientCache := { cachedGradient := none, cachedGradientKey := none }

/-- `invalidateGradient`. -/
def invalidateGradient (_cache : GradientCache) : GradientCache :=
  { cachedGradient := none, cachedGradientKey := none }

/-- The `gradientKey` that `drawScene` computes from the box of the scene. -/
noncomputable def gradientKey (sc : Scene) (accentColor : String) : GradientKey :=
  { size := mathRoundReal (sc.size * 100), accentColor := accentColor,
    left := mathRoundReal sc.adjustedLeft, top := mathRoundReal sc.adjustedTop }

/-- The gradient `drawScene` builds when it does not reuse the cached one: the call of
`ctx.createRadialGradient` and the two calls of `addColorStop`. -/
noncomputable def createRadialGradient (sc : Scene) (accentColor : String) : Gradient :=
  { x0 := sc.adjustedLeft + sc.size / 2, y0 := sc.adjustedTop + sc.size / 2,
    r0 := sc.size * 0.1,
    x1 := sc.adjustedLeft + sc.size / 2, y1 := sc.adjustedTop + sc.size / 2,
    r1 := sc.size * 0.9,
    colorStops :=
      [(0, Colour.hexToRgba accentColor 0.15), (1, Colour.css "rgba(0, 0, 0, 0)")] }

/-- The gradient background step of `drawScene`: the value assigned to `ctx.fillStyle`
and the cache variables afterwards. -/
noncomputable def fillBackground (cache : GradientCache) (sc : Scene) (accentColor : String) :
    Gradient × GradientCache :=
  let gradientKey := gradientKey sc accentColor
  match cache.cachedGradient with
  | some cachedGradient =>
    if cache.cachedGradientKey ≠ some gradientKey then
      (createRadialGradient sc accentColor,
        { cachedGradient := some (createRadialGradient sc accentColor),
          cachedGradientKey := some gradientKey })
    else (cachedGradient, cache)
  | none =>
    (createRadialGradient sc accentColor,
      { cachedGradient := some (createRadialGradient sc accentColor),
        cachedGradientKey := some gradientKey })

/-- `drawScene` with its gradient background: the scene and the gradient the background
is filled with (`none` when nothing is drawn), and the cache variables afterwards.  For a
phase index outside 0..3 the source throws before it reaches the gradient. -/
noncomputable def drawSceneCached (r : RenderState) (cache : GradientCache) (s : State)
    (progress : ℝ) (phase : Nat) (timestamp : ℝ) :
    Option (Scene × Gradient) × GradientCache :=
  match drawScene s r progress phase timestamp, PHASE_COLORS.get? phase with
  | some sc, some accentColor =>
    ((some (sc, (fillBackground cache sc accentColor).1)),
      (fillBackground cache sc accentColor).2)
  | _, _ => (none, cache)

/-- What happens to the renderer between and at its calls: a call of `drawScene`, a
`resizeCanvas` (new viewport, cache invalidated), an `invalidateGradient` from
`stopSession` or `completeSession`, a write to `state.pulseStartTime`, a change of the
reduced-motion preference. -/
inductive RenderEvent where
  | draw (s : State) (progress : ℝ) (phase : Nat) (timestamp : ℝ) : RenderEvent
  | resize (width height : ℝ) : RenderEvent
  | invalidate : RenderEvent
  | pulse (pulseStartTime : Option ℝ) : RenderEvent
  | reducedMotion (prefers : Bool) : RenderEvent

/-- The outputs of the `drawScene` calls of a sequence of events, with the cache. -/
noncomputable def renderCached :
    RenderState → GradientCache → List RenderEvent → List (Option (Scene × Gradient))
  | _, _, [] => []
  | r, cache, RenderEvent.draw s progress phase timestamp :: events =>
    (drawSceneCached r cache s progress phase timestamp).1 ::
      renderCached r (drawSceneCached r cache s progress phase timestamp).2 events
  | r, cache, RenderEvent.resize width height :: events =>
    renderCached { r with viewportWidth := width, viewportHeight := height }
      (invalidateGradient cache) events
  | r, cache, RenderEvent.invalidate :: events =>
    renderCached r (invalidateGradient cache) events
  | r, cache, RenderEvent.pulse pulseStartTime :: events =>
    renderCached { r with pulseStartTime := pulseStartTime } cache events
  | r, cache, RenderEvent.reducedMotion prefers :: events =>
    renderCached { r with prefersReducedMotion := prefers } cache events

/-! ## Notions used by the statements and proofs -/

/-- The effective duration `Math.round(baseDuration * multiplier)` of phase `i` of
pattern `p` at pace `m`; `getScaledPhaseDuration` reads `p` and `m` from the state. -/
def scaledDuration (p : Pattern) (m : ℚ) (i : Nat) : Int :=
  mathRound (((p.phases.getD i ⟨"", 0⟩).duration : ℚ) * m)

/-- The sum of the effective durations of the phases before phase `k`. -/
def phaseStart (s : State) (k : Nat) : Int :=
  ((List.range k).map (getScaledPhaseDuration s)).sum

/-- The clock invariant of a session: the phase index is in range, the countdown lies
between 1 and the effective duration of the current phase, and the elapsed seconds are
accounted for by whole cycles, whole phases and the part of the current phase used. -/
structure ClockInv (s : State) : Prop where
  phase_lt : s.currentPhase < 4
  one_le : 1 ≤ s.phaseCountdown
  le_dur : s.phaseCountdown ≤ getScaledPhaseDuration s s.currentPhase
  elapsed : (s.totalTime : Int) =
    (s.cycleCount : Int) * getTotalCycleDuration s + phaseStart s s.currentPhase
      + (getScaledPhaseDuration s s.currentPhase - s.phaseCountdown)

/-- The state a `Flow` carries. -/
def Flow.state : Flow → State
  | Flow.done s => s
  | Flow.next s => s

/-- The session clock stands at the first second of its current phase. -/
structure AtPhaseStart (s : State) : Prop where
  phase_lt : s.currentPhase < 4
  countdown_eq : s.phaseCountdown = getScaledPhaseDuration s s.currentPhase
  elapsed : (s.totalTime : Int) =
    (s.cycleCount : Int) * getTotalCycleDuration s + phaseStart s s.currentPhase

/-- The settings a tick reads but never writes. -/
structure SameSettings (s s' : State) : Prop where
  pattern : s'.selectedPattern = s.selectedPattern
  multiplier : s'.phaseMultiplier = s.phaseMultiplier
  limit : s'.timeLimit = s.timeLimit

/-- The phase advance the tick handler performs, in its first step and in every
iteration of the skip loop: next index modulo 4 and a freshly loaded countdown. -/
def nextPhase (s : State) : State :=
  let s := { s with currentPhase := (s.currentPhase + 1) % 4 }
  { s with phaseCountdown := getScaledPhaseDuration s s.currentPhase }

/-- The increment `state.cycleCount++`. -/
def bumpCycle (s : State) : State := { s with cycleCount := s.cycleCount + 1 }

/-- What one run of the skip loop, entered from `s`, guarantees about its result. -/
structure LoopPost (s : State) (r : Flow) : Prop where
  inv : ClockInv r.state
  settings : SameSettings s r.state
  totalTime_eq : r.state.totalTime = s.totalTime
  reached_eq : r.state.timeLimitReached = s.timeLimitReached
  cycle_le : s.cycleCount ≤ r.state.cycleCount
  outcome :
    (∃ s', r = Flow.next s' ∧ s'.mainInterval = s.mainInterval ∧
        s'.isPlaying = s.isPlaying ∧ s'.sessionComplete = s.sessionComplete) ∨
    (∃ s', r = Flow.done s' ∧ s'.mainInterval = false ∧ s'.isPlaying = false ∧
        s'.sessionComplete = true ∧ 1 ≤ s'.cycleCount ∧ s.timeLimitReached = true)

/-- Whether the elapsed time of `s` has reached the parsed time limit. -/
def limitHit (s : State) : Bool :=
  match s.timeLimit with
  | TimeLimit.text (some minutes) => decide (minutes * 60 ≤ s.totalTime)
  | _ => false

/-- The state of the tick handler after `state.totalTime++` and the time-limit check. -/
def tickHead (s : State) : State := checkTimeLimit { s with totalTime := s.totalTime + 1 }

/-- The tail of the tick handler once the skip loop has run. -/
def tickFinish : Option Flow → Option State
  | none => none
  | some (Flow.done s) => some s
  | some (Flow.next s) => some (vibratePhaseChange (playTone s.currentPhase s))

/-- What one tick from `s` guarantees about the state `s'` it produces, for a clock that
satisfies `ClockInv`. -/
structure TickPost (s s' : State) : Prop where
  inv : ClockInv s'
  settings : SameSettings s s'
  totalTime_eq : s'.totalTime = s.totalTime + 1
  reached_eq : s'.timeLimitReached = (tickHead s).timeLimitReached
  cycle_le : s.cycleCount ≤ s'.cycleCount
  outcome :
    (s'.mainInterval = s.mainInterval ∧ s'.isPlaying = s.isPlaying ∧
        s'.sessionComplete = s.sessionComplete) ∨
    (s'.mainInterval = false ∧ s'.isPlaying = false ∧ s'.sessionComplete = true ∧
        1 ≤ s'.cycleCount ∧ s'.timeLimitReached = true)

/-- One second of the 1 Hz timer: the callback runs if the timer is scheduled. -/
def second (today : Int) (fuel : Nat) (s : State) : Option State :=
  if s.mainInterval then tick today fuel s else some s

/-- What `n` seconds of the timer from `s` guarantee about the state `s'` reached. -/
structure RunPost (n : Nat) (s s' : State) : Prop where
  inv : ClockInv s'
  settings : SameSettings s s'
  cycle_le : s.cycleCount ≤ s'.cycleCount
  time_le : s'.totalTime ≤ s.totalTime + n
  reached : s'.timeLimitReached = true →
    s.timeLimitReached = true ∨
      ∃ m, s.timeLimit = TimeLimit.text (some m) ∧ m * 60 ≤ s'.totalTime
  outcome :
    (s'.mainInterval = true ∧ s'.totalTime = s.totalTime + n ∧ s'.isPlaying = s.isPlaying ∧
        s'.sessionComplete = s.sessionComplete) ∨
    (s'.mainInterval = false ∧ s'.isPlaying = false ∧ s'.sessionComplete = true ∧
        1 ≤ s'.cycleCount ∧ s'.timeLimitReached = true)

/-- What the skip loop guarantees about its result whatever state it is entered from. -/
structure FlowPost (s : State) (r : Flow) : Prop where
  settings : SameSettings s r.state
  totalTime_eq : r.state.totalTime = s.totalTime
  reached_eq : r.state.timeLimitReached = s.timeLimitReached
  cycle_le : s.cycleCount ≤ r.state.cycleCount
  outcome :
    (∃ s', r = Flow.next s' ∧ s'.mainInterval = s.mainInterval ∧
        s'.isPlaying = s.isPlaying ∧ s'.isPaused = s.isPaused ∧
        s'.isStartingCountdown = s.isStartingCountdown ∧
        s'.sessionComplete = s.sessionComplete ∧ s'.stats = s.stats ∧
        getScaledPhaseDuration s' s'.currentPhase ≠ 0 ∧
        (s.timeLimitReached = true → s'.cycleCount = s.cycleCount)) ∨
    (∃ s', r = Flow.done s' ∧ s'.mainInterval = false ∧ s'.isPlaying = false ∧
        s'.isPaused = s.isPaused ∧ s'.isStartingCountdown = s.isStartingCountdown ∧
        s'.sessionComplete = true ∧ s'.currentPhase = 0 ∧
        s'.phaseCountdown = getScaledPhaseDuration s 0 ∧
        s'.cycleCount = s.cycleCount + 1 ∧ s.timeLimitReached = true)

/-- What one run of the tick handler from an arbitrary state `s` guarantees about the
state `s'` it returns: the countdown was decremented, or the phase advanced and the
session goes on, or the phase wrapped to 0 with the target reached and the session was
completed. -/
structure StepPost (s s' : State) : Prop where
  settings : SameSettings s s'
  totalTime_eq : s'.totalTime = s.totalTime + 1
  reached_eq : s'.timeLimitReached = (tickHead s).timeLimitReached
  isPaused_eq : s'.isPaused = s.isPaused
  countingDown_eq : s'.isStartingCountdown = s.isStartingCountdown
  outcome :
    (1 < s.phaseCountdown ∧ s'.phaseCountdown = s.phaseCountdown - 1 ∧
        s'.currentPhase = s.currentPhase ∧ s'.cycleCount = s.cycleCount ∧
        s'.mainInterval = s.mainInterval ∧ s'.isPlaying = s.isPlaying ∧
        s'.sessionComplete = s.sessionComplete ∧ s'.stats = s.stats) ∨
    (s.phaseCountdown ≤ 1 ∧ getScaledPhaseDuration s' s'.currentPhase ≠ 0 ∧
        s'.currentPhase < 4 ∧ s.cycleCount ≤ s'.cycleCount ∧
        (s'.timeLimitReached = true → s'.cycleCount = s.cycleCount) ∧
        s'.mainInterval = s.mainInterval ∧ s'.isPlaying = s.isPlaying ∧
        s'.sessionComplete = s.sessionComplete ∧ s'.stats = s.stats) ∨
    (s.phaseCountdown ≤ 1 ∧ s'.timeLimitReached = true ∧ s'.currentPhase = 0 ∧
        s'.cycleCount = s.cycleCount + 1 ∧
        s'.phaseCountdown = getScaledPhaseDuration s 0 ∧
        s'.sessionComplete = true ∧ s'.isPlaying = false ∧ s'.mainInterval = false)

/-- What any number of seconds of the timer guarantee, whatever the starting state. -/
structure RunFacts (n : Nat) (s s' : State) : Prop where
  settings : SameSettings s s'
  cycle_le : s.cycleCount ≤ s'.cycleCount
  time_le : s'.totalTime ≤ s.totalTime + n
  reached : s'.timeLimitReached = true →
    s.timeLimitReached = true ∨
      ∃ m, s.timeLimit = TimeLimit.text (some m) ∧ m * 60 ≤ s'.totalTime
  complete : s'.sessionComplete = true →
    s.sessionComplete = true ∨ (s'.timeLimitReached = true ∧ s.cycleCount < s'.cycleCount)

/-- The states a session reaches from `startSession s0`: by 1 Hz ticks (while the timer is
scheduled), pauses and resumes, in any order. -/
inductive SessionReach (s0 : State) : State → Prop where
  | start : SessionReach s0 (startSession s0)
  | tick (t t' : State) (today : Int) (fuel : Nat) :
      SessionReach s0 t → t.mainInterval = true → tick today fuel t = some t' →
      SessionReach s0 t'
  | pause (t : State) : SessionReach s0 t → SessionReach s0 (pauseSession t)
  | resume (t : State) : SessionReach s0 t → SessionReach s0 (resumeSession t)

/-- The number of advances, among `k` successive phase advances that start at index `c`,
that go from index 3 back to index 0. -/
def wrapCount : Nat → Nat → Nat
  | _, 0 => 0
  | c, k + 1 => (if c = 3 then 1 else 0) + wrapCount ((c + 1) % 4) k

/-- The total effective cycle duration in whole seconds, as a natural number. -/
def cycleSeconds (s : State) : Nat := (getTotalCycleDuration s).toNat

/-- The number of whole cycles needed to reach a target of `T` minutes: the ceiling of
`60 * T / C`, with `C` the total effective cycle duration. -/
def cyclesToTarget (s : State) (T : Nat) : Nat :=
  (60 * T + cycleSeconds s - 1) / cycleSeconds s

/-- Rendering without the cache, the reference the cache is compared with: the gradient
is computed afresh at every call from that call's own box size, box position and accent
colour. -/
noncomputable def drawSceneFresh (r : RenderState) (s : State) (progress : ℝ) (phase : Nat)
    (timestamp : ℝ) : Option (Scene × Gradient) :=
  match drawScene s r progress phase timestamp, PHASE_COLORS.get? phase with
  | some sc, some accentColor => some (sc, createRadialGradient sc accentColor)
  | _, _ => none

/-- The outputs of the `drawScene` calls of a sequence of events, without the cache. -/
noncomputable def renderFresh :
    RenderState → List RenderEvent → List (Option (Scene × Gradient))
  | _, [] => []
  | r, RenderEvent.draw s progress phase timestamp :: events =>
    drawSceneFresh r s progress phase timestamp :: renderFresh r events
  | r, RenderEvent.resize width height :: events =>
    renderFresh { r with viewportWidth := width, viewportHeight := height } events
  | r, RenderEvent.invalidate :: events => renderFresh r events
  | r, RenderEvent.pulse pulseStartTime :: events =>
    renderFresh { r with pulseStartTime := pulseStartTime } events
  | r, RenderEvent.reducedMotion prefers :: events =>
    renderFresh { r with prefersReducedMotion := prefers } events

/-- Two outputs of `drawScene` agree up to the fingerprint: the same scene, the same
colour stops and the same centre, and radii that differ by less than 0.001 (inner) and
0.009 (outer). -/
def SameUpToFingerprint : Option (Scene × Gradient) → Option (Scene × Gradient) → Prop
  | some a, some b =>
    a.1 = b.1 ∧ a.2.colorStops = b.2.colorStops ∧
    a.2.x0 = b.2.x0 ∧ a.2.y0 = b.2.y0 ∧ a.2.x1 = b.2.x1 ∧ a.2.y1 = b.2.y1 ∧
    |a.2.r0 - b.2.r0| < 0.001 ∧ |a.2.r1 - b.2.r1| < 0.009
  | none, none => True
  | _, _ => False

/-- The cached gradient was computed afresh for a box that has the stored fingerprint and
is centred in the current viewport. -/
def CacheInv (r : RenderState) (cache : GradientCache) : Prop :=
  ∀ g, cache.cachedGradient = some g →
    ∃ sc accentColor, cache.cachedGradientKey = some (gradientKey sc accentColor) ∧
      g = createRadialGradient sc accentColor ∧
      sc.adjustedLeft + sc.size / 2 = r.viewportWidth / 2 ∧
      sc.adjustedTop + sc.size / 2 = r.viewportHeight / 2 + min (r.viewportHeight * 0.12) 80

/-- The ledger after one more session completion: `completeSession` run on calendar day
`c.1` in the state `c.2`, whose ledger is `st` at that moment. -/
def completeOn (st : Stats) (c : Int × State) : Stats :=
  (completeSession c.1 { c.2 with stats := st }).stats

/-- The ledger after a sequence of session completions, oldest first, that starts from
the zeroed ledger.  Each completion is given by its calendar day and by the state the
session is in when `completeSession` runs. -/
def ledgerAfter (completions : List (Int × State)) : Stats :=
  completions.foldl completeOn zeroStats

/-- The streak invariant of a ledger that has seen at least one completion. -/
structure StreakInv (st : Stats) : Prop where
  one_le : 1 ≤ st.currentStreak
  cur_le : st.currentStreak ≤ st.longestStreak
  longest_le : st.longestStreak ≤ st.totalSessions

/-! ## Concrete sessions and further invariants -/

/-- The Running state a session started with the 2-minute preset begins in: Box pattern,
pace 1, after `startWithPreset(2)` and the three countdown ticks. -/
def boxTwoMinutes : State :=
  countdownTick (countdownTick (countdownTick (startWithPreset 2 (initialState zeroStats))))

/-- The state of the `boxTwoMinutes` session after `n` seconds. -/
def boxTwoMinutesAfter (n : Nat) : State :=
  (ticks 0 3 n boxTwoMinutes).getD boxTwoMinutes

/-- The invariant of a running session used for C3: while playing, the timer is
scheduled, the phase index is in range, and the current phase has a non-zero effective
duration unless the countdown is about to expire. -/
structure SkipInv (s : State) : Prop where
  interval : s.isPlaying = true → s.mainInterval = true
  phase_lt : s.isPlaying = true → s.currentPhase < 4
  nonzero : s.isPlaying = true →
    getScaledPhaseDuration s s.currentPhase ≠ 0 ∨ s.phaseCountdown ≤ 1

/-- The session of the C3 witness: base durations 4-0-4-0 at pace 1, no target. -/
def skipSession : State :=
  startSession { initialState zeroStats with selectedPattern := Pattern.ofDurations 4 0 4 0 }

/-- A session whose four base durations are all 0, at pace 1, with no target. -/
def zeroSession : State :=
  startSession { initialState zeroStats with selectedPattern := Pattern.ofDurations 0 0 0 0 }

/-- A session whose four base durations are all 0, at pace 1, with a 2-minute target. -/
def zeroSessionTwoMinutes : State :=
  startSession { initialState zeroStats with
    selectedPattern := Pattern.ofDurations 0 0 0 0, timeLimit := TimeLimit.text (some 2) }

/-- A session whose four base durations are all 0, with a target of 0 minutes typed in:
the first tick sets the target-reached flag. -/
def zeroSessionZeroTarget : State :=
  startSession { initialState zeroStats with
    selectedPattern := Pattern.ofDurations 0 0 0 0, timeLimit := TimeLimit.text (some 0) }

/-- A ledger with streak 3 (longest 3) whose last session was on day 9. -/
def sampleLedger : Stats :=
  { totalSessions := 5, totalMinutes := 20, totalCycles := 70,
    currentStreak := 3, lastSessionDate := some 9, longestStreak := 3 }

/-- A Running session 128 seconds and 8 cycles in, over `sampleLedger`. -/
def sampleFinished : State :=
  { startSession (initialState sampleLedger) with totalTime := 128, cycleCount := 8 }

/-- The invariant behind C7: the four mode flags exclude each other, and the two timers
are scheduled exactly in the modes they belong to. -/
structure ModeInv (s : State) : Prop where
  countdown_timer : s.countdownIntervals = if s.isStartingCountdown then 1 else 0
  main_timer : s.mainInterval = s.isPlaying
  counting_excl : s.isStartingCountdown = true →
    s.isPlaying = false ∧ s.isPaused = false ∧ s.sessionComplete = false
  playing_excl : s.isPlaying = true → s.isPaused = false ∧ s.sessionComplete = false
  paused_excl : s.isPaused = true → s.sessionComplete = false

/-- The Session Clock fields: phase index, remaining countdown, elapsed seconds, cycle
count, target and target-reached flag. -/
def clock (s : State) : Nat × Int × Nat × Nat × TimeLimit × Bool :=
  (s.currentPhase, s.phaseCountdown, s.totalTime, s.cycleCount, s.timeLimit,
    s.timeLimitReached)

/-- Base durations 4-7-8-0 at pace 0.5. -/
def relaxingHalfPace : State :=
  { initialState zeroStats with selectedPattern := PATTERNS.relaxing, phaseMultiplier := 1 / 2 }

/-- An Idle state whose duration field holds text that does not parse to a number. -/
def unparsableLimit : State :=
  { initialState zeroStats with timeLimit := TimeLimit.text none }

/-- Base durations 4-0-4-0 at pace 1, no target: the settings of `skipSession`. -/
def skipSettings : State :=
  { initialState zeroStats with selectedPattern := Pattern.ofDurations 4 0 4 0 }

/-- The state of `skipSession` (durations 4-0-4-0) after `n` seconds. -/
def skipSessionAfter (n : Nat) : State := (ticks 0 3 n skipSession).getD skipSession

/-- The settings of the C20 witness: Box pattern, pace 1, a 2-minute target, flags clear. -/
def boxTwoMinuteSettings : State :=
  { initialState zeroStats with timeLimit := TimeLimit.text (some 2) }

/-- A viewport of 400 by 800 pixels with motion allowed and a phase change at time 0. -/
noncomputable def sampleRender : RenderState :=
  { viewportWidth := 400, viewportHeight := 800, prefersReducedMotion := false,
    pulseStartTime := some 0 }

/-- A viewport of 400 by 800 pixels under reduced motion, no phase change recorded. -/
noncomputable def reducedMotionRender : RenderState :=
  { viewportWidth := 400, viewportHeight := 800, prefersReducedMotion := true,
    pulseStartTime := none }

/-- Two animation frames of the first phase (Inhale) of a Box session, at progress 0 and
at progress 1/1000. -/
noncomputable def twoFrames : List RenderEvent :=
  [RenderEvent.draw (startSession (initialState zeroStats)) 0 0 1000,
   RenderEvent.draw (startSession (initialState zeroStats)) (1 / 1000) 0 1004]

/-- Three completions: on day 10, again on day 10, and on day 11. -/
def threeCompletions : List (Int × State) :=
  [(10, sampleFinished), (10, boxTwoMinutesAfter 127), (11, sampleFinished)]

/-! # Theorems -/

/-! ## Basic lemmas -/

theorem getScaledPhaseDuration_eq (s : State) (i : Nat) :
    getScaledPhaseDuration s i = scaledDuration s.selectedPattern s.phaseMultiplier i := rfl

theorem Pattern.foldl_phases (p : Pattern) (m : ℚ) :
    p.phases.foldl (fun sum phase => sum + mathRound ((phase.duration : ℚ) * m)) 0 =
      scaledDuration p m 0 + scaledDuration p m 1 + scaledDuration p m 2
        + scaledDuration p m 3 := by
  obtain ⟨nm, ds, l, hl⟩ := p
  match l, hl with
  | [a, b, c, d], _ => simp [scaledDuration]

theorem getTotalCycleDuration_eq (s : State) :
    getTotalCycleDuration s =
      scaledDuration s.selectedPattern s.phaseMultiplier 0
        + scaledDuration s.selectedPattern s.phaseMultiplier 1
        + scaledDuration s.selectedPattern s.phaseMultiplier 2
        + scaledDuration s.selectedPattern s.phaseMultiplier 3 :=
  Pattern.foldl_phases s.selectedPattern s.phaseMultiplier

theorem phaseStart_eq (s : State) (k : Nat) :
    phaseStart s k =
      ((List.range k).map (scaledDuration s.selectedPattern s.phaseMultiplier)).sum := rfl

theorem phaseStart_zero (s : State) : phaseStart s 0 = 0 := rfl

theorem phaseStart_succ (s : State) (k : Nat) :
    phaseStart s (k + 1) = phaseStart s k + getScaledPhaseDuration s k := by
  simp [phaseStart, List.range_succ]

theorem phaseStart_four (s : State) : phaseStart s 4 = getTotalCycleDuration s := by
  rw [getTotalCycleDuration_eq]
  simp [phaseStart, List.range_succ, getScaledPhaseDuration_eq]
  ring

theorem skipZeroPhases_nonzero (today : Int) (fuel : Nat) (s : State)
    (hz : getScaledPhaseDuration s s.currentPhase ≠ 0) :
    skipZeroPhases today fuel s = some (Flow.next s) := by
  cases fuel <;> simp [skipZeroPhases, hz]

theorem skipZeroPhases_zero (today : Int) (fuel : Nat) (s : State)
    (hz : getScaledPhaseDuration s s.currentPhase = 0) :
    skipZeroPhases today (fuel + 1) s =
      if (nextPhase s).currentPhase = 0 then
        if s.timeLimitReached then
          some (Flow.done (completeSession today (bumpCycle (nextPhase s))))
        else skipZeroPhases today fuel (bumpCycle (nextPhase s))
      else skipZeroPhases today fuel (nextPhase s) := by
  rw [skipZeroPhases]
  simp only [hz, if_true]
  rfl

theorem ClockInv.of_fields {s s' : State} (h : ClockInv s)
    (hp : s'.selectedPattern = s.selectedPattern) (hm : s'.phaseMultiplier = s.phaseMultiplier)
    (h1 : s'.currentPhase = s.currentPhase) (h2 : s'.phaseCountdown = s.phaseCountdown)
    (h3 : s'.totalTime = s.totalTime) (h4 : s'.cycleCount = s.cycleCount) : ClockInv s' := by
  obtain ⟨a, b, c, d⟩ := h
  constructor
  · omega
  · omega
  · rw [getScaledPhaseDuration_eq, hp, hm, h1, h2]; exact c
  · rw [getScaledPhaseDuration_eq, getTotalCycleDuration_eq, phaseStart_eq, hp, hm, h1, h2, h3, h4]
    rw [getScaledPhaseDuration_eq, getTotalCycleDuration_eq, phaseStart_eq] at d
    exact d

theorem AtPhaseStart.clockInv {s : State} (h : AtPhaseStart s)
    (hpos : 0 < getScaledPhaseDuration s s.currentPhase) : ClockInv s := by
  obtain ⟨a, b, c⟩ := h
  exact ⟨a, by omega, by omega, by omega⟩

theorem atPhaseStart_advance {s : State} (hlt : s.currentPhase < 3)
    (he : (s.totalTime : Int) = (s.cycleCount : Int) * getTotalCycleDuration s
      + phaseStart s s.currentPhase + getScaledPhaseDuration s s.currentPhase) :
    AtPhaseStart (nextPhase s) := by
  have e1 : (nextPhase s).currentPhase = s.currentPhase + 1 := by
    show (s.currentPhase + 1) % 4 = _
    omega
  refine ⟨by omega, rfl, ?_⟩
  rw [e1, phaseStart_succ]
  show (s.totalTime : Int) = (s.cycleCount : Int) * getTotalCycleDuration s
      + (phaseStart s s.currentPhase + getScaledPhaseDuration s s.currentPhase)
  omega

theorem atPhaseStart_wrap {s : State} (h3 : s.currentPhase = 3)
    (he : (s.totalTime : Int) = (s.cycleCount : Int) * getTotalCycleDuration s
      + phaseStart s s.currentPhase + getScaledPhaseDuration s s.currentPhase) :
    AtPhaseStart (bumpCycle (nextPhase s)) := by
  have e1 : (bumpCycle (nextPhase s)).currentPhase = 0 := by
    show (s.currentPhase + 1) % 4 = _
    omega
  refine ⟨by omega, rfl, ?_⟩
  rw [e1, phaseStart_zero]
  show (s.totalTime : Int) = ((s.cycleCount + 1 : Nat) : Int) * getTotalCycleDuration s + 0
  have h4 := phaseStart_succ s 3
  rw [phaseStart_four, ← h3] at h4
  push_cast
  rw [add_mul]
  omega

theorem AtPhaseStart.advance {s : State} (h : AtPhaseStart s)
    (hz : getScaledPhaseDuration s s.currentPhase = 0) (hlt : s.currentPhase < 3) :
    AtPhaseStart (nextPhase s) :=
  atPhaseStart_advance hlt (by have := h.elapsed; omega)

theorem AtPhaseStart.wrap {s : State} (h : AtPhaseStart s)
    (hz : getScaledPhaseDuration s s.currentPhase = 0) (h3 : s.currentPhase = 3) :
    AtPhaseStart (bumpCycle (nextPhase s)) :=
  atPhaseStart_wrap h3 (by have := h.elapsed; omega)

theorem LoopPost.stop {s : State} (hs : AtPhaseStart s)
    (hpos : 0 < getScaledPhaseDuration s s.currentPhase) : LoopPost s (Flow.next s) :=
  ⟨hs.clockInv hpos, ⟨rfl, rfl, rfl⟩, rfl, rfl, le_refl _, Or.inl ⟨s, rfl, rfl, rfl, rfl⟩⟩

theorem LoopPost.complete (today : Int) {s : State} (hs : AtPhaseStart s)
    (hc : s.currentPhase = 0) (hpos : 0 < getScaledPhaseDuration s 0)
    (hcyc : 1 ≤ s.cycleCount) (hr : s.timeLimitReached = true) :
    LoopPost s (Flow.done (completeSession today s)) := by
  have hi : ClockInv s := hs.clockInv (by rw [hc]; exact hpos)
  exact ⟨hi.of_fields rfl rfl rfl rfl rfl rfl, ⟨rfl, rfl, rfl⟩, rfl, rfl, le_refl _,
    Or.inr ⟨_, rfl, rfl, rfl, rfl, hcyc, hr⟩⟩

theorem LoopPost.after_advance {s t : State} {r : Flow} (h : LoopPost t r)
    (hp : t.selectedPattern = s.selectedPattern) (hm : t.phaseMultiplier = s.phaseMultiplier)
    (hl : t.timeLimit = s.timeLimit) (ht : t.totalTime = s.totalTime)
    (hr : t.timeLimitReached = s.timeLimitReached) (hc : s.cycleCount ≤ t.cycleCount)
    (hi : t.mainInterval = s.mainInterval) (hpl : t.isPlaying = s.isPlaying)
    (hsc : t.sessionComplete = s.sessionComplete) : LoopPost s r := by
  obtain ⟨a, ⟨b1, b2, b3⟩, c, d, e, f⟩ := h
  refine ⟨a, ⟨b1.trans hp, b2.trans hm, b3.trans hl⟩, c.trans ht, d.trans hr, le_trans hc e, ?_⟩
  rcases f with ⟨s', h1, h2, h3, h4⟩ | ⟨s', h1, h2, h3, h4, h5, h6⟩
  · exact Or.inl ⟨s', h1, h2.trans hi, h3.trans hpl, h4.trans hsc⟩
  · exact Or.inr ⟨s', h1, h2, h3, h4, h5, h6.symm.trans hr |>.symm⟩

theorem skipZeroPhases_spec (today : Int) :
    ∀ (fuel : Nat) (s : State), AtPhaseStart s →
      0 < getScaledPhaseDuration s 0 → (∀ i, 0 ≤ getScaledPhaseDuration s i) →
      (s.currentPhase = 0 ∨ 4 ≤ fuel + s.currentPhase) →
      ∃ r, skipZeroPhases today fuel s = some r ∧ LoopPost s r := by
  intro fuel
  induction fuel with
  | zero =>
    intro s hs h0 hnn hf
    have hlt := hs.phase_lt
    have hc : s.currentPhase = 0 := by omega
    have hpos : 0 < getScaledPhaseDuration s s.currentPhase := by rw [hc]; exact h0
    exact ⟨_, skipZeroPhases_nonzero today 0 s (by omega), LoopPost.stop hs hpos⟩
  | succ n ih =>
    intro s hs h0 hnn hf
    have hlt := hs.phase_lt
    by_cases hz : getScaledPhaseDuration s s.currentPhase = 0
    · have hne : s.currentPhase ≠ 0 := by
        intro hc; rw [hc] at hz; omega
      rw [skipZeroPhases_zero today n s hz]
      by_cases h3 : s.currentPhase = 3
      · have hw := hs.wrap hz h3
        have e0 : (nextPhase s).currentPhase = 0 := by
          show (s.currentPhase + 1) % 4 = 0
          omega
        rw [if_pos e0]
        by_cases hr : s.timeLimitReached = true
        · rw [if_pos hr]
          refine ⟨_, rfl, ?_⟩
          have := LoopPost.complete today hw e0 h0 (Nat.le_add_left 1 s.cycleCount) hr
          exact this.after_advance rfl rfl rfl rfl rfl (Nat.le_succ _) rfl rfl rfl
        · rw [if_neg hr]
          obtain ⟨r, hr1, hr2⟩ := ih (bumpCycle (nextPhase s)) hw h0 hnn (Or.inl e0)
          exact ⟨r, hr1, hr2.after_advance rfl rfl rfl rfl rfl (Nat.le_succ _) rfl rfl rfl⟩
      · have ha := hs.advance hz (by omega)
        have e1 : (nextPhase s).currentPhase = s.currentPhase + 1 := by
          show (s.currentPhase + 1) % 4 = _
          omega
        rw [if_neg (by rw [e1]; omega)]
        obtain ⟨r, hr1, hr2⟩ := ih (nextPhase s) ha h0 hnn (Or.inr (by rw [e1]; omega))
        exact ⟨r, hr1, hr2.after_advance rfl rfl rfl rfl rfl (le_refl _) rfl rfl rfl⟩
    · have hpos : 0 < getScaledPhaseDuration s s.currentPhase := by
        have := hnn s.currentPhase
        omega
      exact ⟨_, skipZeroPhases_nonzero today _ s hz, LoopPost.stop hs hpos⟩

theorem checkTimeLimit_eq (s : State) :
    checkTimeLimit s = { s with timeLimitReached := s.timeLimitReached || limitHit s } := by
  cases s with
  | mk ip ipa isc sc cp pc tt cc se he tl sp pm scp tlr st mi af ci ef =>
    cases tl with
    | empty => simp [checkTimeLimit, limitHit]
    | text parsed =>
      cases parsed with
      | none => cases tlr <;> simp [checkTimeLimit, limitHit]
      | some m =>
        cases tlr <;> by_cases hm : m * 60 ≤ tt <;> simp [checkTimeLimit, limitHit, hm]

theorem tick_eq (today : Int) (fuel : Nat) (s : State) :
    tick today fuel s =
      if (tickHead s).phaseCountdown ≤ 1 then
        if (nextPhase (tickHead s)).currentPhase = 0 then
          if (tickHead s).timeLimitReached then
            some (completeSession today (bumpCycle (nextPhase (tickHead s))))
          else tickFinish (skipZeroPhases today fuel (bumpCycle (nextPhase (tickHead s))))
        else tickFinish (skipZeroPhases today fuel (nextPhase (tickHead s)))
      else some { tickHead s with phaseCountdown := (tickHead s).phaseCountdown - 1 } := by
  unfold tick
  simp only []
  by_cases h1 : (tickHead s).phaseCountdown ≤ 1
  · have h1' : (checkTimeLimit { s with totalTime := s.totalTime + 1 }).phaseCountdown ≤ 1 := h1
    rw [if_pos h1, if_pos h1']
    by_cases h2 : (nextPhase (tickHead s)).currentPhase = 0
    · have h2' : ((checkTimeLimit { s with totalTime := s.totalTime + 1 }).currentPhase + 1) % 4
          = 0 := h2
      rw [if_pos h2, if_pos h2']
      by_cases h3 : (tickHead s).timeLimitReached = true
      · have h3' : (checkTimeLimit { s with totalTime := s.totalTime + 1 }).timeLimitReached
            = true := h3
        rw [if_pos h3, if_pos h3']
        rfl
      · have h3' : ¬ (checkTimeLimit { s with totalTime := s.totalTime + 1 }).timeLimitReached
            = true := h3
        rw [if_neg h3, if_neg h3']
        rfl
    · have h2' : ¬ ((checkTimeLimit { s with totalTime := s.totalTime + 1 }).currentPhase + 1) % 4
          = 0 := h2
      rw [if_neg h2, if_neg h2']
      rfl
  · have h1' : ¬ (checkTimeLimit { s with totalTime := s.totalTime + 1 }).phaseCountdown ≤ 1 := h1
    rw [if_neg h1, if_neg h1']
    rfl

theorem tickHead_eq (s : State) :
    tickHead s = { s with totalTime := s.totalTime + 1,
                          timeLimitReached := s.timeLimitReached ||
                            limitHit { s with totalTime := s.totalTime + 1 } } := by
  unfold tickHead
  rw [checkTimeLimit_eq]

theorem TickPost.of_loop {s t : State} {r : Flow} {s' : State} (h : LoopPost t r)
    (hfin : tickFinish (some r) = some s')
    (hp : t.selectedPattern = s.selectedPattern) (hm : t.phaseMultiplier = s.phaseMultiplier)
    (hl : t.timeLimit = s.timeLimit) (ht : t.totalTime = s.totalTime + 1)
    (hr : t.timeLimitReached = (tickHead s).timeLimitReached)
    (hc : s.cycleCount ≤ t.cycleCount)
    (hi : t.mainInterval = s.mainInterval) (hpl : t.isPlaying = s.isPlaying)
    (hsc : t.sessionComplete = s.sessionComplete) : TickPost s s' := by
  obtain ⟨a, ⟨b1, b2, b3⟩, c, d, e, f⟩ := h
  rcases f with ⟨u, h1, h2, h3, h4⟩ | ⟨u, h1, h2, h3, h4, h5, h6⟩
  · subst h1
    simp only [tickFinish, Option.some.injEq] at hfin
    subst hfin
    simp only [Flow.state] at a b1 b2 b3 c d e
    exact ⟨a.of_fields rfl rfl rfl rfl rfl rfl, ⟨b1.trans hp, b2.trans hm, b3.trans hl⟩,
      c.trans ht, d.trans hr, le_trans hc e, Or.inl ⟨h2.trans hi, h3.trans hpl, h4.trans hsc⟩⟩
  · subst h1
    simp only [tickFinish, Option.some.injEq] at hfin
    subst hfin
    simp only [Flow.state] at a b1 b2 b3 c d e
    exact ⟨a, ⟨b1.trans hp, b2.trans hm, b3.trans hl⟩,
      c.trans ht, d.trans hr, le_trans hc e, Or.inr ⟨h2, h3, h4, h5, d.trans h6⟩⟩

theorem tickFinish_some (r : Flow) : ∃ s', tickFinish (some r) = some s' := by
  cases r <;> exact ⟨_, rfl⟩

theorem tick_spec (today : Int) (fuel : Nat) (s : State) (hfuel : 3 ≤ fuel)
    (h0 : 0 < getScaledPhaseDuration s 0) (hnn : ∀ i, 0 ≤ getScaledPhaseDuration s i)
    (hs : ClockInv s) : ∃ s', tick today fuel s = some s' ∧ TickPost s s' := by
  obtain ⟨hlt, h1, h2, h3⟩ := hs
  have hcd : (tickHead s).phaseCountdown = s.phaseCountdown := by rw [tickHead_eq]
  have hcp : (tickHead s).currentPhase = s.currentPhase := by rw [tickHead_eq]
  have htt : (tickHead s).totalTime = s.totalTime + 1 := by rw [tickHead_eq]
  have hcc : (tickHead s).cycleCount = s.cycleCount := by rw [tickHead_eq]
  have hsp : (tickHead s).selectedPattern = s.selectedPattern := by rw [tickHead_eq]
  have hpm : (tickHead s).phaseMultiplier = s.phaseMultiplier := by rw [tickHead_eq]
  have htl : (tickHead s).timeLimit = s.timeLimit := by rw [tickHead_eq]
  have hmi : (tickHead s).mainInterval = s.mainInterval := by rw [tickHead_eq]
  have hip : (tickHead s).isPlaying = s.isPlaying := by rw [tickHead_eq]
  have hsc : (tickHead s).sessionComplete = s.sessionComplete := by rw [tickHead_eq]
  have hd : ∀ i, getScaledPhaseDuration (tickHead s) i = getScaledPhaseDuration s i := by
    intro i; rw [tickHead_eq]; rfl
  have hC : getTotalCycleDuration (tickHead s) = getTotalCycleDuration s := by
    rw [tickHead_eq]; rfl
  have hP : ∀ k, phaseStart (tickHead s) k = phaseStart s k := by
    intro k; rw [tickHead_eq]; rfl
  rw [tick_eq]
  by_cases hle : (tickHead s).phaseCountdown ≤ 1
  · rw [if_pos hle]
    have he : ((tickHead s).totalTime : Int) =
        ((tickHead s).cycleCount : Int) * getTotalCycleDuration (tickHead s)
          + phaseStart (tickHead s) (tickHead s).currentPhase
          + getScaledPhaseDuration (tickHead s) (tickHead s).currentPhase := by
      rw [hC, hP, hd, htt, hcc, hcp]
      rw [hcd] at hle
      push_cast
      omega
    by_cases hw : s.currentPhase = 3
    · have e0 : (nextPhase (tickHead s)).currentPhase = 0 := by
        show ((tickHead s).currentPhase + 1) % 4 = 0
        rw [hcp]; omega
      have hat := atPhaseStart_wrap (hcp.trans hw) he
      rw [if_pos e0]
      by_cases hr : (tickHead s).timeLimitReached = true
      · rw [if_pos hr]
        refine ⟨_, rfl, ?_⟩
        have hpost := LoopPost.complete today hat e0 (by rw [← hd] at h0; exact h0)
          (Nat.le_add_left 1 _) hr
        exact TickPost.of_loop hpost rfl hsp hpm htl htt rfl
          (by show s.cycleCount ≤ (tickHead s).cycleCount + 1; omega)
          hmi hip hsc
      · rw [if_neg hr]
        obtain ⟨r, hr1, hr2⟩ := skipZeroPhases_spec today fuel _ hat
          (by rw [← hd] at h0; exact h0) (fun i => by have := hnn i; rw [← hd] at this; exact this)
          (Or.inl e0)
        rw [hr1]
        obtain ⟨s', hs'⟩ := tickFinish_some r
        exact ⟨s', hs', TickPost.of_loop hr2 hs' hsp hpm htl htt rfl
          (by show s.cycleCount ≤ (tickHead s).cycleCount + 1; omega)
          hmi hip hsc⟩
    · have e1 : (nextPhase (tickHead s)).currentPhase = s.currentPhase + 1 := by
        show ((tickHead s).currentPhase + 1) % 4 = _
        rw [hcp]; omega
      have hat := atPhaseStart_advance (s := tickHead s) (by rw [hcp]; omega) he
      rw [if_neg (by rw [e1]; omega)]
      obtain ⟨r, hr1, hr2⟩ := skipZeroPhases_spec today fuel _ hat
        (by rw [← hd] at h0; exact h0) (fun i => by have := hnn i; rw [← hd] at this; exact this)
        (Or.inr (by rw [e1]; omega))
      rw [hr1]
      obtain ⟨s', hs'⟩ := tickFinish_some r
      exact ⟨s', hs', TickPost.of_loop hr2 hs' hsp hpm htl htt rfl
        (by show s.cycleCount ≤ (tickHead s).cycleCount; omega)
        hmi hip hsc⟩
  · rw [if_neg hle]
    refine ⟨_, rfl, ?_⟩
    rw [hcd] at hle
    refine ⟨⟨?_, ?_, ?_, ?_⟩, ⟨hsp, hpm, htl⟩, htt, rfl,
      by show s.cycleCount ≤ (tickHead s).cycleCount; omega,
      Or.inl ⟨hmi, hip, hsc⟩⟩
    · show (tickHead s).currentPhase < 4
      omega
    · show 1 ≤ (tickHead s).phaseCountdown - 1
      omega
    · show (tickHead s).phaseCountdown - 1 ≤ getScaledPhaseDuration (tickHead s) (tickHead s).currentPhase
      rw [hd, hcp]; omega
    · show ((tickHead s).totalTime : Int) =
        ((tickHead s).cycleCount : Int) * getTotalCycleDuration (tickHead s)
          + phaseStart (tickHead s) (tickHead s).currentPhase
          + (getScaledPhaseDuration (tickHead s) (tickHead s).currentPhase
              - ((tickHead s).phaseCountdown - 1))
      rw [hC, hP, hd, htt, hcc, hcp, hcd]
      push_cast
      omega

/-! ## Runs of the 1 Hz timer -/

theorem ticks_succ (today : Int) (fuel : Nat) (n : Nat) (s : State) :
    ticks today fuel (n + 1) s = (second today fuel s).bind (ticks today fuel n) := by
  rw [ticks, second]
  cases s.mainInterval with
  | true =>
    simp only [if_true]
    cases tick today fuel s <;> rfl
  | false => rfl

theorem ticks_succ_last (today : Int) (fuel : Nat) :
    ∀ (n : Nat) (s : State),
      ticks today fuel (n + 1) s = (ticks today fuel n s).bind (second today fuel) := by
  intro n
  induction n with
  | zero =>
    intro s
    rw [ticks_succ]
    show _ = (some s).bind (second today fuel)
    rw [Option.some_bind]
    cases second today fuel s <;> rfl
  | succ n ih =>
    intro s
    rw [ticks_succ, ticks_succ today fuel n s]
    cases second today fuel s with
    | none => rfl
    | some t => exact ih t

theorem tickHead_reached (s : State) (h : (tickHead s).timeLimitReached = true) :
    s.timeLimitReached = true ∨
      ∃ m, s.timeLimit = TimeLimit.text (some m) ∧ m * 60 ≤ s.totalTime + 1 := by
  rw [tickHead_eq] at h
  simp only [Bool.or_eq_true] at h
  rcases h with h | h
  · exact Or.inl h
  · right
    unfold limitHit at h
    simp only at h
    split at h
    · rename_i m hm
      exact ⟨m, hm, by simpa using h⟩
    · exact absurd h (by simp)

theorem ticks_spec (today : Int) (fuel : Nat) (s : State) (hfuel : 3 ≤ fuel)
    (h0 : 0 < getScaledPhaseDuration s 0) (hnn : ∀ i, 0 ≤ getScaledPhaseDuration s i)
    (hs : ClockInv s) (hmi : s.mainInterval = true) :
    ∀ n, ∃ s', ticks today fuel n s = some s' ∧ RunPost n s s' := by
  intro n
  induction n with
  | zero =>
    exact ⟨s, rfl, hs, ⟨rfl, rfl, rfl⟩, le_refl _, le_refl _, fun h => Or.inl h,
      Or.inl ⟨hmi, rfl, rfl, rfl⟩⟩
  | succ n ih =>
    obtain ⟨t, ht, hinv, ⟨hp, hm, hl⟩, hc, hle, hre, hout⟩ := ih
    rw [ticks_succ_last, ht]
    show ∃ s', second today fuel t = some s' ∧ RunPost (n + 1) s s'
    have hd : ∀ i, getScaledPhaseDuration t i = getScaledPhaseDuration s i := by
      intro i; rw [getScaledPhaseDuration_eq, getScaledPhaseDuration_eq, hp, hm]
    rcases hout with ⟨o1, o2, o3, o4⟩ | ⟨o1, o2, o3, o4, o5⟩
    · obtain ⟨s', hs', q1, ⟨q21, q22, q23⟩, q3, q4, q5, q6⟩ :=
        tick_spec today fuel t hfuel (by rw [hd]; exact h0) (fun i => by rw [hd]; exact hnn i) hinv
      refine ⟨s', by rw [second, o1]; exact hs', q1, ⟨q21.trans hp, q22.trans hm, q23.trans hl⟩,
        le_trans hc q5, by omega, ?_, ?_⟩
      · intro hr
        rw [q4] at hr
        rcases tickHead_reached t hr with h | ⟨m, hm1, hm2⟩
        · rcases hre h with h' | ⟨m, hm1, hm2⟩
          · exact Or.inl h'
          · exact Or.inr ⟨m, hm1, by omega⟩
        · exact Or.inr ⟨m, hm1.symm.trans hl |>.symm ▸ rfl, by omega⟩
      · rcases q6 with ⟨r1, r2, r3⟩ | ⟨r1, r2, r3, r4, r5⟩
        · exact Or.inl ⟨r1.trans o1, by omega, r2.trans o3, r3.trans o4⟩
        · exact Or.inr ⟨r1, r2, r3, r4, r5⟩
    · refine ⟨t, by rw [second, o1]; rfl, hinv, ⟨hp, hm, hl⟩, hc, by omega, hre,
        Or.inr ⟨o1, o2, o3, o4, o5⟩⟩

/-! ## Arithmetic of effective durations -/

theorem scaledDuration_nonneg_of_pos (p : Pattern) (m : ℚ) (h : 0 < scaledDuration p m 0) :
    ∀ i, 0 ≤ scaledDuration p m i := by
  unfold scaledDuration mathRound at *
  rw [Int.floor_pos] at h
  have hb : (0 : ℚ) ≤ ((p.phases.getD 0 ⟨"", 0⟩).duration : ℚ) := Nat.cast_nonneg _
  have hm : 0 < m := by
    by_contra hneg
    have : ((p.phases.getD 0 ⟨"", 0⟩).duration : ℚ) * m ≤ 0 :=
      mul_nonpos_of_nonneg_of_nonpos hb (le_of_not_lt hneg)
    linarith
  intro i
  rw [Int.floor_nonneg]
  have : (0 : ℚ) ≤ ((p.phases.getD i ⟨"", 0⟩).duration : ℚ) * m :=
    mul_nonneg (Nat.cast_nonneg _) hm.le
  linarith

theorem getScaledPhaseDuration_nonneg_of_pos (s : State)
    (h : 0 < getScaledPhaseDuration s 0) : ∀ i, 0 ≤ getScaledPhaseDuration s i :=
  scaledDuration_nonneg_of_pos s.selectedPattern s.phaseMultiplier h

theorem catalog_phase0_pos (p : Pattern) (hp : p ∈ PATTERNS.all) (m : ℚ)
    (h1 : 1 / 2 ≤ m) : 0 < scaledDuration p m 0 := by
  have key : scaledDuration p m 0 = mathRound ((4 : ℚ) * m) := by
    simp only [PATTERNS.all, List.mem_cons, List.mem_singleton, List.not_mem_nil, or_false] at hp
    rcases hp with rfl | rfl | rfl | rfl <;>
      simp [scaledDuration, PATTERNS.box, PATTERNS.relaxing, PATTERNS.energizing,
        PATTERNS.calming]
  rw [key, mathRound, Int.floor_pos]
  linarith

theorem phaseStart_bounds (s : State) (hnn : ∀ i, 0 ≤ getScaledPhaseDuration s i)
    (k : Nat) (hk : k < 4) :
    0 ≤ phaseStart s k ∧
      phaseStart s k + getScaledPhaseDuration s k ≤ getTotalCycleDuration s ∧
      (1 ≤ k → getScaledPhaseDuration s 0 ≤ phaseStart s k) := by
  have h0 := hnn 0
  have h1 := hnn 1
  have h2 := hnn 2
  have h3 := hnn 3
  have e4 := phaseStart_four s
  have e3 := phaseStart_succ s 3
  have e2 := phaseStart_succ s 2
  have e1 := phaseStart_succ s 1
  have e0 := phaseStart_succ s 0
  have ez := phaseStart_zero s
  simp only [Nat.reduceAdd, zero_add] at e0 e1 e2 e3
  interval_cases k <;> refine ⟨?_, ?_, ?_⟩ <;> omega

/-- In a state satisfying the clock invariant, the elapsed seconds determine the cycle
count, the phase and the countdown whenever they are a whole number of cycles, and
fewer elapsed seconds than one cycle mean no cycle has been counted. -/
theorem ClockInv.at_cycle {s : State} (hs : ClockInv s)
    (h0 : 0 < getScaledPhaseDuration s 0) (hnn : ∀ i, 0 ≤ getScaledPhaseDuration s i) :
    ((s.totalTime : Int) = getTotalCycleDuration s →
        s.currentPhase = 0 ∧ s.cycleCount = 1 ∧
          s.phaseCountdown = getScaledPhaseDuration s 0) ∧
    ((s.totalTime : Int) < getTotalCycleDuration s → s.cycleCount = 0) := by
  obtain ⟨hlt, h1, h2, h3⟩ := hs
  obtain ⟨b1, b2, b3⟩ := phaseStart_bounds s hnn s.currentPhase hlt
  have hC : 0 < getTotalCycleDuration s := by omega
  constructor
  · intro he
    have hc1 : s.cycleCount = 1 := by
      rcases hc : s.cycleCount with _ | _ | c
      · rw [hc] at h3; simp only [Nat.cast_zero, zero_mul] at h3; omega
      · rfl
      · rw [hc] at h3
        push_cast at h3
        have : (0 : Int) ≤ (c : Int) * getTotalCycleDuration s :=
          mul_nonneg (Int.ofNat_nonneg c) hC.le
        nlinarith
    rw [hc1] at h3
    simp only [Nat.cast_one, one_mul] at h3
    have hc0 : s.currentPhase = 0 := by
      by_contra hne
      have := b3 (by omega)
      omega
    rw [hc0] at h3 h2 ⊢
    have ez := phaseStart_zero s
    exact ⟨rfl, hc1, by omega⟩
  · intro hl
    rcases hc : s.cycleCount with _ | c
    · rfl
    · rw [hc] at h3
      push_cast at h3
      have : (0 : Int) ≤ (c : Int) * getTotalCycleDuration s :=
        mul_nonneg (Int.ofNat_nonneg c) hC.le
      nlinarith

/-! ## Session start -/

theorem startSession_clock (s : State) :
    (startSession s).currentPhase = 0 ∧
      (startSession s).phaseCountdown = getScaledPhaseDuration s 0 ∧
      (startSession s).totalTime = 0 ∧ (startSession s).cycleCount = 0 ∧
      (startSession s).isPlaying = true ∧ (startSession s).isPaused = false ∧
      (startSession s).mainInterval = true :=
  ⟨rfl, rfl, rfl, rfl, rfl, rfl, rfl⟩

theorem startSession_settings (s : State) :
    (startSession s).selectedPattern = s.selectedPattern ∧
      (startSession s).phaseMultiplier = s.phaseMultiplier ∧
      (startSession s).timeLimit = s.timeLimit ∧
      (startSession s).timeLimitReached = s.timeLimitReached ∧
      (startSession s).sessionComplete = s.sessionComplete :=
  ⟨rfl, rfl, rfl, rfl, rfl⟩

theorem startSession_clockInv (s : State) (h0 : 0 < getScaledPhaseDuration s 0) :
    ClockInv (startSession s) := by
  refine ⟨by show (0 : Nat) < 4; omega, ?_, ?_, ?_⟩
  · show 1 ≤ getScaledPhaseDuration s 0
    omega
  · show getScaledPhaseDuration s 0 ≤ getScaledPhaseDuration s 0
    omega
  · show ((0 : Nat) : Int) = ((0 : Nat) : Int) * getTotalCycleDuration s + phaseStart s 0
      + (getScaledPhaseDuration s 0 - getScaledPhaseDuration s 0)
    rw [phaseStart_zero]
    simp

/-! ## The tick handler on an arbitrary state -/

theorem FlowPost.after_step {s t : State} {r : Flow} (h : FlowPost t r)
    (hp : t.selectedPattern = s.selectedPattern) (hm : t.phaseMultiplier = s.phaseMultiplier)
    (hl : t.timeLimit = s.timeLimit) (ht : t.totalTime = s.totalTime)
    (hr : t.timeLimitReached = s.timeLimitReached)
    (hc : t.cycleCount = s.cycleCount ∨
      (t.cycleCount = s.cycleCount + 1 ∧ s.timeLimitReached = false))
    (hi : t.mainInterval = s.mainInterval) (hpl : t.isPlaying = s.isPlaying)
    (hpa : t.isPaused = s.isPaused) (hco : t.isStartingCountdown = s.isStartingCountdown)
    (hsc : t.sessionComplete = s.sessionComplete) (hst : t.stats = s.stats) :
    FlowPost s r := by
  obtain ⟨⟨b1, b2, b3⟩, c, d, e, f⟩ := h
  have hd0 : getScaledPhaseDuration t 0 = getScaledPhaseDuration s 0 := by
    rw [getScaledPhaseDuration_eq, getScaledPhaseDuration_eq, hp, hm]
  refine ⟨⟨b1.trans hp, b2.trans hm, b3.trans hl⟩, c.trans ht, d.trans hr, by omega, ?_⟩
  rcases f with ⟨s', h1, h2, h3, h4, h5, h6, h7, h8, h9⟩ |
      ⟨s', h1, h2, h3, h4, h5, h6, h7, h8, h9, h10⟩
  · refine Or.inl ⟨s', h1, h2.trans hi, h3.trans hpl, h4.trans hpa, h5.trans hco,
      h6.trans hsc, h7.trans hst, h8, ?_⟩
    intro hs
    have := h9 (hr.trans hs)
    rcases hc with hc | ⟨_, hc⟩
    · omega
    · rw [hs] at hc; exact absurd hc (by simp)
  · refine Or.inr ⟨s', h1, h2, h3, h4.trans hpa, h5.trans hco, h6, h7, h8.trans hd0, ?_,
      hr.symm.trans h10⟩
    rcases hc with hc | ⟨_, hc⟩
    · omega
    · rw [← hr, h10] at hc; exact absurd hc (by simp)

theorem skipZeroPhases_post (today : Int) :
    ∀ (fuel : Nat) (s : State) (r : Flow),
      skipZeroPhases today fuel s = some r → FlowPost s r := by
  intro fuel
  induction fuel with
  | zero =>
    intro s r h
    by_cases hz : getScaledPhaseDuration s s.currentPhase = 0
    · simp [skipZeroPhases, hz] at h
    · rw [skipZeroPhases_nonzero today 0 s hz] at h
      cases h
      exact ⟨⟨rfl, rfl, rfl⟩, rfl, rfl, le_refl _,
        Or.inl ⟨s, rfl, rfl, rfl, rfl, rfl, rfl, rfl, hz, fun _ => rfl⟩⟩
  | succ n ih =>
    intro s r h
    by_cases hz : getScaledPhaseDuration s s.currentPhase = 0
    · rw [skipZeroPhases_zero today n s hz] at h
      by_cases e0 : (nextPhase s).currentPhase = 0
      · rw [if_pos e0] at h
        by_cases hr : s.timeLimitReached = true
        · rw [if_pos hr] at h
          cases h
          have hd0 : (nextPhase s).phaseCountdown = getScaledPhaseDuration s 0 := by
            show getScaledPhaseDuration s ((s.currentPhase + 1) % 4) = _
            have : (s.currentPhase + 1) % 4 = 0 := e0
            rw [this]
          exact ⟨⟨rfl, rfl, rfl⟩, rfl, rfl, Nat.le_succ _,
            Or.inr ⟨_, rfl, rfl, rfl, rfl, rfl, rfl, e0, hd0, rfl, hr⟩⟩
        · rw [if_neg hr] at h
          have hr' : s.timeLimitReached = false := by simpa using hr
          exact (ih _ r h).after_step rfl rfl rfl rfl rfl (Or.inr ⟨rfl, hr'⟩)
            rfl rfl rfl rfl rfl rfl
      · rw [if_neg e0] at h
        exact (ih _ r h).after_step rfl rfl rfl rfl rfl (Or.inl rfl) rfl rfl rfl rfl rfl rfl
    · rw [skipZeroPhases_nonzero today _ s hz] at h
      cases h
      exact ⟨⟨rfl, rfl, rfl⟩, rfl, rfl, le_refl _,
        Or.inl ⟨s, rfl, rfl, rfl, rfl, rfl, rfl, rfl, hz, fun _ => rfl⟩⟩

/-- The skip loop stops within `fuel` iterations when a phase of non-zero effective
duration lies at most `fuel` advances ahead. -/
theorem skipZeroPhases_terminates (today : Int) :
    ∀ (fuel : Nat) (s : State),
      (∃ j, j ≤ fuel ∧ getScaledPhaseDuration s ((s.currentPhase + j) % 4) ≠ 0) →
      s.currentPhase < 4 → ∃ r, skipZeroPhases today fuel s = some r := by
  intro fuel
  induction fuel with
  | zero =>
    intro s ⟨j, hj, hne⟩ hlt
    have hj0 : j = 0 := by omega
    subst hj0
    rw [Nat.add_zero, Nat.mod_eq_of_lt hlt] at hne
    exact ⟨_, skipZeroPhases_nonzero today 0 s hne⟩
  | succ n ih =>
    intro s ⟨j, hj, hne⟩ hlt
    by_cases hz : getScaledPhaseDuration s s.currentPhase = 0
    · have hj1 : 1 ≤ j := by
        rcases Nat.eq_zero_or_pos j with h | h
        · subst h
          rw [Nat.add_zero, Nat.mod_eq_of_lt hlt] at hne
          exact absurd hz hne
        · exact h
      have hnext : ∃ j', j' ≤ n ∧
          getScaledPhaseDuration (nextPhase s) (((nextPhase s).currentPhase + j') % 4) ≠ 0 := by
        refine ⟨j - 1, by omega, ?_⟩
        show getScaledPhaseDuration s (((s.currentPhase + 1) % 4 + (j - 1)) % 4) ≠ 0
        have : ((s.currentPhase + 1) % 4 + (j - 1)) % 4 = (s.currentPhase + j) % 4 := by omega
        rw [this]
        exact hne
      have hlt' : (nextPhase s).currentPhase < 4 := Nat.mod_lt _ (by omega)
      rw [skipZeroPhases_zero today n s hz]
      by_cases e0 : (nextPhase s).currentPhase = 0
      · rw [if_pos e0]
        by_cases hr : s.timeLimitReached = true
        · rw [if_pos hr]
          exact ⟨_, rfl⟩
        · rw [if_neg hr]
          exact ih (bumpCycle (nextPhase s)) hnext hlt'
      · rw [if_neg e0]
        exact ih (nextPhase s) hnext hlt'
    · exact ⟨_, skipZeroPhases_nonzero today _ s hz⟩

/-- With every effective duration 0 and the target-reached flag clear, the skip loop
never stops: it exhausts every bound on its iterations. -/
theorem skipZeroPhases_diverges (today : Int) :
    ∀ (fuel : Nat) (s : State), (∀ i, getScaledPhaseDuration s i = 0) →
      s.timeLimitReached = false → skipZeroPhases today fuel s = none := by
  intro fuel
  induction fuel with
  | zero =>
    intro s hz _
    simp [skipZeroPhases, hz]
  | succ n ih =>
    intro s hz hr
    rw [skipZeroPhases_zero today n s (hz _)]
    have hr' : ¬ s.timeLimitReached = true := by rw [hr]; simp
    simp only [hr', if_false, ite_self]
    by_cases e0 : (nextPhase s).currentPhase = 0
    · rw [if_pos e0]
      exact ih _ hz hr
    · rw [if_neg e0]
      exact ih _ hz hr

theorem StepPost.of_flow {s t : State} {r : Flow} {s' : State} (h : FlowPost t r)
    (hfin : tickFinish (some r) = some s') (hcd : s.phaseCountdown ≤ 1)
    (hp : t.selectedPattern = s.selectedPattern) (hm : t.phaseMultiplier = s.phaseMultiplier)
    (hl : t.timeLimit = s.timeLimit) (ht : t.totalTime = s.totalTime + 1)
    (hr : t.timeLimitReached = (tickHead s).timeLimitReached)
    (hc : t.cycleCount = s.cycleCount ∨
      (t.cycleCount = s.cycleCount + 1 ∧ t.timeLimitReached = false))
    (hi : t.mainInterval = s.mainInterval) (hpl : t.isPlaying = s.isPlaying)
    (hpa : t.isPaused = s.isPaused) (hco : t.isStartingCountdown = s.isStartingCountdown)
    (hsc : t.sessionComplete = s.sessionComplete) (hst : t.stats = s.stats)
    (hphase : ∀ u, r = Flow.next u → u.currentPhase < 4) :
    StepPost s s' := by
  obtain ⟨⟨b1, b2, b3⟩, c, d, e, f⟩ := h
  have hd0 : getScaledPhaseDuration t 0 = getScaledPhaseDuration s 0 := by
    rw [getScaledPhaseDuration_eq, getScaledPhaseDuration_eq, hp, hm]
  rcases f with ⟨u, h1, h2, h3, h4, h5, h6, h7, h8, h9⟩ |
      ⟨u, h1, h2, h3, h4, h5, h6, h7, h8, h9, h10⟩
  · have hu := hphase u h1
    subst h1
    simp only [tickFinish, Option.some.injEq] at hfin
    subst hfin
    simp only [Flow.state] at b1 b2 b3 c d e
    refine ⟨⟨b1.trans hp, b2.trans hm, b3.trans hl⟩, c.trans ht, d.trans hr, h4.trans hpa,
      h5.trans hco, Or.inr (Or.inl ⟨hcd, h8, hu, ?_, ?_, h2.trans hi, h3.trans hpl,
        h6.trans hsc, h7.trans hst⟩)⟩
    · show s.cycleCount ≤ u.cycleCount
      omega
    · intro hflag
      have hflag' : u.timeLimitReached = true := hflag
      have htr : t.timeLimitReached = true := d.symm.trans hflag'
      have := h9 htr
      show u.cycleCount = s.cycleCount
      rcases hc with hc | ⟨_, hc⟩
      · omega
      · rw [htr] at hc; exact absurd hc (by simp)
  · subst h1
    simp only [tickFinish, Option.some.injEq] at hfin
    subst hfin
    simp only [Flow.state] at b1 b2 b3 c d e
    refine ⟨⟨b1.trans hp, b2.trans hm, b3.trans hl⟩, c.trans ht, d.trans hr, h4.trans hpa,
      h5.trans hco, Or.inr (Or.inr ⟨hcd, d.trans h10, h7, ?_, h8.trans hd0, h6, h3, h2⟩)⟩
    rcases hc with hc | ⟨_, hc⟩
    · omega
    · rw [h10] at hc; exact absurd hc (by simp)

theorem skipZeroPhases_phase_lt (today : Int) :
    ∀ (fuel : Nat) (s : State) (u : State), s.currentPhase < 4 →
      skipZeroPhases today fuel s = some (Flow.next u) → u.currentPhase < 4 := by
  intro fuel
  induction fuel with
  | zero =>
    intro s u hlt h
    by_cases hz : getScaledPhaseDuration s s.currentPhase = 0
    · simp [skipZeroPhases, hz] at h
    · rw [skipZeroPhases_nonzero today 0 s hz] at h
      cases h
      exact hlt
  | succ n ih =>
    intro s u hlt h
    by_cases hz : getScaledPhaseDuration s s.currentPhase = 0
    · rw [skipZeroPhases_zero today n s hz] at h
      have hlt' : (nextPhase s).currentPhase < 4 := Nat.mod_lt _ (by omega)
      by_cases e0 : (nextPhase s).currentPhase = 0
      · rw [if_pos e0] at h
        by_cases hr : s.timeLimitReached = true
        · rw [if_pos hr] at h
          cases h
        · rw [if_neg hr] at h
          exact ih (bumpCycle (nextPhase s)) u hlt' h
      · rw [if_neg e0] at h
        exact ih (nextPhase s) u hlt' h
    · rw [skipZeroPhases_nonzero today _ s hz] at h
      cases h
      exact hlt

theorem tickFinish_eq_some {o : Option Flow} {s' : State} (h : tickFinish o = some s') :
    ∃ r, o = some r ∧ tickFinish (some r) = some s' := by
  cases o with
  | none => simp [tickFinish] at h
  | some r => exact ⟨r, rfl, h⟩

theorem tick_post (today : Int) (fuel : Nat) (s s' : State)
    (h : tick today fuel s = some s') : StepPost s s' := by
  have hcd : (tickHead s).phaseCountdown = s.phaseCountdown := by rw [tickHead_eq]
  have hcp : (tickHead s).currentPhase = s.currentPhase := by rw [tickHead_eq]
  have htt : (tickHead s).totalTime = s.totalTime + 1 := by rw [tickHead_eq]
  have hcc : (tickHead s).cycleCount = s.cycleCount := by rw [tickHead_eq]
  have hsp : (tickHead s).selectedPattern = s.selectedPattern := by rw [tickHead_eq]
  have hpm : (tickHead s).phaseMultiplier = s.phaseMultiplier := by rw [tickHead_eq]
  have htl : (tickHead s).timeLimit = s.timeLimit := by rw [tickHead_eq]
  have hmi : (tickHead s).mainInterval = s.mainInterval := by rw [tickHead_eq]
  have hip : (tickHead s).isPlaying = s.isPlaying := by rw [tickHead_eq]
  have hpa : (tickHead s).isPaused = s.isPaused := by rw [tickHead_eq]
  have hco : (tickHead s).isStartingCountdown = s.isStartingCountdown := by rw [tickHead_eq]
  have hsc : (tickHead s).sessionComplete = s.sessionComplete := by rw [tickHead_eq]
  have hst : (tickHead s).stats = s.stats := by rw [tickHead_eq]
  have hd : ∀ i, getScaledPhaseDuration (tickHead s) i = getScaledPhaseDuration s i := by
    intro i; rw [tickHead_eq]; rfl
  have hlt' : (nextPhase (tickHead s)).currentPhase < 4 := Nat.mod_lt _ (by omega)
  rw [tick_eq] at h
  by_cases hle : (tickHead s).phaseCountdown ≤ 1
  · rw [if_pos hle] at h
    rw [hcd] at hle
    by_cases e0 : (nextPhase (tickHead s)).currentPhase = 0
    · rw [if_pos e0] at h
      by_cases hr : (tickHead s).timeLimitReached = true
      · rw [if_pos hr] at h
        cases h
        refine ⟨⟨hsp, hpm, htl⟩, htt, rfl, hpa, hco, Or.inr (Or.inr ⟨hle, hr, e0, ?_, ?_,
          rfl, rfl, rfl⟩)⟩
        · show (tickHead s).cycleCount + 1 = s.cycleCount + 1
          omega
        · show getScaledPhaseDuration (tickHead s) (((tickHead s).currentPhase + 1) % 4) = _
          have e0' : ((tickHead s).currentPhase + 1) % 4 = 0 := e0
          rw [e0', hd]
      · rw [if_neg hr] at h
        obtain ⟨r, hr1, hr2⟩ := tickFinish_eq_some h
        have hr' : (tickHead s).timeLimitReached = false := by simpa using hr
        exact StepPost.of_flow
          (skipZeroPhases_post today fuel (bumpCycle (nextPhase (tickHead s))) r hr1) hr2 hle
          hsp hpm htl htt rfl (Or.inr ⟨by show (tickHead s).cycleCount + 1 = _; omega, hr'⟩)
          hmi hip hpa hco hsc hst
          (fun u hu => skipZeroPhases_phase_lt today fuel (bumpCycle (nextPhase (tickHead s)))
            u hlt' (hu ▸ hr1))
    · rw [if_neg e0] at h
      obtain ⟨r, hr1, hr2⟩ := tickFinish_eq_some h
      exact StepPost.of_flow (skipZeroPhases_post today fuel (nextPhase (tickHead s)) r hr1)
        hr2 hle hsp hpm htl htt rfl (Or.inl hcc) hmi hip hpa hco hsc hst
        (fun u hu => skipZeroPhases_phase_lt today fuel (nextPhase (tickHead s)) u hlt'
          (hu ▸ hr1))
  · rw [if_neg hle] at h
    cases h
    rw [hcd] at hle
    exact ⟨⟨hsp, hpm, htl⟩, htt, rfl, hpa, hco, Or.inl ⟨by omega,
      by show (tickHead s).phaseCountdown - 1 = _; rw [hcd], hcp, hcc, hmi, hip, hsc, hst⟩⟩

theorem tick_terminates (today : Int) (fuel : Nat) (s : State) (hfuel : 3 ≤ fuel)
    (hne : ∃ i, i < 4 ∧ getScaledPhaseDuration s i ≠ 0) :
    ∃ s', tick today fuel s = some s' := by
  obtain ⟨i, hi, hne⟩ := hne
  have hlt' : (nextPhase (tickHead s)).currentPhase < 4 := Nat.mod_lt _ (by omega)
  have hex : ∀ t : State, t.currentPhase < 4 → t.selectedPattern = s.selectedPattern →
      t.phaseMultiplier = s.phaseMultiplier →
      ∃ r, skipZeroPhases today fuel t = some r := by
    intro t ht hp hm
    refine skipZeroPhases_terminates today fuel t ⟨(i + 4 - t.currentPhase) % 4, ?_, ?_⟩ ht
    · omega
    · have : (t.currentPhase + (i + 4 - t.currentPhase) % 4) % 4 = i := by omega
      rw [this, getScaledPhaseDuration_eq, hp, hm]
      exact hne
  have hsp : (tickHead s).selectedPattern = s.selectedPattern := by rw [tickHead_eq]
  have hpm : (tickHead s).phaseMultiplier = s.phaseMultiplier := by rw [tickHead_eq]
  rw [tick_eq]
  by_cases hle : (tickHead s).phaseCountdown ≤ 1
  · rw [if_pos hle]
    by_cases e0 : (nextPhase (tickHead s)).currentPhase = 0
    · rw [if_pos e0]
      by_cases hr : (tickHead s).timeLimitReached = true
      · rw [if_pos hr]
        exact ⟨_, rfl⟩
      · rw [if_neg hr]
        obtain ⟨r, hr1⟩ := hex (bumpCycle (nextPhase (tickHead s))) hlt' hsp hpm
        rw [hr1]
        exact tickFinish_some r
    · rw [if_neg e0]
      obtain ⟨r, hr1⟩ := hex (nextPhase (tickHead s)) hlt' hsp hpm
      rw [hr1]
      exact tickFinish_some r
  · rw [if_neg hle]
    exact ⟨_, rfl⟩

theorem skipZeroPhases_completes (today : Int) :
    ∀ (fuel : Nat) (s : State), (∀ i, getScaledPhaseDuration s i = 0) →
      s.timeLimitReached = true → s.currentPhase < 4 → 4 ≤ fuel + s.currentPhase →
      ∃ s', skipZeroPhases today fuel s = some (Flow.done s') ∧ s'.sessionComplete = true ∧
        s'.isPlaying = false ∧ s'.mainInterval = false := by
  intro fuel
  induction fuel with
  | zero =>
    intro s _ _ hlt hf
    omega
  | succ n ih =>
    intro s hz hr hlt hf
    rw [skipZeroPhases_zero today n s (hz _)]
    by_cases e0 : (nextPhase s).currentPhase = 0
    · rw [if_pos e0, if_pos hr]
      exact ⟨_, rfl, rfl, rfl, rfl⟩
    · rw [if_neg e0]
      have e1 : (nextPhase s).currentPhase = (s.currentPhase + 1) % 4 := rfl
      exact ih (nextPhase s) hz hr (by omega) (by omega)

/-- With every effective duration 0, a tick that has to advance the phase completes the
session at the first wrap if the target-reached flag is set by then, and otherwise its
skip loop exhausts every bound. -/
theorem tick_all_zero (today : Int) (fuel : Nat) (s : State)
    (hz : ∀ i, getScaledPhaseDuration s i = 0) (hcd : s.phaseCountdown ≤ 1) :
    ((tickHead s).timeLimitReached = false → tick today fuel s = none) ∧
    ((tickHead s).timeLimitReached = true → 3 ≤ fuel →
      ∃ s', tick today fuel s = some s' ∧ s'.sessionComplete = true ∧
        s'.isPlaying = false ∧ s'.mainInterval = false) := by
  have hd : ∀ t : State, t.selectedPattern = s.selectedPattern →
      t.phaseMultiplier = s.phaseMultiplier → ∀ i, getScaledPhaseDuration t i = 0 := by
    intro t hp hm i
    rw [getScaledPhaseDuration_eq, hp, hm]
    exact hz i
  have hsp : (tickHead s).selectedPattern = s.selectedPattern := by rw [tickHead_eq]
  have hpm : (tickHead s).phaseMultiplier = s.phaseMultiplier := by rw [tickHead_eq]
  have hcd' : (tickHead s).phaseCountdown ≤ 1 := by rw [tickHead_eq]; exact hcd
  constructor
  · intro hr
    have hr' : ¬ (tickHead s).timeLimitReached = true := by rw [hr]; simp
    rw [tick_eq, if_pos hcd']
    by_cases e0 : (nextPhase (tickHead s)).currentPhase = 0
    · rw [if_pos e0, if_neg hr',
        skipZeroPhases_diverges today fuel (bumpCycle (nextPhase (tickHead s)))
          (hd _ hsp hpm) hr]
      rfl
    · rw [if_neg e0,
        skipZeroPhases_diverges today fuel (nextPhase (tickHead s)) (hd _ hsp hpm) hr]
      rfl
  · intro hr hfuel
    rw [tick_eq, if_pos hcd']
    by_cases e0 : (nextPhase (tickHead s)).currentPhase = 0
    · rw [if_pos e0, if_pos hr]
      exact ⟨_, rfl, rfl, rfl, rfl⟩
    · rw [if_neg e0]
      have e1 : (nextPhase (tickHead s)).currentPhase = ((tickHead s).currentPhase + 1) % 4 :=
        rfl
      obtain ⟨s', h1, h2, h3, h4⟩ := skipZeroPhases_completes today fuel
        (nextPhase (tickHead s)) (hd _ hsp hpm) hr (by omega) (by omega)
      rw [h1]
      exact ⟨s', rfl, h2, h3, h4⟩

theorem StepPost.cycle_le {s s' : State} (h : StepPost s s') :
    s.cycleCount ≤ s'.cycleCount := by
  rcases h.outcome with ⟨_, _, _, h4, _⟩ | ⟨_, _, _, h4, _⟩ | ⟨_, _, _, h4, _⟩ <;> omega

theorem StepPost.complete_iff {s s' : State} (h : StepPost s s')
    (hnc : s.sessionComplete = false) :
    s'.sessionComplete = true ↔ s'.timeLimitReached = true ∧ s.cycleCount < s'.cycleCount := by
  rcases h.outcome with ⟨_, _, _, h4, _, _, h7, _⟩ | ⟨_, _, _, _, h5, _, _, h8, _⟩ |
      ⟨_, h2, _, h4, _, h6, _⟩
  · rw [h7, hnc]
    constructor
    · intro hc; exact absurd hc (by simp)
    · rintro ⟨_, hc⟩; omega
  · rw [h8, hnc]
    constructor
    · intro hc; exact absurd hc (by simp)
    · rintro ⟨hr, hc⟩
      have := h5 hr
      omega
  · exact ⟨fun _ => ⟨h2, by omega⟩, fun _ => h6⟩

theorem ticks_facts (today : Int) (fuel : Nat) (s : State) :
    ∀ n s', ticks today fuel n s = some s' → RunFacts n s s' := by
  intro n
  induction n with
  | zero =>
    intro s' h
    cases h
    exact ⟨⟨rfl, rfl, rfl⟩, le_refl _, le_refl _, fun h => Or.inl h, fun h => Or.inl h⟩
  | succ n ih =>
    intro s' h
    rw [ticks_succ_last] at h
    cases ht : ticks today fuel n s with
    | none => rw [ht] at h; cases h
    | some t =>
      rw [ht] at h
      obtain ⟨⟨a1, a2, a3⟩, b, c, d, e⟩ := ih t ht
      have h' : second today fuel t = some s' := h
      unfold second at h'
      by_cases hmi : t.mainInterval = true
      · rw [if_pos hmi] at h'
        have hp := tick_post today fuel t s' h'
        obtain ⟨q1, q2, q3⟩ := hp.settings
        have hcl := hp.cycle_le
        have htt := hp.totalTime_eq
        refine ⟨⟨q1.trans a1, q2.trans a2, q3.trans a3⟩, by omega, by omega, ?_, ?_⟩
        · intro hr
          rw [hp.reached_eq] at hr
          rcases tickHead_reached t hr with h1 | ⟨m, hm1, hm2⟩
          · rcases d h1 with h2 | ⟨m, hm1, hm2⟩
            · exact Or.inl h2
            · exact Or.inr ⟨m, hm1, by omega⟩
          · exact Or.inr ⟨m, a3 ▸ hm1, by omega⟩
        · intro hc
          by_cases htc : t.sessionComplete = true
          · rcases e htc with h1 | ⟨h1, h2⟩
            · exact Or.inl h1
            · right
              refine ⟨?_, by omega⟩
              rw [hp.reached_eq, tickHead_eq]
              simp [h1]
          · have htc' : t.sessionComplete = false := by simpa using htc
            obtain ⟨r1, r2⟩ := (hp.complete_iff htc').mp hc
            exact Or.inr ⟨r1, by omega⟩
      · rw [if_neg hmi] at h'
        cases h'
        exact ⟨⟨a1, a2, a3⟩, b, by omega, d, e⟩

/-! ## C1 -/

/-- C1. Whenever phase 0 has a positive effective duration (as it has for each of the four
catalog patterns at every pace from 0.5 to 1.5), the state `startSession` produces has
phase 0, countdown equal to the effective duration of phase 0, elapsed 0 and cycles 0;
after exactly `getTotalCycleDuration` runs of the 1 Hz tick handler the phase index is 0,
the cycle count is 1 and the countdown is again the effective duration of phase 0; and
after every smaller number of ticks the cycle count is still 0.  The skip loop needs at
most 3 iterations (`3 ≤ fuel`).  The statement holds whether or not a target is set. -/
theorem cycle_returns_to_phase_zero (today : Int) (fuel : Nat) (s : State)
    (hfuel : 3 ≤ fuel) (hpos : 0 < getScaledPhaseDuration s 0) :
    ((startSession s).currentPhase = 0 ∧
        (startSession s).phaseCountdown = getScaledPhaseDuration s 0 ∧
        (startSession s).totalTime = 0 ∧ (startSession s).cycleCount = 0) ∧
    (∃ s', ticks today fuel (getTotalCycleDuration s).toNat (startSession s) = some s' ∧
        s'.currentPhase = 0 ∧ s'.cycleCount = 1 ∧
        s'.phaseCountdown = getScaledPhaseDuration s 0) ∧
    (∀ k, k < (getTotalCycleDuration s).toNat →
        ∃ s', ticks today fuel k (startSession s) = some s' ∧ s'.cycleCount = 0) ∧
    (∀ p ∈ PATTERNS.all, ∀ m : ℚ, 1 / 2 ≤ m → m ≤ 3 / 2 →
        0 < getScaledPhaseDuration { s with selectedPattern := p, phaseMultiplier := m } 0) := by
  have hnn := getScaledPhaseDuration_nonneg_of_pos s hpos
  have hinv := startSession_clockInv s hpos
  have hrun := ticks_spec today fuel (startSession s) hfuel hpos hnn hinv rfl
  have hCpos : 0 < getTotalCycleDuration s := by
    have := (phaseStart_bounds s hnn 0 (by omega)).2.1
    rw [phaseStart_zero] at this
    omega
  have transfer : ∀ n s', RunPost n (startSession s) s' →
      ClockInv s' ∧ getTotalCycleDuration s' = getTotalCycleDuration s ∧
        (∀ i, getScaledPhaseDuration s' i = getScaledPhaseDuration s i) ∧
        s'.totalTime ≤ n ∧ (s'.totalTime = n ∨ 1 ≤ s'.cycleCount) := by
    intro n s' h
    obtain ⟨a, ⟨b1, b2, b3⟩, c, d, e, f⟩ := h
    have hp : s'.selectedPattern = s.selectedPattern := b1
    have hm : s'.phaseMultiplier = s.phaseMultiplier := b2
    refine ⟨a, ?_, ?_, ?_, ?_⟩
    · rw [getTotalCycleDuration_eq, getTotalCycleDuration_eq, hp, hm]
    · intro i; rw [getScaledPhaseDuration_eq, getScaledPhaseDuration_eq, hp, hm]
    · have : (startSession s).totalTime = 0 := rfl
      omega
    · have : (startSession s).totalTime = 0 := rfl
      rcases f with ⟨_, f2, _⟩ | ⟨_, _, _, f4, _⟩
      · left; omega
      · right; exact f4
  refine ⟨⟨rfl, rfl, rfl, rfl⟩, ?_, ?_, ?_⟩
  · obtain ⟨s', hs', hpost⟩ := hrun (getTotalCycleDuration s).toNat
    obtain ⟨a, hC, hd, hle, hor⟩ := transfer _ _ hpost
    have h0' : 0 < getScaledPhaseDuration s' 0 := by rw [hd]; exact hpos
    have hnn' : ∀ i, 0 ≤ getScaledPhaseDuration s' i := fun i => by rw [hd]; exact hnn i
    obtain ⟨k1, k2⟩ := a.at_cycle h0' hnn'
    have htot : (s'.totalTime : Int) = getTotalCycleDuration s' := by
      rcases hor with h | h
      · rw [h, hC]; omega
      · by_contra hne
        have hlt : (s'.totalTime : Int) < getTotalCycleDuration s' := by rw [hC]; omega
        have := k2 hlt
        omega
    obtain ⟨r1, r2, r3⟩ := k1 htot
    exact ⟨s', hs', r1, r2, by rw [r3, hd]⟩
  · intro k hk
    obtain ⟨s', hs', hpost⟩ := hrun k
    obtain ⟨a, hC, hd, hle, hor⟩ := transfer _ _ hpost
    have h0' : 0 < getScaledPhaseDuration s' 0 := by rw [hd]; exact hpos
    have hnn' : ∀ i, 0 ≤ getScaledPhaseDuration s' i := fun i => by rw [hd]; exact hnn i
    obtain ⟨k1, k2⟩ := a.at_cycle h0' hnn'
    exact ⟨s', hs', k2 (by rw [hC]; omega)⟩
  · intro p hp m h1 _
    exact catalog_phase0_pos p hp m h1

/-- Witness for C1: Box 4-4-4-4 at pace 1 (the initial settings); after 16 ticks the
cycle count is 1, the phase is 0 and the countdown is 4. -/
theorem cycle_returns_to_phase_zero_witness :
    0 < getScaledPhaseDuration (initialState zeroStats) 0 ∧
      ∃ s', ticks 0 3 16 (startSession (initialState zeroStats)) = some s' ∧
        s'.currentPhase = 0 ∧ s'.cycleCount = 1 ∧ s'.phaseCountdown = 4 := by
  have hpos : 0 < getScaledPhaseDuration (initialState zeroStats) 0 := by decide!
  have h := (cycle_returns_to_phase_zero 0 3 (initialState zeroStats) (by decide) hpos).2.1
  have e16 : (getTotalCycleDuration (initialState zeroStats)).toNat = 16 := by decide!
  have e4 : getScaledPhaseDuration (initialState zeroStats) 0 = 4 := by decide!
  rw [e16, e4] at h
  exact ⟨hpos, h⟩

/-! ## C2 -/

/-- C2. For a Running session `s` with a target of `T` minutes: a tick sets the
target-reached flag exactly when it was set before or the elapsed time it counts reaches
`60 * T`; the tick completes the session exactly when the flag is set at that tick and
the tick wraps the phase index to 0 (the handler counts a cycle), in which case the phase
index is 0 and the session is no longer playing; otherwise the session stays Running.
The tick returns whenever some phase has a non-zero effective duration.  Over any number
of ticks from `s`, a session whose flag was clear completes only once the elapsed time
has reached `60 * T`, and only on a tick that wraps. -/
theorem target_completion_on_wrap (today : Int) (fuel : Nat) (s : State) (T : Nat)
    (hT : s.timeLimit = TimeLimit.text (some T)) (hplay : s.isPlaying = true)
    (hnc : s.sessionComplete = false) :
    (∀ s', tick today fuel s = some s' →
      (s'.timeLimitReached = true ↔
        (s.timeLimitReached = true ∨ 60 * T ≤ s.totalTime + 1)) ∧
      (s'.sessionComplete = true ↔
        (s'.timeLimitReached = true ∧ s.cycleCount < s'.cycleCount)) ∧
      (s'.sessionComplete = true →
        s.phaseCountdown ≤ 1 ∧ s'.currentPhase = 0 ∧ s'.cycleCount = s.cycleCount + 1 ∧
          s'.isPlaying = false ∧ s'.mainInterval = false) ∧
      (s'.sessionComplete = false → s'.isPlaying = true)) ∧
    (3 ≤ fuel → (∃ i, i < 4 ∧ getScaledPhaseDuration s i ≠ 0) →
      ∃ s', tick today fuel s = some s') ∧
    (s.timeLimitReached = false → ∀ n s', ticks today fuel n s = some s' →
      s'.sessionComplete = true → 60 * T ≤ s'.totalTime ∧ s.cycleCount < s'.cycleCount) := by
  refine ⟨?_, fun hfuel hne => tick_terminates today fuel s hfuel hne, ?_⟩
  · intro s' h
    have hp := tick_post today fuel s s' h
    refine ⟨?_, hp.complete_iff hnc, ?_, ?_⟩
    · rw [hp.reached_eq, tickHead_eq]
      simp only [Bool.or_eq_true, limitHit, hT, decide_eq_true_eq]
      constructor
      · rintro (h1 | h1)
        · exact Or.inl h1
        · exact Or.inr (by omega)
      · rintro (h1 | h1)
        · exact Or.inl h1
        · exact Or.inr (by omega)
    · intro hc
      rcases hp.outcome with ⟨_, _, _, _, _, _, h7, _⟩ | ⟨_, _, _, _, _, _, _, h8, _⟩ |
          ⟨h1, _, h3, h4, _, _, h7, h8⟩
      · rw [h7, hnc] at hc; exact absurd hc (by simp)
      · rw [h8, hnc] at hc; exact absurd hc (by simp)
      · exact ⟨h1, h3, h4, h7, h8⟩
    · intro hc
      rcases hp.outcome with ⟨_, _, _, _, _, h6, _⟩ | ⟨_, _, _, _, _, _, h7, _⟩ |
          ⟨_, _, _, _, _, h6, _⟩
      · rw [h6]; exact hplay
      · rw [h7]; exact hplay
      · rw [h6] at hc; exact absurd hc (by simp)
  · intro hr n s' h hc
    have hf := ticks_facts today fuel s n s' h
    rcases hf.complete hc with h1 | ⟨h1, h2⟩
    · rw [hnc] at h1; exact absurd h1 (by simp)
    · refine ⟨?_, h2⟩
      rcases hf.reached h1 with h3 | ⟨m, hm1, hm2⟩
      · rw [hr] at h3; exact absurd h3 (by simp)
      · rw [hT] at hm1
        cases hm1
        omega

/-- Witness for C2: Box pattern, pace 1, target 2 minutes.  Tick 120 (run from the state
after 119 seconds) sets the flag and leaves the session Running; after 127 seconds the
session is still Running; tick 128 (run from the state after 127 seconds) completes it. -/
theorem target_completion_on_wrap_witness :
    (∃ s', tick 0 3 (boxTwoMinutesAfter 119) = some s' ∧ s'.totalTime = 120 ∧
        s'.timeLimitReached = true ∧ s'.sessionComplete = false ∧ s'.isPlaying = true) ∧
    ((boxTwoMinutesAfter 127).isPlaying = true ∧
        (boxTwoMinutesAfter 127).sessionComplete = false) ∧
    (∃ s', tick 0 3 (boxTwoMinutesAfter 127) = some s' ∧ s'.totalTime = 128 ∧
        s'.sessionComplete = true ∧ s'.currentPhase = 0 ∧ s'.isPlaying = false) := by
  have a := target_completion_on_wrap 0 3 (boxTwoMinutesAfter 119) 2
    (by decide!) (by decide!) (by decide!)
  have b := target_completion_on_wrap 0 3 (boxTwoMinutesAfter 127) 2
    (by decide!) (by decide!) (by decide!)
  obtain ⟨s1, h1⟩ := a.2.1 (by decide) ⟨0, by decide, by decide!⟩
  obtain ⟨s2, h2⟩ := b.2.1 (by decide) ⟨0, by decide, by decide!⟩
  obtain ⟨a1, a2, a3, a4⟩ := a.1 s1 h1
  obtain ⟨b1, b2, b3, b4⟩ := b.1 s2 h2
  have e1 : (tick 0 3 (boxTwoMinutesAfter 119)).map
      (fun u => (u.totalTime, u.sessionComplete)) = some (120, false) := by decide!
  have e2 : (tick 0 3 (boxTwoMinutesAfter 127)).map
      (fun u => (u.totalTime, u.sessionComplete, u.currentPhase)) = some (128, true, 0) := by
    decide!
  rw [h1] at e1
  rw [h2] at e2
  simp only [Option.map_some', Option.some.injEq, Prod.mk.injEq] at e1 e2
  have t119 : (boxTwoMinutesAfter 119).totalTime = 119 := by decide!
  refine ⟨⟨s1, h1, e1.1, a1.mpr (Or.inr (by rw [t119])), e1.2, a4 e1.2⟩,
    ⟨by decide!, by decide!⟩,
    ⟨s2, h2, e2.1, e2.2.1, e2.2.2, (b3 e2.2.1).2.2.2.1⟩⟩

/-! ## C3 -/

theorem second_skipInv (today : Int) (fuel : Nat) (t s' : State) (ht : SkipInv t)
    (h : second today fuel t = some s') :
    SameSettings t s' ∧ (s'.isPlaying = true →
      s'.mainInterval = true ∧ s'.currentPhase < 4 ∧
        getScaledPhaseDuration s' s'.currentPhase ≠ 0) := by
  unfold second at h
  by_cases hmi : t.mainInterval = true
  · rw [if_pos hmi] at h
    have hp := tick_post today fuel t s' h
    refine ⟨hp.settings, ?_⟩
    obtain ⟨q1, q2, _⟩ := hp.settings
    intro hpl
    rcases hp.outcome with ⟨h1, _, h3, _, h5, h6, _⟩ | ⟨_, h2, h3, _, _, h6, h7, _⟩ |
        ⟨_, _, _, _, _, _, h7, _⟩
    · have hpl' : t.isPlaying = true := h6 ▸ hpl
      refine ⟨h5.trans hmi, h3 ▸ ht.phase_lt hpl', ?_⟩
      rw [getScaledPhaseDuration_eq, q1, q2, h3, ← getScaledPhaseDuration_eq]
      rcases ht.nonzero hpl' with h | h
      · exact h
      · omega
    · exact ⟨h6.trans hmi, h3, h2⟩
    · rw [h7] at hpl; exact absurd hpl (by simp)
  · rw [if_neg hmi] at h
    cases h
    refine ⟨⟨rfl, rfl, rfl⟩, ?_⟩
    intro hpl
    exact absurd (ht.interval hpl) hmi

theorem startSession_skipInv (s : State) : SkipInv (startSession s) := by
  refine ⟨fun _ => rfl, fun _ => by show (0 : Nat) < 4; omega, fun _ => ?_⟩
  show getScaledPhaseDuration s 0 ≠ 0 ∨ getScaledPhaseDuration s 0 ≤ 1
  by_cases h : getScaledPhaseDuration s 0 = 0
  · right; omega
  · left; exact h

theorem ticks_skipInv (today : Int) (fuel : Nat) (s : State) (hfuel : 3 ≤ fuel)
    (hne : ∃ i, i < 4 ∧ getScaledPhaseDuration s i ≠ 0) :
    ∀ n, ∃ s', ticks today fuel n (startSession s) = some s' ∧
      SameSettings (startSession s) s' ∧ SkipInv s' ∧
      (1 ≤ n → s'.isPlaying = true → getScaledPhaseDuration s' s'.currentPhase ≠ 0) := by
  intro n
  induction n with
  | zero =>
    exact ⟨_, rfl, ⟨rfl, rfl, rfl⟩, startSession_skipInv s, fun h => absurd h (by omega)⟩
  | succ n ih =>
    obtain ⟨t, ht, ⟨a1, a2, a3⟩, hinv, _⟩ := ih
    rw [ticks_succ_last, ht]
    show ∃ s', second today fuel t = some s' ∧ _
    have hex : ∃ s', second today fuel t = some s' := by
      unfold second
      by_cases hmi : t.mainInterval = true
      · rw [if_pos hmi]
        refine tick_terminates today fuel t hfuel ?_
        obtain ⟨i, hi, hne⟩ := hne
        refine ⟨i, hi, ?_⟩
        rw [getScaledPhaseDuration_eq, a1, a2]
        exact hne
      · rw [if_neg hmi]
        exact ⟨t, rfl⟩
    obtain ⟨s', hs'⟩ := hex
    obtain ⟨⟨b1, b2, b3⟩, hq⟩ := second_skipInv today fuel t s' hinv hs'
    refine ⟨s', hs', ⟨b1.trans a1, b2.trans a2, b3.trans a3⟩, ?_, fun _ hpl => (hq hpl).2.2⟩
    exact ⟨fun hpl => (hq hpl).1, fun hpl => (hq hpl).2.1, fun hpl => Or.inl (hq hpl).2.2⟩

/-- Counterexample to C3 as stated: with base durations 0-4-0-4 at pace 1 the effective
durations are not all 0, yet the state `startSession` produces is Running in phase 0,
whose effective duration is 0. -/
theorem zero_duration_phase_current_at_start :
    (∃ i, i < 4 ∧ getScaledPhaseDuration
        { initialState zeroStats with selectedPattern := Pattern.ofDurations 0 4 0 4 } i ≠ 0) ∧
      (startSession
        { initialState zeroStats with selectedPattern := Pattern.ofDurations 0 4 0 4 }).isPlaying
          = true ∧
      getScaledPhaseDuration
        (startSession
          { initialState zeroStats with selectedPattern := Pattern.ofDurations 0 4 0 4 })
        (startSession
          { initialState zeroStats with
            selectedPattern := Pattern.ofDurations 0 4 0 4 }).currentPhase = 0 :=
  ⟨⟨1, by decide, by decide!⟩, rfl, by decide!⟩

/-- C3 (amended). For every pattern and pace multiplier whose effective durations are not
all 0: after every tick that leaves the session Running the phase index is in range and
the effective duration of the current phase is non-zero; in the state `startSession`
produces the current phase is phase 0, whose effective duration is non-zero exactly when
that of phase 0 is. -/
theorem current_phase_nonzero_after_tick (today : Int) (fuel : Nat) (s : State)
    (hfuel : 3 ≤ fuel) (hne : ∃ i, i < 4 ∧ getScaledPhaseDuration s i ≠ 0) :
    (∀ n, 1 ≤ n → ∃ s', ticks today fuel n (startSession s) = some s' ∧
      (s'.isPlaying = true →
        s'.currentPhase < 4 ∧ getScaledPhaseDuration s' s'.currentPhase ≠ 0)) ∧
    (getScaledPhaseDuration (startSession s) (startSession s).currentPhase ≠ 0 ↔
      getScaledPhaseDuration s 0 ≠ 0) := by
  refine ⟨?_, Iff.rfl⟩
  intro n hn
  obtain ⟨s', hs', _, hinv, hq⟩ := ticks_skipInv today fuel s hfuel hne n
  exact ⟨s', hs', fun hpl => ⟨hinv.phase_lt hpl, hq hn hpl⟩⟩

/-- Witness for C3: durations 4-0-4-0 at pace 1.  The theorem applies after 4 ticks; over
the first 16 seconds the current phase only takes the values 0 and 2, and the cycle count
goes up by 1 on every second phase advance (at seconds 8 and 16, not at 4 and 12). -/
theorem current_phase_nonzero_after_tick_witness :
    (∃ s', ticks 0 3 4 skipSession = some s' ∧
      (s'.isPlaying = true →
        s'.currentPhase < 4 ∧ getScaledPhaseDuration s' s'.currentPhase ≠ 0)) ∧
    (∀ n, n < 17 → (ticks 0 3 n skipSession).map (fun u => u.currentPhase) = some 0 ∨
      (ticks 0 3 n skipSession).map (fun u => u.currentPhase) = some 2) ∧
    (ticks 0 3 4 skipSession).map (fun u => (u.currentPhase, u.cycleCount)) = some (2, 0) ∧
    (ticks 0 3 8 skipSession).map (fun u => (u.currentPhase, u.cycleCount)) = some (0, 1) ∧
    (ticks 0 3 12 skipSession).map (fun u => (u.currentPhase, u.cycleCount)) = some (2, 1) ∧
    (ticks 0 3 16 skipSession).map (fun u => (u.currentPhase, u.cycleCount)) = some (0, 2) :=
  ⟨(current_phase_nonzero_after_tick 0 3
      { initialState zeroStats with selectedPattern := Pattern.ofDurations 4 0 4 0 }
      (by decide) ⟨0, by decide, by decide!⟩).1 4 (by decide),
    by decide!, by decide!, by decide!, by decide!, by decide!⟩

/-! ## C4 -/

theorem skipZeroPhases_mono (today : Int) :
    ∀ (fuel : Nat) (s : State) (r : Flow), skipZeroPhases today fuel s = some r →
      ∀ k, skipZeroPhases today (fuel + k) s = some r := by
  intro fuel
  induction fuel with
  | zero =>
    intro s r h k
    by_cases hz : getScaledPhaseDuration s s.currentPhase = 0
    · simp [skipZeroPhases, hz] at h
    · rw [skipZeroPhases_nonzero today 0 s hz] at h
      rw [skipZeroPhases_nonzero today _ s hz]
      exact h
  | succ n ih =>
    intro s r h k
    by_cases hz : getScaledPhaseDuration s s.currentPhase = 0
    · have e : n + 1 + k = (n + k) + 1 := by omega
      rw [e, skipZeroPhases_zero today (n + k) s hz]
      rw [skipZeroPhases_zero today n s hz] at h
      by_cases e0 : (nextPhase s).currentPhase = 0
      · rw [if_pos e0] at h ⊢
        by_cases hr : s.timeLimitReached = true
        · rw [if_pos hr] at h ⊢
          exact h
        · rw [if_neg hr] at h ⊢
          exact ih (bumpCycle (nextPhase s)) r h k
      · rw [if_neg e0] at h ⊢
        exact ih (nextPhase s) r h k
    · rw [skipZeroPhases_nonzero today _ s hz] at h
      rw [skipZeroPhases_nonzero today _ s hz]
      exact h

theorem tick_mono (today : Int) (fuel : Nat) (s s' : State)
    (h : tick today fuel s = some s') (k : Nat) : tick today (fuel + k) s = some s' := by
  rw [tick_eq] at h ⊢
  by_cases hle : (tickHead s).phaseCountdown ≤ 1
  · rw [if_pos hle] at h ⊢
    by_cases e0 : (nextPhase (tickHead s)).currentPhase = 0
    · rw [if_pos e0] at h ⊢
      by_cases hr : (tickHead s).timeLimitReached = true
      · rw [if_pos hr] at h ⊢
        exact h
      · rw [if_neg hr] at h ⊢
        obtain ⟨r, hr1, hr2⟩ := tickFinish_eq_some h
        rw [skipZeroPhases_mono today fuel _ r hr1 k]
        exact hr2
    · rw [if_neg e0] at h ⊢
      obtain ⟨r, hr1, hr2⟩ := tickFinish_eq_some h
      rw [skipZeroPhases_mono today fuel _ r hr1 k]
      exact hr2
  · rw [if_neg hle] at h ⊢
    exact h

theorem scaledDuration_all_zero (m : ℚ) (i : Nat) :
    scaledDuration (Pattern.ofDurations 0 0 0 0) m i = 0 := by
  have key : mathRound (((0 : Nat) : ℚ) * m) = 0 := by
    simp only [mathRound, Nat.cast_zero, zero_mul, zero_add]
    rw [Int.floor_eq_zero_iff]
    constructor <;> norm_num
  match i with
  | 0 | 1 | 2 | 3 => exact key
  | n + 4 => exact key

/-- Counterexample to C4 as stated: when all four effective durations are 0, the first
tick of a session returns under no bound on the skip loop, neither without a target
(where the claim expects a no-op) nor with a 2-minute target (where it expects an
immediate completion). -/
theorem tick_all_zero_never_returns :
    (¬ ∃ fuel s', tick 0 fuel zeroSession = some s') ∧
      (¬ ∃ fuel s', tick 0 fuel zeroSessionTwoMinutes = some s') := by
  constructor
  · rintro ⟨fuel, s', h⟩
    have hz : ∀ i, getScaledPhaseDuration zeroSession i = 0 :=
      fun i => scaledDuration_all_zero 1 i
    have hcd : zeroSession.phaseCountdown ≤ 1 := by
      show getScaledPhaseDuration zeroSession 0 ≤ 1
      rw [hz]; omega
    rw [(tick_all_zero 0 fuel zeroSession hz hcd).1 (by decide!)] at h
    cases h
  · rintro ⟨fuel, s', h⟩
    have hz : ∀ i, getScaledPhaseDuration zeroSessionTwoMinutes i = 0 :=
      fun i => scaledDuration_all_zero 1 i
    have hcd : zeroSessionTwoMinutes.phaseCountdown ≤ 1 := by
      show getScaledPhaseDuration zeroSessionTwoMinutes 0 ≤ 1
      rw [hz]; omega
    rw [(tick_all_zero 0 fuel zeroSessionTwoMinutes hz hcd).1 (by decide!)] at h
    cases h

/-- C4 (amended). When not all four effective phase durations are 0, a single run of the
tick handler terminates from every state, and its skip loop needs at most 3 iterations
(so the tick makes at most 4 phase advances): one result serves every bound of 3 or more.
When every phase has effective duration 0 and the countdown has expired, the tick
completes the session if the target-reached flag is set once the time-limit check of
that tick has run, and otherwise it returns under no bound on the skip loop. -/
theorem tick_terminates_unless_all_zero (today : Int) (s : State) :
    ((∃ i, i < 4 ∧ getScaledPhaseDuration s i ≠ 0) →
      ∃ s', ∀ fuel, 3 ≤ fuel → tick today fuel s = some s') ∧
    ((∀ i, getScaledPhaseDuration s i = 0) → s.phaseCountdown ≤ 1 →
      ((tickHead s).timeLimitReached = true →
        ∃ s', (∀ fuel, 3 ≤ fuel → tick today fuel s = some s') ∧
          s'.sessionComplete = true ∧ s'.isPlaying = false ∧ s'.mainInterval = false) ∧
      ((tickHead s).timeLimitReached = false → ∀ fuel, tick today fuel s = none)) := by
  constructor
  · intro hne
    obtain ⟨s', hs'⟩ := tick_terminates today 3 s (le_refl _) hne
    refine ⟨s', fun fuel hf => ?_⟩
    have := tick_mono today 3 s s' hs' (fuel - 3)
    rwa [show 3 + (fuel - 3) = fuel by omega] at this
  · intro hz hcd
    constructor
    · intro hr
      obtain ⟨s', hs', h1, h2, h3⟩ := (tick_all_zero today 3 s hz hcd).2 hr (le_refl _)
      refine ⟨s', fun fuel hf => ?_, h1, h2, h3⟩
      have := tick_mono today 3 s s' hs' (fuel - 3)
      rwa [show 3 + (fuel - 3) = fuel by omega] at this
    · intro hr fuel
      exact (tick_all_zero today fuel s hz hcd).1 hr

/-- Witness for C4: the first tick of a Box session returns under every bound of 3 or
more; the first tick of an all-zero session with target 0 completes the session. -/
theorem tick_terminates_unless_all_zero_witness :
    (∃ s', ∀ fuel, 3 ≤ fuel →
      tick 0 fuel (startSession (initialState zeroStats)) = some s') ∧
    (∃ s', (∀ fuel, 3 ≤ fuel → tick 0 fuel zeroSessionZeroTarget = some s') ∧
      s'.sessionComplete = true ∧ s'.isPlaying = false ∧ s'.mainInterval = false) :=
  ⟨(tick_terminates_unless_all_zero 0 (startSession (initialState zeroStats))).1
      ⟨0, by decide, by decide!⟩,
    ((tick_terminates_unless_all_zero 0 zeroSessionZeroTarget).2
      (fun i => scaledDuration_all_zero 1 i)
      (by show getScaledPhaseDuration zeroSessionZeroTarget 0 ≤ 1
          rw [show getScaledPhaseDuration zeroSessionZeroTarget 0 = 0 from
            scaledDuration_all_zero 1 0]
          omega)).1 (by decide!)⟩

/-! ## C5 -/

/-- C5. For every ledger and every completion day `today`, `updateStreak` sets the
current streak to 1 if no last session date is recorded, leaves it unchanged if the last
session date is today, increases it by exactly 1 if the last session date is the day
before today, and sets it to 1 in every other case; in all cases the last session date
becomes today, the longest streak becomes the maximum of its previous value and the new
current streak, and the three counters are untouched. -/
theorem updateStreak_rule (today : Int) (st : Stats) :
    (st.lastSessionDate = none → (updateStreak today st).currentStreak = 1) ∧
    (st.lastSessionDate = some today →
      (updateStreak today st).currentStreak = st.currentStreak) ∧
    (st.lastSessionDate = some (today - 1) →
      (updateStreak today st).currentStreak = st.currentStreak + 1) ∧
    (∀ d, st.lastSessionDate = some d → d ≠ today → d ≠ today - 1 →
      (updateStreak today st).currentStreak = 1) ∧
    (updateStreak today st).lastSessionDate = some today ∧
    (updateStreak today st).longestStreak =
      max st.longestStreak (updateStreak today st).currentStreak ∧
    (updateStreak today st).totalSessions = st.totalSessions ∧
    (updateStreak today st).totalMinutes = st.totalMinutes ∧
    (updateStreak today st).totalCycles = st.totalCycles := by
  refine ⟨?_, ?_, ?_, ?_, rfl, rfl, rfl, rfl, rfl⟩
  · intro h
    simp [updateStreak, h]
  · intro h
    simp [updateStreak, h]
  · intro h
    have hne : today - 1 ≠ today := by omega
    simp [updateStreak, h, hne]
  · intro d h h1 h2
    simp [updateStreak, h, h1, h2]

/-- Witness for C5: from `sampleLedger`, a completion on day 10 gives streak 4 and
longest 4; on day 9 the streak stays 3; on day 12 it resets to 1 while the longest streak
stays 3; from the zeroed ledger the streak becomes 1. -/
theorem updateStreak_rule_witness :
    (updateStreak 10 sampleLedger).currentStreak = 4 ∧
    (updateStreak 10 sampleLedger).longestStreak = 4 ∧
    (updateStreak 9 sampleLedger).currentStreak = 3 ∧
    (updateStreak 12 sampleLedger).currentStreak = 1 ∧
    (updateStreak 12 sampleLedger).longestStreak = 3 ∧
    (updateStreak 12 zeroStats).currentStreak = 1 :=
  ⟨(updateStreak_rule 10 sampleLedger).2.2.1 rfl, by decide,
    (updateStreak_rule 9 sampleLedger).2.1 rfl,
    (updateStreak_rule 12 sampleLedger).2.2.2.1 9 rfl (by decide) (by decide), by decide,
    (updateStreak_rule 12 zeroStats).1 rfl⟩

/-! ## C6 -/

theorem mathRound_nearest (x : ℚ) :
    (mathRound x : ℚ) - 1 / 2 ≤ x ∧ x < (mathRound x : ℚ) + 1 / 2 := by
  unfold mathRound
  have h1 := Int.floor_le (x + 1 / 2)
  have h2 := Int.lt_floor_add_one (x + 1 / 2)
  constructor <;> linarith

theorem mathRound_nonneg {x : ℚ} (h : 0 ≤ x) : 0 ≤ mathRound x := by
  unfold mathRound
  rw [Int.floor_nonneg]
  linarith

/-- C6. Every session completion, whatever the ledger and the day (so in every streak
case, a same-day repeat included), increases `totalSessions` by exactly 1, increases
`totalMinutes` by the elapsed seconds divided by 60 and rounded to the nearest whole
minute (`Math.round`, within half a minute of the exact quotient), and increases
`totalCycles` by the cycle count of the session; none of the three counters decreases. -/
theorem completeSession_counters (today : Int) (s : State) :
    (completeSession today s).stats.totalSessions = s.stats.totalSessions + 1 ∧
    (completeSession today s).stats.totalMinutes =
      s.stats.totalMinutes + mathRound ((s.totalTime : ℚ) / 60) ∧
    (completeSession today s).stats.totalCycles = s.stats.totalCycles + (s.cycleCount : Int) ∧
    ((mathRound ((s.totalTime : ℚ) / 60) : ℚ) - 1 / 2 ≤ (s.totalTime : ℚ) / 60 ∧
      (s.totalTime : ℚ) / 60 < (mathRound ((s.totalTime : ℚ) / 60) : ℚ) + 1 / 2) ∧
    s.stats.totalSessions ≤ (completeSession today s).stats.totalSessions ∧
    s.stats.totalMinutes ≤ (completeSession today s).stats.totalMinutes ∧
    s.stats.totalCycles ≤ (completeSession today s).stats.totalCycles := by
  have hnn : 0 ≤ mathRound ((s.totalTime : ℚ) / 60) :=
    mathRound_nonneg (div_nonneg (Nat.cast_nonneg _) (by norm_num))
  have e1 : (completeSession today s).stats.totalSessions = s.stats.totalSessions + 1 := rfl
  have e2 : (completeSession today s).stats.totalMinutes =
      s.stats.totalMinutes + mathRound ((s.totalTime : ℚ) / 60) := rfl
  have e3 : (completeSession today s).stats.totalCycles =
      s.stats.totalCycles + (s.cycleCount : Int) := rfl
  refine ⟨e1, e2, e3, mathRound_nearest _, ?_, ?_, ?_⟩
  · rw [e1]; omega
  · rw [e2]; omega
  · rw [e3]; omega

/-- Witness for C6: completing `sampleFinished` on day 9, the day already recorded in the
ledger, raises the sessions from 5 to 6, the minutes from 20 to 22 (128 s round to 2 min)
and the cycles from 70 to 78, while the streak stays 3. -/
theorem completeSession_counters_witness :
    (completeSession 9 sampleFinished).stats.totalSessions = 6 ∧
    (completeSession 9 sampleFinished).stats.totalMinutes = 22 ∧
    (completeSession 9 sampleFinished).stats.totalCycles = 78 ∧
    (completeSession 9 sampleFinished).stats.currentStreak = 3 := by
  have h := completeSession_counters 9 sampleFinished
  refine ⟨h.1, ?_, h.2.2.1, by decide!⟩
  rw [h.2.1]
  decide!

/-! ## C7 -/

theorem ModeInv.of_flags {s s' : State} (h : ModeInv s)
    (h1 : s'.isStartingCountdown = s.isStartingCountdown) (h2 : s'.isPlaying = s.isPlaying)
    (h3 : s'.isPaused = s.isPaused) (h4 : s'.sessionComplete = s.sessionComplete)
    (h5 : s'.countdownIntervals = s.countdownIntervals)
    (h6 : s'.mainInterval = s.mainInterval) : ModeInv s' := by
  obtain ⟨a, b, c, d, e⟩ := h
  constructor
  · rw [h5, h1]; exact a
  · rw [h6, h2]; exact b
  · rw [h1, h2, h3, h4]; exact c
  · rw [h2, h3, h4]; exact d
  · rw [h3, h4]; exact e

theorem ModeInv.togglePlay {s : State} (h : ModeInv s)
    (hs : screen s = Screen.session ∨ screen s = Screen.settings) :
    ModeInv (Box5n3.togglePlay s) := by
  obtain ⟨a, b, c, d, e⟩ := h
  cases s with
  | mk ip ipa isc sc cp pc tt cc se he tl sp pm scp tlr st mi af ci ef =>
    cases ip <;> cases ipa <;> cases isc <;> cases scp
    all_goals simp_all [screen, Box5n3.togglePlay, pauseSession, resumeSession, startCountdown,
      releaseWakeLock, requestWakeLock, startMainInterval, animate, playTone, vibrate]
    all_goals constructor <;> simp

theorem ModeInv.stopSession {s : State} (h : ModeInv s)
    (hs : screen s = Screen.session) :
    ModeInv (Box5n3.stopSession s) := by
  obtain ⟨a, b, c, d, e⟩ := h
  cases s with
  | mk ip ipa isc sc cp pc tt cc se he tl sp pm scp tlr st mi af ci ef =>
    cases ip <;> cases ipa <;> cases isc <;> cases scp
    all_goals simp_all [screen, Box5n3.stopSession, releaseWakeLock, requestWakeLock,
      startMainInterval, animate, playTone, vibrate, vibratePhaseChange, getScaledPhaseDuration]
    all_goals constructor <;> simp

theorem ModeInv.resetToStart {s : State} (h : ModeInv s)
    (hs : screen s = Screen.complete) :
    ModeInv (Box5n3.resetToStart s) := by
  obtain ⟨a, b, c, d, e⟩ := h
  cases s with
  | mk ip ipa isc sc cp pc tt cc se he tl sp pm scp tlr st mi af ci ef =>
    cases ip <;> cases ipa <;> cases isc <;> cases scp
    all_goals simp_all [screen, Box5n3.resetToStart, Box5n3.stopSession, releaseWakeLock,
      requestWakeLock, startMainInterval, animate, playTone, vibrate, vibratePhaseChange,
      getScaledPhaseDuration]
    all_goals constructor <;> simp

theorem ModeInv.startWithPreset {s : State} (h : ModeInv s)
    (hs : screen s = Screen.settings) (minutes : Nat) :
    ModeInv (Box5n3.startWithPreset minutes s) := by
  obtain ⟨a, b, c, d, e⟩ := h
  cases s with
  | mk ip ipa isc sc cp pc tt cc se he tl sp pm scp tlr st mi af ci ef =>
    cases ip <;> cases ipa <;> cases isc <;> cases scp
    all_goals simp_all [screen, Box5n3.startWithPreset, startCountdown, releaseWakeLock,
      requestWakeLock, startMainInterval, animate, playTone, vibrate, vibratePhaseChange,
      getScaledPhaseDuration]
    all_goals constructor <;> simp

theorem ModeInv.countdownTick {s : State} (h : ModeInv s) (hs : 0 < s.countdownIntervals) :
    ModeInv (Box5n3.countdownTick s) := by
  obtain ⟨a, b, c, d, e⟩ := h
  have hc : s.isStartingCountdown = true := by
    cases hsc : s.isStartingCountdown with
    | true => rfl
    | false => rw [hsc] at a; simp at a; omega
  obtain ⟨c1, c2, c3⟩ := c hc
  rw [hc] at a
  simp only [if_true] at a
  unfold Box5n3.countdownTick
  simp only []
  split
  · exact ModeInv.of_flags ⟨by rw [hc]; simpa using a, b, fun _ => ⟨c1, c2, c3⟩, d, e⟩
      rfl rfl rfl rfl rfl rfl
  · refine ⟨?_, rfl, ?_, ?_, ?_⟩
    · show s.countdownIntervals - 1 = 0
      omega
    · intro h'; exact absurd h' (by show ¬ (false = true); simp)
    · intro _; exact ⟨rfl, c3⟩
    · intro h'; exact absurd h' (by show ¬ (false = true); simp)

theorem skipZeroPhases_intervals (today : Int) :
    ∀ (fuel : Nat) (s : State) (r : Flow), skipZeroPhases today fuel s = some r →
      r.state.countdownIntervals = s.countdownIntervals := by
  intro fuel
  induction fuel with
  | zero =>
    intro s r h
    by_cases hz : getScaledPhaseDuration s s.currentPhase = 0
    · simp [skipZeroPhases, hz] at h
    · rw [skipZeroPhases_nonzero today 0 s hz] at h
      cases h
      rfl
  | succ n ih =>
    intro s r h
    by_cases hz : getScaledPhaseDuration s s.currentPhase = 0
    · rw [skipZeroPhases_zero today n s hz] at h
      by_cases e0 : (nextPhase s).currentPhase = 0
      · rw [if_pos e0] at h
        by_cases hr : s.timeLimitReached = true
        · rw [if_pos hr] at h
          cases h
          rfl
        · rw [if_neg hr] at h
          exact ih (bumpCycle (nextPhase s)) r h
      · rw [if_neg e0] at h
        exact ih (nextPhase s) r h
    · rw [skipZeroPhases_nonzero today _ s hz] at h
      cases h
      rfl

theorem tick_intervals (today : Int) (fuel : Nat) (s s' : State)
    (h : tick today fuel s = some s') : s'.countdownIntervals = s.countdownIntervals := by
  have hci : (tickHead s).countdownIntervals = s.countdownIntervals := by rw [tickHead_eq]
  have fin : ∀ (t : State) (r : Flow), t.countdownIntervals = s.countdownIntervals →
      skipZeroPhases today fuel t = some r → tickFinish (some r) = some s' →
      s'.countdownIntervals = s.countdownIntervals := by
    intro t r ht hr1 hr2
    have := skipZeroPhases_intervals today fuel t r hr1
    cases r with
    | done u =>
      simp only [tickFinish, Option.some.injEq] at hr2
      subst hr2
      exact this.trans ht
    | next u =>
      simp only [tickFinish, Option.some.injEq] at hr2
      subst hr2
      exact this.trans ht
  rw [tick_eq] at h
  by_cases hle : (tickHead s).phaseCountdown ≤ 1
  · rw [if_pos hle] at h
    by_cases e0 : (nextPhase (tickHead s)).currentPhase = 0
    · rw [if_pos e0] at h
      by_cases hr : (tickHead s).timeLimitReached = true
      · rw [if_pos hr] at h
        cases h
        exact hci
      · rw [if_neg hr] at h
        obtain ⟨r, hr1, hr2⟩ := tickFinish_eq_some h
        exact fin (bumpCycle (nextPhase (tickHead s))) r hci hr1 hr2
    · rw [if_neg e0] at h
      obtain ⟨r, hr1, hr2⟩ := tickFinish_eq_some h
      exact fin (nextPhase (tickHead s)) r hci hr1 hr2
  · rw [if_neg hle] at h
    cases h
    exact hci

theorem ModeInv.tick {s s' : State} (h : ModeInv s) (today : Int) (fuel : Nat)
    (hmi : s.mainInterval = true) (ht : Box5n3.tick today fuel s = some s') : ModeInv s' := by
  have hp := tick_post today fuel s s' ht
  have hci := tick_intervals today fuel s s' ht
  obtain ⟨a, b, c, d, e⟩ := h
  have hpl : s.isPlaying = true := b ▸ hmi
  obtain ⟨d1, d2⟩ := d hpl
  have hcnt : s.isStartingCountdown = false := by
    cases hsc : s.isStartingCountdown with
    | false => rfl
    | true => have := (c hsc).1; rw [hpl] at this; exact absurd this (by simp)
  rcases hp.outcome with ⟨_, _, _, _, h5, h6, h7, _⟩ | ⟨_, _, _, _, _, h6, h7, h8, _⟩ |
      ⟨_, _, _, _, _, h6, h7, h8⟩
  · exact ModeInv.of_flags ⟨a, b, c, d, e⟩ hp.countingDown_eq h6 hp.isPaused_eq h7 hci h5
  · exact ModeInv.of_flags ⟨a, b, c, d, e⟩ hp.countingDown_eq h7 hp.isPaused_eq h8 hci h6
  · refine ⟨?_, by rw [h8, h7], ?_, ?_, ?_⟩
    · rw [hci, hp.countingDown_eq]; exact a
    · intro h'
      rw [hp.countingDown_eq, hcnt] at h'
      exact absurd h' (by simp)
    · intro h'
      rw [h7] at h'
      exact absurd h' (by simp)
    · intro h'
      rw [hp.isPaused_eq, d1] at h'
      exact absurd h' (by simp)

theorem initialState_modeInv (stats : Stats) : ModeInv (initialState stats) :=
  ⟨rfl, rfl, fun h => absurd h (by show ¬ (false = true); simp),
    fun h => absurd h (by show ¬ (false = true); simp),
    fun h => absurd h (by show ¬ (false = true); simp)⟩

theorem Step.preserves_modeInv {s s' : State} (hstep : Step s s') (h : ModeInv s) : ModeInv s' := by
  cases hstep with
  | clickTogglePlay hs => exact h.togglePlay hs
  | clickStop hs => exact h.stopSession hs
  | clickReset hs => exact h.resetToStart hs
  | clickPreset minutes hs _ => exact h.startWithPreset hs minutes
  | soundToggle checked hs =>
    refine h.of_flags ?_ ?_ ?_ ?_ ?_ ?_ <;> cases checked <;> rfl
  | hapticToggle checked hs =>
    refine h.of_flags ?_ ?_ ?_ ?_ ?_ ?_ <;> cases checked <;> rfl
  | timeLimitInput digits hs =>
    refine h.of_flags ?_ ?_ ?_ ?_ ?_ ?_ <;> cases digits <;> rfl
  | paceInput m hs => exact h.of_flags rfl rfl rfl rfl rfl rfl
  | patternChange p hs _ => exact h.of_flags rfl rfl rfl rfl rfl rfl
  | countdownTimer hs => exact h.countdownTick hs
  | mainTimer _ td fl hmi ht => exact h.tick td fl hmi ht
  | visible =>
    refine h.of_flags ?_ ?_ ?_ ?_ ?_ ?_ <;> unfold onVisible <;> split <;> rfl

theorem Reachable.has_modeInv {stats : Stats} {s : State} (h : Reachable stats s) : ModeInv s := by
  induction h with
  | init => exact initialState_modeInv stats
  | step s s' _ hstep ih => exact hstep.preserves_modeInv ih

/-- C7. In every state reachable from the initial state through the controller's
transitions, at most one of the four flags counting-down, running, paused and complete is
true, and the session is Idle (`render()` shows the settings screen) exactly when all
four are false. -/
theorem mode_flags_exclusive (stats : Stats) (s : State) (h : Reachable stats s) :
    ¬ (s.isStartingCountdown = true ∧ s.isPlaying = true) ∧
    ¬ (s.isStartingCountdown = true ∧ s.isPaused = true) ∧
    ¬ (s.isStartingCountdown = true ∧ s.sessionComplete = true) ∧
    ¬ (s.isPlaying = true ∧ s.isPaused = true) ∧
    ¬ (s.isPlaying = true ∧ s.sessionComplete = true) ∧
    ¬ (s.isPaused = true ∧ s.sessionComplete = true) ∧
    (screen s = Screen.settings ↔
      s.isStartingCountdown = false ∧ s.isPlaying = false ∧ s.isPaused = false ∧
        s.sessionComplete = false) := by
  obtain ⟨_, _, c, d, e⟩ := h.has_modeInv
  refine ⟨?_, ?_, ?_, ?_, ?_, ?_, ?_⟩
  · rintro ⟨h1, h2⟩; rw [(c h1).1] at h2; exact absurd h2 (by simp)
  · rintro ⟨h1, h2⟩; rw [(c h1).2.1] at h2; exact absurd h2 (by simp)
  · rintro ⟨h1, h2⟩; rw [(c h1).2.2] at h2; exact absurd h2 (by simp)
  · rintro ⟨h1, h2⟩; rw [(d h1).1] at h2; exact absurd h2 (by simp)
  · rintro ⟨h1, h2⟩; rw [(d h1).2] at h2; exact absurd h2 (by simp)
  · rintro ⟨h1, h2⟩; rw [e h1] at h2; exact absurd h2 (by simp)
  · unfold screen
    cases s.isStartingCountdown <;> cases s.isPlaying <;> cases s.isPaused <;>
      cases s.sessionComplete <;> simp

theorem boxTwoMinutes_reachable : Reachable zeroStats boxTwoMinutes := by
  have r0 : Reachable zeroStats (initialState zeroStats) := Reachable.init
  have r1 := Reachable.step _ _ r0
    (Step.clickPreset (initialState zeroStats) 2 (by decide) (Or.inl rfl))
  have r2 := Reachable.step _ _ r1 (Step.countdownTimer _ (by decide))
  have r3 := Reachable.step _ _ r2 (Step.countdownTimer _ (by decide))
  exact Reachable.step _ _ r3 (Step.countdownTimer _ (by decide))

/-- Witness for C7: the Running state reached by the 2-minute preset and three countdown
ticks has only the running flag set and is not Idle. -/
theorem mode_flags_exclusive_witness :
    Reachable zeroStats boxTwoMinutes ∧ boxTwoMinutes.isPlaying = true ∧
    ¬ (boxTwoMinutes.isStartingCountdown = true ∧ boxTwoMinutes.isPlaying = true) ∧
    ¬ (boxTwoMinutes.isPlaying = true ∧ boxTwoMinutes.isPaused = true) ∧
    ¬ (boxTwoMinutes.isPlaying = true ∧ boxTwoMinutes.sessionComplete = true) ∧
    screen boxTwoMinutes ≠ Screen.settings := by
  have h := mode_flags_exclusive zeroStats boxTwoMinutes boxTwoMinutes_reachable
  exact ⟨boxTwoMinutes_reachable, by decide, h.1, h.2.2.2.1, h.2.2.2.2.1, by decide⟩

/-! ## C8 -/

/-- Counterexample to C8 as stated: stopping a Running Box session (pace 1) leaves the
remaining countdown at 4, the effective duration of phase 0, not at 0. -/
theorem stop_countdown_not_zero :
    (startSession (initialState zeroStats)).isPlaying = true ∧
      (stopSession (startSession (initialState zeroStats))).phaseCountdown = 4 ∧
      (stopSession (startSession (initialState zeroStats))).phaseCountdown ≠ 0 :=
  ⟨rfl, by decide!, by decide!⟩

/-- C8 (amended). From every state, Running and Paused included, `stopSession` leaves the
session Idle with phase index 0, elapsed seconds 0 and cycle count 0, with the complete
and target-reached flags cleared, the 1 Hz timer cancelled and the configured target
unchanged; the remaining countdown is set to the effective duration of phase 0. -/
theorem stopSession_resets (s : State) :
    screen (stopSession s) = Screen.settings ∧
    (stopSession s).isPlaying = false ∧ (stopSession s).isPaused = false ∧
    (stopSession s).isStartingCountdown = false ∧
    (stopSession s).currentPhase = 0 ∧
    (stopSession s).phaseCountdown = getScaledPhaseDuration s 0 ∧
    (stopSession s).totalTime = 0 ∧ (stopSession s).cycleCount = 0 ∧
    (stopSession s).sessionComplete = false ∧ (stopSession s).timeLimitReached = false ∧
    (stopSession s).mainInterval = false ∧
    (stopSession s).timeLimit = s.timeLimit :=
  ⟨rfl, rfl, rfl, rfl, rfl, rfl, rfl, rfl, rfl, rfl, rfl, rfl⟩

/-- Witness for C8: stopping the 2-minute Box session 5 seconds in leaves it Idle with
phase 0, elapsed 0, cycles 0, countdown 4 and the 2-minute target still configured. -/
theorem stopSession_resets_witness :
    (boxTwoMinutesAfter 5).isPlaying = true ∧
    screen (stopSession (boxTwoMinutesAfter 5)) = Screen.settings ∧
    clock (stopSession (boxTwoMinutesAfter 5)) =
      (0, 4, 0, 0, TimeLimit.text (some 2), false) :=
  ⟨by decide!, (stopSession_resets (boxTwoMinutesAfter 5)).1, by decide!⟩

/-! ## C9 -/

theorem togglePlay_idle (s : State) (hidle : screen s = Screen.settings) :
    togglePlay s = startCountdown s := by
  unfold screen at hidle
  unfold togglePlay
  cases h1 : s.isPlaying <;> cases h2 : s.isPaused <;> cases h3 : s.isStartingCountdown <;>
    simp_all

/-- C9. Starting from Idle, start (`togglePlay`) enters CountingDown with the complete
and target-reached flags cleared and the count at 3, emitting a cue; the first and second
countdown ticks leave the session CountingDown at counts 2 and 1, each emitting a cue; the
third makes it Running with phase 0, countdown equal to the effective duration of phase 0,
elapsed 0 and cycles 0, emitting the start cue, requesting the wake lock and scheduling
the 1 Hz timer. -/
theorem countdown_then_running (s : State) (hidle : screen s = Screen.settings) :
    (screen (togglePlay s) = Screen.countdown ∧
      (togglePlay s).sessionComplete = false ∧ (togglePlay s).timeLimitReached = false ∧
      (togglePlay s).startingCountdown = 3 ∧
      (togglePlay s).effects = s.effects ++ [Effect.playTone 0, Effect.vibrate [30]]) ∧
    (screen (countdownTick (togglePlay s)) = Screen.countdown ∧
      (countdownTick (togglePlay s)).startingCountdown = 2 ∧
      (countdownTick (togglePlay s)).effects =
        (togglePlay s).effects ++ [Effect.playTone 0, Effect.vibrate [30]]) ∧
    (screen (countdownTick (countdownTick (togglePlay s))) = Screen.countdown ∧
      (countdownTick (countdownTick (togglePlay s))).startingCountdown = 1 ∧
      (countdownTick (countdownTick (togglePlay s))).effects =
        (countdownTick (togglePlay s)).effects ++
          [Effect.playTone 0, Effect.vibrate [30]]) ∧
    (screen (countdownTick (countdownTick (countdownTick (togglePlay s)))) = Screen.session ∧
      (countdownTick (countdownTick (countdownTick (togglePlay s)))).isPlaying = true ∧
      (countdownTick (countdownTick (countdownTick (togglePlay s)))).isPaused = false ∧
      (countdownTick (countdownTick (countdownTick (togglePlay s)))).currentPhase = 0 ∧
      (countdownTick (countdownTick (countdownTick (togglePlay s)))).phaseCountdown =
        getScaledPhaseDuration s 0 ∧
      (countdownTick (countdownTick (countdownTick (togglePlay s)))).totalTime = 0 ∧
      (countdownTick (countdownTick (countdownTick (togglePlay s)))).cycleCount = 0 ∧
      (countdownTick (countdownTick (countdownTick (togglePlay s)))).mainInterval = true ∧
      (countdownTick (countdownTick (countdownTick (togglePlay s)))).effects =
        (countdownTick (countdownTick (togglePlay s))).effects ++
          [Effect.playTone 0, Effect.vibrate [30, 50, 30], Effect.requestWakeLock]) := by
  rw [togglePlay_idle s hidle]
  refine ⟨⟨rfl, rfl, rfl, rfl, ?_⟩, ⟨rfl, rfl, ?_⟩, ⟨rfl, rfl, ?_⟩,
    ⟨rfl, rfl, rfl, rfl, rfl, rfl, rfl, rfl, ?_⟩⟩
  · simp [startCountdown, playTone, vibrate]
  · simp [countdownTick, startCountdown, playTone, vibrate]
  · simp [countdownTick, startCountdown, playTone, vibrate]
  · simp [countdownTick, startCountdown, startSession, playTone, vibrate, vibratePhaseChange,
      requestWakeLock, startMainInterval, animate]

/-- Witness for C9: from the initial (Idle) state, start and three countdown ticks give a
Running Box session with countdown 4, and exactly the eight cues and the wake-lock
request have been emitted. -/
theorem countdown_then_running_witness :
    screen (initialState zeroStats) = Screen.settings ∧
    screen (togglePlay (initialState zeroStats)) = Screen.countdown ∧
    screen (countdownTick (countdownTick (togglePlay (initialState zeroStats))))
      = Screen.countdown ∧
    (countdownTick (countdownTick (countdownTick
      (togglePlay (initialState zeroStats))))).isPlaying = true ∧
    (countdownTick (countdownTick (countdownTick
      (togglePlay (initialState zeroStats))))).phaseCountdown = 4 ∧
    (countdownTick (countdownTick (countdownTick
      (togglePlay (initialState zeroStats))))).effects =
      [Effect.playTone 0, Effect.vibrate [30], Effect.playTone 0, Effect.vibrate [30],
        Effect.playTone 0, Effect.vibrate [30], Effect.playTone 0,
        Effect.vibrate [30, 50, 30], Effect.requestWakeLock] := by
  have h := countdown_then_running (initialState zeroStats) (by decide)
  exact ⟨by decide, h.1.1, h.2.2.1.1, h.2.2.2.2.1, by decide!, by decide!⟩

/-! ## C10 -/

theorem pauseSession_clock (s : State) : clock (pauseSession s) = clock s := by
  unfold pauseSession
  split <;> rfl

theorem resumeSession_clock (s : State) : clock (resumeSession s) = clock s := by
  unfold resumeSession
  split <;> rfl

/-- C10. For every Running session, pause makes it Paused (the 1 Hz timer cancelled) and
changes no Session Clock field; resume changes none of them from any state; and pause
followed by resume gives a Running session, its timer scheduled again, whose clock fields
are those before the pause. -/
theorem pause_resume_keep_clock (s : State) (hrun : s.isPlaying = true) :
    ((pauseSession s).isPaused = true ∧ (pauseSession s).isPlaying = false ∧
      (pauseSession s).mainInterval = false ∧ clock (pauseSession s) = clock s) ∧
    (∀ t : State, clock (resumeSession t) = clock t) ∧
    ((resumeSession (pauseSession s)).isPlaying = true ∧
      (resumeSession (pauseSession s)).isPaused = false ∧
      (resumeSession (pauseSession s)).mainInterval = true ∧
      clock (resumeSession (pauseSession s)) = clock s) := by
  have hp : pauseSession s =
      releaseWakeLock { s with isPaused := true, isPlaying := false,
                               mainInterval := false, animationFrame := false } := by
    unfold pauseSession
    simp [hrun]
  refine ⟨⟨?_, ?_, ?_, pauseSession_clock s⟩, resumeSession_clock, ?_, ?_, ?_, ?_⟩
  · rw [hp]; rfl
  · rw [hp]; rfl
  · rw [hp]; rfl
  · rw [hp]; rfl
  · rw [hp]; rfl
  · rw [hp]; rfl
  · rw [resumeSession_clock, pauseSession_clock]

/-- Witness for C10: a Box session 5 seconds in (phase 1, countdown 3); pausing and
resuming it leaves phase 1, countdown 3, elapsed 5 and cycles 0. -/
theorem pause_resume_keep_clock_witness :
    (boxTwoMinutesAfter 5).isPlaying = true ∧
    (pauseSession (boxTwoMinutesAfter 5)).isPaused = true ∧
    clock (resumeSession (pauseSession (boxTwoMinutesAfter 5))) =
      (1, 3, 5, 0, TimeLimit.text (some 2), false) := by
  have hrun : (boxTwoMinutesAfter 5).isPlaying = true := by decide!
  have h := pause_resume_keep_clock (boxTwoMinutesAfter 5) hrun
  refine ⟨hrun, h.1.1, ?_⟩
  rw [h.2.2.2.2.2]
  decide!

/-! ## Further lemmas on runs -/

theorem ticks_exists (today : Int) (fuel : Nat) (s : State) (hfuel : 3 ≤ fuel)
    (hne : ∃ i, i < 4 ∧ getScaledPhaseDuration s i ≠ 0) :
    ∀ n, ∃ s', ticks today fuel n s = some s' := by
  intro n
  induction n with
  | zero => exact ⟨s, rfl⟩
  | succ n ih =>
    obtain ⟨t, ht⟩ := ih
    rw [ticks_succ_last, ht]
    show ∃ s', second today fuel t = some s'
    unfold second
    by_cases hmi : t.mainInterval = true
    · rw [if_pos hmi]
      obtain ⟨a1, a2, _⟩ := (ticks_facts today fuel s n t ht).settings
      obtain ⟨i, hi, hne⟩ := hne
      exact tick_terminates today fuel t hfuel
        ⟨i, hi, by rw [getScaledPhaseDuration_eq, a1, a2]; exact hne⟩
    · rw [if_neg hmi]
      exact ⟨t, rfl⟩

/-! ## C11 -/

theorem wrapCount_eq : ∀ (k c : Nat), c < 4 → wrapCount c k = (c + k) / 4 := by
  intro k
  induction k with
  | zero =>
    intro c hc
    simp only [wrapCount, Nat.add_zero]
    omega
  | succ k ih =>
    intro c hc
    rw [wrapCount, ih ((c + 1) % 4) (Nat.mod_lt _ (by omega))]
    split <;> omega

/-- The phase walk of the skip loop: it makes some number `k` of advances, every phase it
leaves has effective duration 0, and it counts the wraps among those advances. -/
theorem skipZeroPhases_walk (today : Int) :
    ∀ (fuel : Nat) (t : State) (r : Flow), skipZeroPhases today fuel t = some r →
      t.currentPhase < 4 →
      ∃ k, k ≤ fuel ∧ r.state.currentPhase = (t.currentPhase + k) % 4 ∧
        (∀ j, j < k → getScaledPhaseDuration t ((t.currentPhase + j) % 4) = 0) ∧
        r.state.cycleCount = t.cycleCount + wrapCount t.currentPhase k := by
  intro fuel
  induction fuel with
  | zero =>
    intro t r h hlt
    by_cases hz : getScaledPhaseDuration t t.currentPhase = 0
    · simp [skipZeroPhases, hz] at h
    · rw [skipZeroPhases_nonzero today 0 t hz] at h
      cases h
      exact ⟨0, le_refl _, by simp [Flow.state, Nat.mod_eq_of_lt hlt],
        fun j hj => absurd hj (by omega), by simp [Flow.state, wrapCount]⟩
  | succ n ih =>
    intro t r h hlt
    by_cases hz : getScaledPhaseDuration t t.currentPhase = 0
    · rw [skipZeroPhases_zero today n t hz] at h
      have e1 : (nextPhase t).currentPhase = (t.currentPhase + 1) % 4 := rfl
      have hlt' : (nextPhase t).currentPhase < 4 := Nat.mod_lt _ (by omega)
      have hzero : ∀ k', (∀ j, j < k' →
            getScaledPhaseDuration t (((t.currentPhase + 1) % 4 + j) % 4) = 0) →
          ∀ j, j < k' + 1 → getScaledPhaseDuration t ((t.currentPhase + j) % 4) = 0 := by
        intro k' hk j hj
        rcases Nat.eq_zero_or_pos j with h0 | h0
        · subst h0
          rw [Nat.add_zero, Nat.mod_eq_of_lt hlt]
          exact hz
        · have := hk (j - 1) (by omega)
          have e : ((t.currentPhase + 1) % 4 + (j - 1)) % 4 = (t.currentPhase + j) % 4 := by
            omega
          rw [e] at this
          exact this
      by_cases e0 : (nextPhase t).currentPhase = 0
      · rw [if_pos e0] at h
        have h3 : t.currentPhase = 3 := by rw [e1] at e0; omega
        by_cases hr : t.timeLimitReached = true
        · rw [if_pos hr] at h
          cases h
          refine ⟨1, by omega, ?_, ?_, ?_⟩
          · show (nextPhase t).currentPhase = _
            rw [e1]
          · exact hzero 0 (fun j hj => absurd hj (by omega))
          · show t.cycleCount + 1 = _
            simp [wrapCount, h3]
        · rw [if_neg hr] at h
          obtain ⟨k, hk1, hk2, hk3, hk4⟩ := ih (bumpCycle (nextPhase t)) r h hlt'
          have hk2' : r.state.currentPhase = ((t.currentPhase + 1) % 4 + k) % 4 := hk2
          have hk4' : r.state.cycleCount =
              t.cycleCount + 1 + wrapCount ((t.currentPhase + 1) % 4) k := hk4
          refine ⟨k + 1, by omega, ?_, hzero k hk3, ?_⟩
          · rw [hk2']; omega
          · rw [hk4', wrapCount, if_pos h3]; omega
      · rw [if_neg e0] at h
        have h3 : t.currentPhase ≠ 3 := by
          intro h3; rw [e1, h3] at e0; exact e0 rfl
        obtain ⟨k, hk1, hk2, hk3, hk4⟩ := ih (nextPhase t) r h hlt'
        have hk2' : r.state.currentPhase = ((t.currentPhase + 1) % 4 + k) % 4 := hk2
        have hk4' : r.state.cycleCount =
            t.cycleCount + wrapCount ((t.currentPhase + 1) % 4) k := hk4
        refine ⟨k + 1, by omega, ?_, hzero k hk3, ?_⟩
        · rw [hk2']; omega
        · rw [hk4', wrapCount, if_neg h3]; omega
    · rw [skipZeroPhases_nonzero today _ t hz] at h
      cases h
      exact ⟨0, Nat.zero_le _, by simp [Flow.state, Nat.mod_eq_of_lt hlt],
        fun j hj => absurd hj (by omega), by simp [Flow.state, wrapCount]⟩

theorem tickFinish_phase {r : Flow} {s' : State} (h : tickFinish (some r) = some s') :
    s'.currentPhase = r.state.currentPhase ∧ s'.cycleCount = r.state.cycleCount := by
  cases r with
  | done u =>
    simp only [tickFinish, Option.some.injEq] at h
    subst h
    exact ⟨rfl, rfl⟩
  | next u =>
    simp only [tickFinish, Option.some.injEq] at h
    subst h
    exact ⟨rfl, rfl⟩

theorem tick_walk (today : Int) (fuel : Nat) (s s' : State) (hlt : s.currentPhase < 4)
    (h : tick today fuel s = some s') :
    ∃ k, (k = 0 ↔ 1 < s.phaseCountdown) ∧ k ≤ fuel + 1 ∧
      s'.currentPhase = (s.currentPhase + k) % 4 ∧
      (∀ j, 1 ≤ j → j < k → getScaledPhaseDuration s ((s.currentPhase + j) % 4) = 0) ∧
      s'.cycleCount = s.cycleCount + wrapCount s.currentPhase k := by
  have hcd : (tickHead s).phaseCountdown = s.phaseCountdown := by rw [tickHead_eq]
  have hcp : (tickHead s).currentPhase = s.currentPhase := by rw [tickHead_eq]
  have hcc : (tickHead s).cycleCount = s.cycleCount := by rw [tickHead_eq]
  have hd : ∀ i, getScaledPhaseDuration (tickHead s) i = getScaledPhaseDuration s i := by
    intro i; rw [tickHead_eq]; rfl
  have e1 : (nextPhase (tickHead s)).currentPhase = (s.currentPhase + 1) % 4 := by
    show ((tickHead s).currentPhase + 1) % 4 = _
    rw [hcp]
  have hlt' : (nextPhase (tickHead s)).currentPhase < 4 := Nat.mod_lt _ (by omega)
  have shift : ∀ k', (∀ j, j < k' →
        getScaledPhaseDuration s (((s.currentPhase + 1) % 4 + j) % 4) = 0) →
      ∀ j, 1 ≤ j → j < k' + 1 → getScaledPhaseDuration s ((s.currentPhase + j) % 4) = 0 := by
    intro k' hk j hj1 hj
    have := hk (j - 1) (by omega)
    have e : ((s.currentPhase + 1) % 4 + (j - 1)) % 4 = (s.currentPhase + j) % 4 := by omega
    rw [e] at this
    exact this
  rw [tick_eq] at h
  by_cases hle : (tickHead s).phaseCountdown ≤ 1
  · rw [if_pos hle] at h
    rw [hcd] at hle
    by_cases e0 : (nextPhase (tickHead s)).currentPhase = 0
    · rw [if_pos e0] at h
      have h3 : s.currentPhase = 3 := by rw [e1] at e0; omega
      by_cases hr : (tickHead s).timeLimitReached = true
      · rw [if_pos hr] at h
        cases h
        refine ⟨1, ⟨fun h => absurd h (by omega), fun h => by omega⟩, by omega, e1,
          fun j h1 h2 => absurd h2 (by omega), ?_⟩
        show (tickHead s).cycleCount + 1 = _
        rw [hcc]
        simp [wrapCount, h3]
      · rw [if_neg hr] at h
        obtain ⟨r, hr1, hr2⟩ := tickFinish_eq_some h
        obtain ⟨f1, f2⟩ := tickFinish_phase hr2
        obtain ⟨k, hk1, hk2, hk3, hk4⟩ := skipZeroPhases_walk today fuel
          (bumpCycle (nextPhase (tickHead s))) r hr1 hlt'
        have hk2' : r.state.currentPhase = ((s.currentPhase + 1) % 4 + k) % 4 := by
          rw [← e1]; exact hk2
        have hk3' : ∀ j, j < k →
            getScaledPhaseDuration s (((s.currentPhase + 1) % 4 + j) % 4) = 0 := by
          intro j hj
          have := hk3 j hj
          rw [← e1, ← hd]
          exact this
        have hk4' : r.state.cycleCount =
            s.cycleCount + 1 + wrapCount ((s.currentPhase + 1) % 4) k := by
          rw [← e1, ← hcc]; exact hk4
        refine ⟨k + 1, ⟨fun h => absurd h (by omega), fun h => by omega⟩, by omega, ?_,
          shift k hk3', ?_⟩
        · rw [f1, hk2']; omega
        · rw [f2, hk4', wrapCount, if_pos h3]; omega
    · rw [if_neg e0] at h
      have h3 : s.currentPhase ≠ 3 := by
        intro h3; rw [e1, h3] at e0; exact e0 rfl
      obtain ⟨r, hr1, hr2⟩ := tickFinish_eq_some h
      obtain ⟨f1, f2⟩ := tickFinish_phase hr2
      obtain ⟨k, hk1, hk2, hk3, hk4⟩ := skipZeroPhases_walk today fuel
        (nextPhase (tickHead s)) r hr1 hlt'
      have hk2' : r.state.currentPhase = ((s.currentPhase + 1) % 4 + k) % 4 := by
        rw [← e1]; exact hk2
      have hk3' : ∀ j, j < k →
          getScaledPhaseDuration s (((s.currentPhase + 1) % 4 + j) % 4) = 0 := by
        intro j hj
        have := hk3 j hj
        rw [← e1, ← hd]
        exact this
      have hk4' : r.state.cycleCount =
          s.cycleCount + wrapCount ((s.currentPhase + 1) % 4) k := by
        rw [← e1, ← hcc]; exact hk4
      refine ⟨k + 1, ⟨fun h => absurd h (by omega), fun h => by omega⟩, by omega, ?_,
        shift k hk3', ?_⟩
      · rw [f1, hk2']; omega
      · rw [f2, hk4', wrapCount, if_neg h3]; omega
  · rw [if_neg hle] at h
    cases h
    rw [hcd] at hle
    refine ⟨0, ⟨fun _ => by omega, fun _ => rfl⟩, by omega, ?_,
      fun j h1 h2 => absurd h2 (by omega), ?_⟩
    · show (tickHead s).currentPhase = _
      rw [hcp, Nat.add_zero, Nat.mod_eq_of_lt hlt]
    · show (tickHead s).cycleCount = _
      rw [hcc]; simp [wrapCount]

/-- C11. For every state with the phase index in range (as in every Running state) and
every tick: the tick makes some number `k` of phase advances (none exactly when the
countdown has not expired, otherwise one plus one for every zero-duration phase skipped),
and the cycle count grows by exactly the number of those advances that go from index 3
back to index 0, which is `(currentPhase + k) / 4`: by 1 for each wrap, whether made by
the first advance, inside the skip loop or on the completing tick, and by 0 on a tick
without a wrap.  The tick returns whenever some phase has a non-zero duration. -/
theorem cycle_count_counts_wraps (today : Int) (fuel : Nat) (s : State)
    (hlt : s.currentPhase < 4) :
    (∀ s', tick today fuel s = some s' →
      ∃ k, (k = 0 ↔ 1 < s.phaseCountdown) ∧ k ≤ fuel + 1 ∧
        s'.currentPhase = (s.currentPhase + k) % 4 ∧
        (∀ j, 1 ≤ j → j < k → getScaledPhaseDuration s ((s.currentPhase + j) % 4) = 0) ∧
        s'.cycleCount = s.cycleCount + wrapCount s.currentPhase k ∧
        wrapCount s.currentPhase k = (s.currentPhase + k) / 4 ∧
        (s'.cycleCount = s.cycleCount ↔ s.currentPhase + k < 4)) ∧
    (3 ≤ fuel → (∃ i, i < 4 ∧ getScaledPhaseDuration s i ≠ 0) →
      ∃ s', tick today fuel s = some s') := by
  refine ⟨?_, fun hfuel hne => tick_terminates today fuel s hfuel hne⟩
  intro s' h
  obtain ⟨k, h1, h2, h3, h4, h5⟩ := tick_walk today fuel s s' hlt h
  have hw := wrapCount_eq k s.currentPhase hlt
  refine ⟨k, h1, h2, h3, h4, h5, hw, ?_⟩
  rw [h5, hw]
  omega

/-- Witness for C11: durations 4-0-4-0.  The tick after second 7 leaves phase 2, skips the
zero-duration phase 3 and wraps to phase 0: two advances, one wrap, cycle count 0 to 1.
The tick after second 3 leaves phase 0 and skips phase 1: two advances, no wrap. -/
theorem cycle_count_counts_wraps_witness :
    ((skipSessionAfter 7).currentPhase = 2 ∧ (skipSessionAfter 7).cycleCount = 0 ∧
      ∃ s', tick 0 3 (skipSessionAfter 7) = some s' ∧ s'.currentPhase = 0 ∧
        s'.cycleCount = 1) ∧
    ((skipSessionAfter 3).currentPhase = 0 ∧ (skipSessionAfter 3).cycleCount = 0 ∧
      ∃ s', tick 0 3 (skipSessionAfter 3) = some s' ∧ s'.currentPhase = 2 ∧
        s'.cycleCount = 0) := by
  have p7 : (skipSessionAfter 7).currentPhase = 2 := by decide!
  have c7 : (skipSessionAfter 7).cycleCount = 0 := by decide!
  have p3 : (skipSessionAfter 3).currentPhase = 0 := by decide!
  have c3 : (skipSessionAfter 3).cycleCount = 0 := by decide!
  have a := cycle_count_counts_wraps 0 3 (skipSessionAfter 7) (by rw [p7]; decide)
  have b := cycle_count_counts_wraps 0 3 (skipSessionAfter 3) (by rw [p3]; decide)
  obtain ⟨s1, h1⟩ := a.2 (by decide) ⟨0, by decide, by decide!⟩
  obtain ⟨s2, h2⟩ := b.2 (by decide) ⟨0, by decide, by decide!⟩
  have e1 : (tick 0 3 (skipSessionAfter 7)).map (fun u => (u.currentPhase, u.cycleCount)) =
      some (0, 1) := by decide!
  have e2 : (tick 0 3 (skipSessionAfter 3)).map (fun u => (u.currentPhase, u.cycleCount)) =
      some (2, 0) := by decide!
  rw [h1] at e1
  rw [h2] at e2
  simp only [Option.map_some', Option.some.injEq, Prod.mk.injEq] at e1 e2
  exact ⟨⟨p7, c7, s1, h1, e1.1, e1.2⟩, ⟨p3, c3, s2, h2, e2.1, e2.2⟩⟩

/-! ## C12 -/

theorem mathRound_mul_pos (n : Nat) (m : ℚ) (hm : 1 / 2 ≤ m) (hn : n ≠ 0) :
    0 < mathRound ((n : ℚ) * m) := by
  unfold mathRound
  rw [Int.floor_pos]
  have h1 : (1 : ℚ) ≤ (n : ℚ) := by exact_mod_cast Nat.one_le_iff_ne_zero.mpr hn
  nlinarith

theorem mathRound_mul_nonneg (n : Nat) (m : ℚ) (hm : 0 ≤ m) :
    0 ≤ mathRound ((n : ℚ) * m) :=
  mathRound_nonneg (mul_nonneg (Nat.cast_nonneg _) hm)

theorem mathRound_zero_mul (m : ℚ) : mathRound (((0 : Nat) : ℚ) * m) = 0 := by
  simp only [mathRound, Nat.cast_zero, zero_mul, zero_add]
  rw [Int.floor_eq_zero_iff]
  constructor <;> norm_num

/-- C12. For every pattern (four phases with whole-second base durations) and every pace
multiplier `m` with 0.5 <= m <= 1.5, the total cycle duration `getTotalCycleDuration`
computes is the sum of `getScaledPhaseDuration` over the four phases, it is greater than
0 when some base duration is not 0, and it is 0 when all four base durations are 0. -/
theorem total_cycle_duration_pos (s : State) (h1 : 1 / 2 ≤ s.phaseMultiplier)
    (_h2 : s.phaseMultiplier ≤ 3 / 2) :
    getTotalCycleDuration s =
      getScaledPhaseDuration s 0 + getScaledPhaseDuration s 1 + getScaledPhaseDuration s 2
        + getScaledPhaseDuration s 3 ∧
    ((∃ ph ∈ (getPattern s).phases, ph.duration ≠ 0) → 0 < getTotalCycleDuration s) ∧
    ((∀ ph ∈ (getPattern s).phases, ph.duration = 0) → getTotalCycleDuration s = 0) := by
  refine ⟨getTotalCycleDuration_eq s, ?_, ?_⟩
  · rw [getTotalCycleDuration_eq]
    unfold getPattern scaledDuration
    generalize s.phaseMultiplier = m at h1
    obtain ⟨nm, ds, l, hl⟩ := s.selectedPattern
    match l, hl with
    | [a, b, c, d], _ =>
      have hm : (0 : ℚ) ≤ m := by linarith
      have na := mathRound_mul_nonneg a.duration m hm
      have nb := mathRound_mul_nonneg b.duration m hm
      have nc := mathRound_mul_nonneg c.duration m hm
      have nd := mathRound_mul_nonneg d.duration m hm
      rintro ⟨ph, hmem, hne⟩
      simp only [List.mem_cons, List.mem_singleton, List.not_mem_nil, or_false] at hmem
      simp only [List.getD_cons_zero, List.getD_cons_succ]
      rcases hmem with rfl | rfl | rfl | rfl
      · have := mathRound_mul_pos _ m h1 hne; omega
      · have := mathRound_mul_pos _ m h1 hne; omega
      · have := mathRound_mul_pos _ m h1 hne; omega
      · have := mathRound_mul_pos _ m h1 hne; omega
  · rw [getTotalCycleDuration_eq]
    unfold getPattern scaledDuration
    generalize s.phaseMultiplier = m at h1
    obtain ⟨nm, ds, l, hl⟩ := s.selectedPattern
    match l, hl with
    | [a, b, c, d], _ =>
      intro hz
      have ha := hz a (by simp)
      have hb := hz b (by simp)
      have hc := hz c (by simp)
      have hd := hz d (by simp)
      simp only [List.getD_cons_zero, List.getD_cons_succ, ha, hb, hc, hd]
      rw [mathRound_zero_mul]
      rfl

/-- Witness for C12: the 4-7-8 pattern (base durations 4, 7, 8, 0) at pace 0.5 has
effective durations 2, 4, 4, 0 and total cycle duration 10. -/
theorem total_cycle_duration_pos_witness :
    getScaledPhaseDuration relaxingHalfPace 1 = 4 ∧
    getTotalCycleDuration relaxingHalfPace = 10 ∧ 0 < getTotalCycleDuration relaxingHalfPace := by
  have h := total_cycle_duration_pos relaxingHalfPace (by decide!) (by decide!)
  exact ⟨by decide!, by decide!,
    h.2.1 ⟨⟨"Inhale", 4⟩, by simp [getPattern, relaxingHalfPace, PATTERNS.relaxing], by decide⟩⟩

/-! ## C13 -/

theorem easedProgress_zero : easedProgress 0 = 0 := by
  unfold easedProgress
  simp
  norm_num

theorem easedProgress_one : easedProgress 1 = 1 := by
  unfold easedProgress
  simp
  norm_num

theorem clamp_mem (x : ℝ) : 0 ≤ max 0 (min 1 x) ∧ max 0 (min 1 x) ≤ 1 :=
  ⟨le_max_left _ _, max_le zero_le_one (min_le_left _ _)⟩

theorem clamp_mono {x y : ℝ} (h : x ≤ y) : max 0 (min 1 x) ≤ max 0 (min 1 y) :=
  max_le_max (le_refl _) (min_le_min (le_refl _) h)

theorem easedProgress_mem (p : ℝ) : 0 ≤ easedProgress p ∧ easedProgress p ≤ 1 := by
  unfold easedProgress
  have h1 := Real.cos_le_one (Real.pi * max 0 (min 1 p))
  have h2 := Real.neg_one_le_cos (Real.pi * max 0 (min 1 p))
  constructor <;> norm_num <;> linarith

theorem easedProgress_mono {p q : ℝ} (h : p ≤ q) : easedProgress p ≤ easedProgress q := by
  unfold easedProgress
  obtain ⟨a1, a2⟩ := clamp_mem p
  obtain ⟨b1, b2⟩ := clamp_mem q
  have hc := clamp_mono h
  have hpi := Real.pi_pos
  have hcos : Real.cos (Real.pi * max 0 (min 1 q)) ≤ Real.cos (Real.pi * max 0 (min 1 p)) := by
    apply Real.cos_le_cos_of_nonneg_of_le_pi
    · exact mul_nonneg hpi.le a1
    · calc Real.pi * max 0 (min 1 q) ≤ Real.pi * 1 := mul_le_mul_of_nonneg_left b2 hpi.le
        _ = Real.pi := mul_one _
    · exact mul_le_mul_of_nonneg_left hc hpi.le
  simp only []
  linarith

theorem easedProgress_strict {p q : ℝ} (hp : 0 ≤ p) (h : p < q) (hq : q ≤ 1) :
    easedProgress p < easedProgress q := by
  unfold easedProgress
  have ep : max 0 (min 1 p) = p := by
    rw [min_eq_right (by linarith), max_eq_right hp]
  have eq : max 0 (min 1 q) = q := by
    rw [min_eq_right hq, max_eq_right (by linarith)]
  have hpi := Real.pi_pos
  have hcos : Real.cos (Real.pi * q) < Real.cos (Real.pi * p) := by
    apply Real.cos_lt_cos_of_nonneg_of_le_pi
    · exact mul_nonneg hpi.le hp
    · calc Real.pi * q ≤ Real.pi * 1 := mul_le_mul_of_nonneg_left hq hpi.le
        _ = Real.pi := mul_one _
    · exact mul_lt_mul_of_pos_left h hpi
  simp only [ep, eq]
  linarith

theorem sampleProgress_mem (D c : Int) (e : ℚ) :
    0 ≤ sampleProgress D c e ∧ sampleProgress D c e ≤ 1 :=
  ⟨le_max_left _ _, max_le zero_le_one (min_le_left _ _)⟩

theorem sampleProgress_pos (D c : Int) (hD : 0 < D) (e : ℚ) :
    sampleProgress D c e = max 0 (min 1 (((D : ℚ) - ((c : ℚ) - e)) / (D : ℚ))) := by
  unfold sampleProgress
  simp only [gt_iff_lt, hD, if_true]

theorem sampleProgress_nonpos (D c : Int) (hD : D ≤ 0) (e : ℚ) :
    sampleProgress D c e = 0 := by
  unfold sampleProgress
  have : ¬ D > 0 := by omega
  simp only [this, if_false]
  simp

theorem sampleProgress_mono (D c : Int) {e e' : ℚ} (h : e ≤ e') :
    sampleProgress D c e ≤ sampleProgress D c e' := by
  by_cases hD : 0 < D
  · rw [sampleProgress_pos D c hD, sampleProgress_pos D c hD]
    have hDq : (0 : ℚ) < (D : ℚ) := by exact_mod_cast hD
    apply max_le_max (le_refl _)
    apply min_le_min (le_refl _)
    apply div_le_div_of_nonneg_right _ hDq.le
    linarith
  · rw [sampleProgress_nonpos D c (by omega), sampleProgress_nonpos D c (by omega)]

/-- C13. For every effective duration `D > 0`, every remaining countdown `c` and every
elapsed-since-tick value `e`, the sampler's progress is clamp01((D - (c - e)) / D), lies
in [0, 1] and is non-decreasing in `e`; when `D = 0` the progress is 0; the eased progress
0.5 - cos(pi * progress) / 2 lies in [0, 1], is non-decreasing in the progress (strictly
increasing on [0, 1]), is 0 at progress 0 and 1 at progress 1.  Numbers are exact, not
floating point. -/
theorem progress_clamped_and_monotone (D c : Int) (hD : 0 < D) :
    (∀ e, sampleProgress D c e = max 0 (min 1 (((D : ℚ) - ((c : ℚ) - e)) / (D : ℚ)))) ∧
    (∀ e, 0 ≤ sampleProgress D c e ∧ sampleProgress D c e ≤ 1) ∧
    (∀ e e', e ≤ e' → sampleProgress D c e ≤ sampleProgress D c e') ∧
    (∀ c' e, sampleProgress 0 c' e = 0) ∧
    (∀ (s : State) e, animateProgress s e =
      sampleProgress (getScaledPhaseDuration s s.currentPhase) s.phaseCountdown e) ∧
    (∀ p, easedProgress p = 0.5 - Real.cos (Real.pi * max 0 (min 1 p)) / 2) ∧
    (∀ p, 0 ≤ easedProgress p ∧ easedProgress p ≤ 1) ∧
    (∀ p q, p ≤ q → easedProgress p ≤ easedProgress q) ∧
    (∀ p q, 0 ≤ p → p < q → q ≤ 1 → easedProgress p < easedProgress q) ∧
    easedProgress 0 = 0 ∧ easedProgress 1 = 1 :=
  ⟨sampleProgress_pos D c hD, sampleProgress_mem D c, fun _ _ h => sampleProgress_mono D c h,
    fun c' e => sampleProgress_nonpos 0 c' (le_refl _) e, fun _ _ => rfl, fun _ => rfl,
    easedProgress_mem, fun _ _ h => easedProgress_mono h,
    fun _ _ hp h hq => easedProgress_strict hp h hq, easedProgress_zero, easedProgress_one⟩

/-- Witness for C13: `D = 4` sampled at t = 0, 1, 2, 3, 4 s (countdown 4, 3, 2, 1 at the
tick, and countdown 1 a full second after the tick) gives progress 0, 1/4, 1/2, 3/4, 1,
whose eased values start at 0, increase strictly and end at 1. -/
theorem progress_clamped_and_monotone_witness :
    sampleProgress 4 4 0 = 0 ∧ sampleProgress 4 3 0 = 1 / 4 ∧ sampleProgress 4 2 0 = 1 / 2 ∧
    sampleProgress 4 1 0 = 3 / 4 ∧ sampleProgress 4 1 1 = 1 ∧
    easedProgress 0 = 0 ∧ easedProgress 0 < easedProgress (1 / 4) ∧
    easedProgress (1 / 4) < easedProgress (1 / 2) ∧
    easedProgress (1 / 2) < easedProgress (3 / 4) ∧
    easedProgress (3 / 4) < easedProgress 1 ∧ easedProgress 1 = 1 := by
  have h := progress_clamped_and_monotone 4 4 (by decide)
  obtain ⟨_, _, _, _, _, _, _, _, hs, h0, h1⟩ := h
  refine ⟨by decide!, by decide!, by decide!, by decide!, by decide!, h0,
    hs _ _ (le_refl _) (by norm_num) (by norm_num),
    hs _ _ (by norm_num) (by norm_num) (by norm_num),
    hs _ _ (by norm_num) (by norm_num) (by norm_num),
    hs _ _ (by norm_num) (by norm_num) (le_refl _), h1⟩

/-! ## C14 -/

/-- While no usable limit is configured and the flag is clear, a second of the timer keeps
the session playing with the flag clear and the session not complete. -/
theorem second_no_limit (today : Int) (fuel : Nat) (t s' : State)
    (hlim : t.timeLimit = TimeLimit.empty ∨ t.timeLimit = TimeLimit.text none)
    (hr : t.timeLimitReached = false) (hc : t.sessionComplete = false)
    (hp : t.isPlaying = true) (h : second today fuel t = some s') :
    (s'.timeLimit = TimeLimit.empty ∨ s'.timeLimit = TimeLimit.text none) ∧
      s'.timeLimitReached = false ∧ s'.sessionComplete = false ∧ s'.isPlaying = true := by
  unfold second at h
  by_cases hmi : t.mainInterval = true
  · rw [if_pos hmi] at h
    have hp' := tick_post today fuel t s' h
    have hflag : s'.timeLimitReached = false := by
      rw [hp'.reached_eq, tickHead_eq]
      show (t.timeLimitReached || limitHit _) = false
      rw [hr]
      unfold limitHit
      rcases hlim with hl | hl <;> simp [hl]
    refine ⟨by rw [hp'.settings.limit]; exact hlim, hflag, ?_, ?_⟩
    · rcases hp'.outcome with ⟨_, _, _, _, _, _, h7, _⟩ | ⟨_, _, _, _, _, _, _, h8, _⟩ |
          ⟨_, h2, _⟩
      · rw [h7]; exact hc
      · rw [h8]; exact hc
      · rw [hflag] at h2; exact absurd h2 (by simp)
    · rcases hp'.outcome with ⟨_, _, _, _, _, h6, _⟩ | ⟨_, _, _, _, _, _, h7, _⟩ |
          ⟨_, h2, _⟩
      · rw [h6]; exact hp
      · rw [h7]; exact hp
      · rw [hflag] at h2; exact absurd h2 (by simp)
  · rw [if_neg hmi] at h
    cases h
    exact ⟨hlim, hr, hc, hp⟩

theorem ticks_no_limit (today : Int) (fuel : Nat) (s : State)
    (hlim : s.timeLimit = TimeLimit.empty ∨ s.timeLimit = TimeLimit.text none)
    (hr : s.timeLimitReached = false) (hc : s.sessionComplete = false)
    (hp : s.isPlaying = true) :
    ∀ n s', ticks today fuel n s = some s' →
      (s'.timeLimit = TimeLimit.empty ∨ s'.timeLimit = TimeLimit.text none) ∧
        s'.timeLimitReached = false ∧ s'.sessionComplete = false ∧ s'.isPlaying = true := by
  intro n
  induction n with
  | zero =>
    intro s' h
    cases h
    exact ⟨hlim, hr, hc, hp⟩
  | succ n ih =>
    intro s' h
    rw [ticks_succ_last] at h
    cases ht : ticks today fuel n s with
    | none => rw [ht] at h; cases h
    | some t =>
      rw [ht] at h
      obtain ⟨a, b, c, d⟩ := ih t ht
      exact second_no_limit today fuel t s' a b c d h

/-- C14. When the target duration is empty or does not parse to a number, start (from
Idle) still enters CountingDown and, after the three countdown ticks, Running; from there
no number of ticks sets the target-reached flag or completes the session, which stays
Running; and the ticks do run (they return) whenever some phase has a non-zero effective
duration. -/
theorem no_limit_never_completes (today : Int) (fuel : Nat) (s : State)
    (hidle : screen s = Screen.settings)
    (hlim : s.timeLimit = TimeLimit.empty ∨ s.timeLimit = TimeLimit.text none) :
    screen (togglePlay s) = Screen.countdown ∧
    screen (countdownTick (countdownTick (countdownTick (togglePlay s)))) = Screen.session ∧
    (countdownTick (countdownTick (countdownTick (togglePlay s)))).isPlaying = true ∧
    (∀ n s', ticks today fuel n
        (countdownTick (countdownTick (countdownTick (togglePlay s)))) = some s' →
      s'.timeLimitReached = false ∧ s'.sessionComplete = false ∧ s'.isPlaying = true) ∧
    (3 ≤ fuel → (∃ i, i < 4 ∧ getScaledPhaseDuration s i ≠ 0) →
      ∀ n, ∃ s', ticks today fuel n
        (countdownTick (countdownTick (countdownTick (togglePlay s)))) = some s') := by
  rw [togglePlay_idle s hidle]
  refine ⟨rfl, rfl, rfl, ?_, ?_⟩
  · intro n s' h
    exact (ticks_no_limit today fuel
      (countdownTick (countdownTick (countdownTick (startCountdown s)))) hlim rfl rfl rfl
      n s' h).2
  · intro hfuel hne n
    exact ticks_exists today fuel
      (countdownTick (countdownTick (countdownTick (startCountdown s)))) hfuel hne n

/-- Witness for C14: Box pattern with an unparsable target; after start, the countdown
and 1000 seconds of ticks the session is still Running with the flag clear. -/
theorem no_limit_never_completes_witness :
    screen unparsableLimit = Screen.settings ∧
    ∃ s', ticks 0 3 1000
        (countdownTick (countdownTick (countdownTick (togglePlay unparsableLimit)))) = some s' ∧
      s'.timeLimitReached = false ∧ s'.sessionComplete = false ∧ s'.isPlaying = true := by
  have h := no_limit_never_completes 0 3 unparsableLimit (by decide) (Or.inr rfl)
  obtain ⟨s', hs'⟩ := h.2.2.2.2 (by decide) ⟨0, by decide, by decide!⟩ 1000
  exact ⟨by decide, s', hs', h.2.2.2.1 1000 s' hs'⟩

/-! ## C15 -/

theorem tick_stats (today : Int) (fuel : Nat) (s s' : State)
    (h : tick today fuel s = some s') :
    s'.stats = s.stats ∨
      (s'.sessionComplete = true ∧ s'.isPlaying = false ∧ s'.mainInterval = false ∧
        s'.timeLimitReached = true ∧ s'.cycleCount = s.cycleCount + 1) := by
  rcases (tick_post today fuel s s' h).outcome with ⟨_, _, _, _, _, _, _, h8⟩ |
      ⟨_, _, _, _, _, _, _, _, h9⟩ | ⟨_, h2, _, h4, _, h6, h7, h8⟩
  · exact Or.inl h8
  · exact Or.inl h9
  · exact Or.inr ⟨h6, h7, h8, h2, h4⟩

/-- C15. The ledger is written only by session completion: every transition of the
controller leaves all six ledger fields as they were unless it is a 1 Hz tick that
completes the session; in particular start (by the button or a preset), the countdown
tick, pause, resume, stop, reset and every settings change leave them unchanged, and so
does every tick after which the session is not complete. -/
theorem ledger_changes_only_on_completion (s s' : State) (h : Step s s') :
    (s'.stats = s.stats ∨
      (s.mainInterval = true ∧ s'.sessionComplete = true ∧ s'.isPlaying = false ∧
        ∃ today fuel, tick today fuel s = some s')) ∧
    (s'.sessionComplete = false → s'.stats = s.stats) ∧
    ((togglePlay s).stats = s.stats ∧ (startCountdown s).stats = s.stats ∧
      (∀ minutes, (startWithPreset minutes s).stats = s.stats) ∧
      (countdownTick s).stats = s.stats ∧ (pauseSession s).stats = s.stats ∧
      (resumeSession s).stats = s.stats ∧ (stopSession s).stats = s.stats ∧
      (resetToStart s).stats = s.stats ∧
      (∀ b, (onSoundToggle b s).stats = s.stats) ∧
      (∀ b, (onHapticToggle b s).stats = s.stats) ∧
      (∀ v, (onTimeLimitInput v s).stats = s.stats) ∧
      (∀ m, (onPaceInput m s).stats = s.stats) ∧
      (∀ p, (onPatternChange p s).stats = s.stats) ∧ (onVisible s).stats = s.stats) := by
  have e1 : (togglePlay s).stats = s.stats := by
    unfold togglePlay pauseSession resumeSession
    split
    · simp only [Bool.not_eq_true', *]
      rfl
    · split
      · simp only [Bool.not_eq_true', *]
        rfl
      · rfl
  have e2 : (countdownTick s).stats = s.stats := by
    unfold countdownTick
    simp only []
    split <;> rfl
  have e3 : (pauseSession s).stats = s.stats := by
    unfold pauseSession
    split <;> rfl
  have e4 : (resumeSession s).stats = s.stats := by
    unfold resumeSession
    split <;> rfl
  have e5 : ∀ b, (onSoundToggle b s).stats = s.stats := by
    intro b; cases b <;> rfl
  have e6 : ∀ b, (onHapticToggle b s).stats = s.stats := by
    intro b; cases b <;> rfl
  have e7 : ∀ v, (onTimeLimitInput v s).stats = s.stats := by
    intro v; cases v <;> rfl
  have e8 : (onVisible s).stats = s.stats := by
    unfold onVisible
    split <;> rfl
  have main : s'.stats = s.stats ∨
      (s.mainInterval = true ∧ s'.sessionComplete = true ∧ s'.isPlaying = false ∧
        ∃ today fuel, tick today fuel s = some s') := by
    cases h with
    | clickTogglePlay _ => exact Or.inl e1
    | clickStop _ => exact Or.inl rfl
    | clickReset _ => exact Or.inl rfl
    | clickPreset minutes _ _ => exact Or.inl rfl
    | soundToggle checked _ => exact Or.inl (e5 checked)
    | hapticToggle checked _ => exact Or.inl (e6 checked)
    | timeLimitInput digits _ => exact Or.inl (e7 digits)
    | paceInput m _ => exact Or.inl rfl
    | patternChange p _ _ => exact Or.inl rfl
    | countdownTimer _ => exact Or.inl e2
    | mainTimer _ td fl hmi ht =>
      rcases tick_stats td fl s s' ht with h1 | ⟨h1, h2, _⟩
      · exact Or.inl h1
      · exact Or.inr ⟨hmi, h1, h2, td, fl, ht⟩
    | visible => exact Or.inl e8
  refine ⟨main, ?_, e1, rfl, fun _ => rfl, e2, e3, e4, rfl, rfl, e5, e6, e7,
    fun _ => rfl, fun _ => rfl, e8⟩
  intro hc
  rcases main with h1 | ⟨_, h1, _⟩
  · exact h1
  · rw [hc] at h1; exact absurd h1 (by simp)

/-- Witness for C15: stopping the 2-minute Box session 5 seconds in is a transition of the
controller (the session screen shows the stop button) and leaves the ledger unchanged; the
completing tick after second 127 is what raises the session count from 0 to 1. -/
theorem ledger_changes_only_on_completion_witness :
    screen (boxTwoMinutesAfter 5) = Screen.session ∧
    (stopSession (boxTwoMinutesAfter 5)).stats = (boxTwoMinutesAfter 5).stats ∧
    (boxTwoMinutesAfter 127).stats.totalSessions = 0 ∧
    (tick 0 3 (boxTwoMinutesAfter 127)).map (fun u => u.stats.totalSessions) = some 1 :=
  ⟨by decide!,
    (ledger_changes_only_on_completion (boxTwoMinutesAfter 5) (stopSession (boxTwoMinutesAfter 5))
      (Step.clickStop _ (by decide!))).2.1 rfl, by decide!, by decide!⟩

/-! ## C16 -/

/-- Counterexample to C16 as stated: the stored text `{}` is valid JSON that is no ledger
(it is not the object of any ledger), and `loadStats` returns the empty object it parses
to, not the zeroed ledger. -/
theorem loadStats_returns_non_ledger :
    (¬ ∃ st, Json.obj [] = Stats.toJson st) ∧
      loadStats (StoredItem.text "{}" (some (Json.obj []))) = Json.obj [] ∧
      loadStats (StoredItem.text "{}" (some (Json.obj []))) ≠ Stats.toJson zeroStats := by
  refine ⟨?_, rfl, ?_⟩
  · rintro ⟨st, h⟩
    simp [Stats.toJson] at h
  · show Json.obj [] ≠ _
    simp [Stats.toJson]

/-- C16 (amended). `loadStats` returns the zeroed ledger when the storage access throws,
when the value is missing or empty, and when the stored text is not valid JSON
(`JSON.parse` throws); a non-empty stored text that is valid JSON is returned as parsed,
whatever its shape.  It returns a value in every case. -/
theorem loadStats_fallback (saved : String) (value : Json) :
    loadStats StoredItem.accessThrows = Stats.toJson zeroStats ∧
    loadStats StoredItem.absent = Stats.toJson zeroStats ∧
    loadStats (StoredItem.text "" (some value)) = Stats.toJson zeroStats ∧
    loadStats (StoredItem.text "" none) = Stats.toJson zeroStats ∧
    loadStats (StoredItem.text saved none) = Stats.toJson zeroStats ∧
    (saved ≠ "" → loadStats (StoredItem.text saved (some value)) = value) ∧
    (∀ item, ∃ v, loadStats item = v) ∧
    Stats.toJson zeroStats =
      Json.obj
        [("totalSessions", Json.num 0), ("totalMinutes", Json.num 0),
         ("totalCycles", Json.num 0), ("currentStreak", Json.num 0),
         ("lastSessionDate", Json.null), ("longestStreak", Json.num 0)] := by
  refine ⟨rfl, rfl, rfl, rfl, ?_, ?_, fun item => ⟨_, rfl⟩, rfl⟩
  · show (if saved ≠ "" then Stats.toJson zeroStats else Stats.toJson zeroStats) = _
    split <;> rfl
  · intro h
    show (if saved ≠ "" then value else Stats.toJson zeroStats) = _
    rw [if_pos h]

/-- Witness for C16: a stored text that is not valid JSON gives the zeroed ledger; the
stored text of a ledger gives that ledger. -/
theorem loadStats_fallback_witness :
    loadStats (StoredItem.text "not json" none) = Stats.toJson zeroStats ∧
    loadStats (StoredItem.text "stored ledger" (some (Stats.toJson sampleLedger))) =
      Stats.toJson sampleLedger :=
  ⟨(loadStats_fallback "not json" Json.null).2.2.2.2.1,
    (loadStats_fallback "stored ledger" (Stats.toJson sampleLedger)).2.2.2.2.2.1 (by decide)⟩

/-! ## C17 -/

theorem drawScene_draws (s : State) (r : RenderState) (progress : ℝ) (phase : Nat)
    (timestamp : ℝ) (hw : r.viewportWidth ≠ 0) (hh : r.viewportHeight ≠ 0)
    (hs : s.isPlaying = true ∨ s.sessionComplete = true ∨ s.isStartingCountdown = true) :
    ∃ sc, drawScene s r progress phase timestamp = some sc := by
  unfold drawScene
  simp only []
  rw [if_neg (by simp [hw, hh])]
  rw [if_neg (by
    rcases hs with h | h | h <;> simp [h])]
  exact ⟨_, rfl⟩

theorem drawScene_pulse (s : State) (r : RenderState) (progress : ℝ) (phase : Nat)
    (timestamp : ℝ) (sc : Scene) (h : drawScene s r progress phase timestamp = some sc) :
    sc.pulseBoost =
      (match r.pulseStartTime with
        | some pulseStartTime =>
          if (!r.prefersReducedMotion) = true then
            if (timestamp - pulseStartTime) / 1000 < 0.4 then
              Real.sin ((timestamp - pulseStartTime) / 1000 / 0.4 * Real.pi) * 0.5
            else 0
          else 0
        | none => 0) ∧
    sc.size = sc.sizeWithoutBreath * (1 + 0.1 * sc.breathInfluence + 0.02 * sc.pulseBoost) := by
  unfold drawScene at h
  simp only [] at h
  split at h
  · cases h
  · split at h
    · cases h
    · simp only [Option.some.injEq] at h
      subst h
      exact ⟨rfl, rfl⟩

theorem sampleRender_pulse (sc : Scene)
    (h : drawScene (startSession (initialState zeroStats)) sampleRender 0 0 200 = some sc) :
    sc.pulseBoost = 1 / 2 := by
  rw [(drawScene_pulse _ _ _ _ _ sc h).1]
  have e : ((200 : ℝ) - 0) / 1000 / 0.4 * Real.pi = Real.pi / 2 := by ring
  have hlt : ((200 : ℝ) - 0) / 1000 < 0.4 := by norm_num
  simp only [sampleRender, Bool.not_false, if_true, hlt, e, Real.sin_pi_div_two]
  norm_num

/-- Counterexample to C17 as stated: 0.2 s after a phase change, with motion allowed, the
pulse boost `drawScene` computes is 0.5, while sin(pi * t / 0.4) = sin(pi / 2) = 1. -/
theorem pulse_boost_is_halved :
    ∃ sc, drawScene (startSession (initialState zeroStats)) sampleRender 0 0 200 = some sc ∧
      sc.pulseBoost = 1 / 2 ∧ Real.sin (Real.pi * (200 / 1000) / 0.4) = 1 ∧
      sc.pulseBoost ≠ Real.sin (Real.pi * (200 / 1000) / 0.4) := by
  obtain ⟨sc, hsc⟩ := drawScene_draws (startSession (initialState zeroStats)) sampleRender
    0 0 200 (by norm_num [sampleRender]) (by norm_num [sampleRender]) (Or.inl rfl)
  have hs : Real.sin (Real.pi * (200 / 1000) / 0.4) = 1 := by
    have e : Real.pi * (200 / 1000) / 0.4 = Real.pi / 2 := by ring
    rw [e, Real.sin_pi_div_two]
  refine ⟨sc, hsc, sampleRender_pulse sc hsc, hs, ?_⟩
  rw [sampleRender_pulse sc hsc, hs]
  norm_num

/-- C17 (amended). In `drawScene`, with motion allowed and a phase-change timestamp
recorded, the pulse boost at `t` seconds after that timestamp is 0.5 * sin(pi * t / 0.4)
when t < 0.4 and 0 when t >= 0.4; it is 0 under reduced motion and when no phase-change
timestamp exists; and the box size is the un-breathed side length times
(1 + 0.1 * breathInfluence + 0.02 * pulseBoost). -/
theorem pulse_boost_and_size (s : State) (r : RenderState) (progress : ℝ) (phase : Nat)
    (timestamp : ℝ) (sc : Scene) (h : drawScene s r progress phase timestamp = some sc) :
    (∀ t0, r.pulseStartTime = some t0 → r.prefersReducedMotion = false →
      (timestamp - t0) / 1000 < 0.4 →
      sc.pulseBoost = 0.5 * Real.sin (Real.pi * ((timestamp - t0) / 1000) / 0.4)) ∧
    (∀ t0, r.pulseStartTime = some t0 → r.prefersReducedMotion = false →
      0.4 ≤ (timestamp - t0) / 1000 → sc.pulseBoost = 0) ∧
    (r.prefersReducedMotion = true → sc.pulseBoost = 0) ∧
    (r.pulseStartTime = none → sc.pulseBoost = 0) ∧
    sc.size = sc.sizeWithoutBreath * (1 + 0.1 * sc.breathInfluence + 0.02 * sc.pulseBoost) ∧
    sc.sizeWithoutBreath =
      min (min r.viewportWidth r.viewportHeight * 0.55)
        (min r.viewportWidth r.viewportHeight - 30 * 2) := by
  obtain ⟨hp, hsize⟩ := drawScene_pulse s r progress phase timestamp sc h
  refine ⟨?_, ?_, ?_, ?_, hsize, ?_⟩
  · intro t0 h1 h2 h3
    rw [hp, h1]
    simp only [h2, Bool.not_false, if_true, h3]
    have e : (timestamp - t0) / 1000 / 0.4 * Real.pi =
        Real.pi * ((timestamp - t0) / 1000) / 0.4 := by ring
    rw [e]
    ring
  · intro t0 h1 h2 h3
    rw [hp, h1]
    simp only [h2, Bool.not_false, if_true, not_lt.mpr h3, if_false]
  · intro h2
    rw [hp]
    cases r.pulseStartTime <;> simp [h2]
  · intro h1
    rw [hp, h1]
  · unfold drawScene at h
    simp only [] at h
    split at h
    · cases h
    · split at h
      · cases h
      · simp only [Option.some.injEq] at h
        subst h
        rfl

/-- Witness for C17: a Running Box session drawn 0.2 s after a phase change in a 400 by
800 viewport: pulse boost 0.5 * sin(pi / 2) = 0.5, and the size formula holds. -/
theorem pulse_boost_and_size_witness :
    ∃ sc, drawScene (startSession (initialState zeroStats)) sampleRender 0 0 200 = some sc ∧
      sc.pulseBoost = 0.5 * Real.sin (Real.pi * ((200 - 0) / 1000) / 0.4) ∧
      sc.pulseBoost = 1 / 2 ∧
      sc.size = sc.sizeWithoutBreath * (1 + 0.1 * sc.breathInfluence + 0.02 * sc.pulseBoost) := by
  obtain ⟨sc, hsc⟩ := drawScene_draws (startSession (initialState zeroStats)) sampleRender
    0 0 200 (by norm_num [sampleRender]) (by norm_num [sampleRender]) (Or.inl rfl)
  have h := pulse_boost_and_size _ _ _ _ _ sc hsc
  exact ⟨sc, hsc, h.1 0 rfl rfl (by norm_num), sampleRender_pulse sc hsc, h.2.2.2.2.1⟩

/-! ## C18 -/

theorem drawScene_indicator (s : State) (r : RenderState) (progress : ℝ) (phase : Nat)
    (timestamp : ℝ) (sc : Scene) (h : drawScene s r progress phase timestamp = some sc) :
    sc.points =
      [(sc.adjustedLeft, sc.adjustedTop + sc.size), (sc.adjustedLeft, sc.adjustedTop),
       (sc.adjustedLeft + sc.size, sc.adjustedTop),
       (sc.adjustedLeft + sc.size, sc.adjustedTop + sc.size)] ∧
    sc.currentX = (sc.points.getD phase (0, 0)).1 + easedProgress progress *
      ((sc.points.getD ((phase + 1) % 4) (0, 0)).1 - (sc.points.getD phase (0, 0)).1) ∧
    sc.currentY = (sc.points.getD phase (0, 0)).2 + easedProgress progress *
      ((sc.points.getD ((phase + 1) % 4) (0, 0)).2 - (sc.points.getD phase (0, 0)).2) := by
  unfold drawScene at h
  simp only [] at h
  split at h
  · cases h
  · split at h
    · cases h
    · simp only [Option.some.injEq] at h
      subst h
      exact ⟨rfl, rfl, rfl⟩

/-- C18. For every phase index `p` in {0, 1, 2, 3} and every progress value, `drawScene`
places the moving indicator at corner[p] + eased * (corner[(p + 1) mod 4] - corner[p]),
where `eased` is the eased clamped progress and the corners are, in index order, the
bottom-left, top-left, top-right and bottom-right corners of the current box (the y axis
points down); so at progress 0 the indicator is on corner `p` and at progress 1 on the
next corner.  Numbers are exact, not floating point. -/
theorem indicator_interpolates (s : State) (r : RenderState) (progress : ℝ) (phase : Nat)
    (timestamp : ℝ) (sc : Scene) (hp : phase < 4)
    (h : drawScene s r progress phase timestamp = some sc) :
    sc.points =
      [(sc.adjustedLeft, sc.adjustedTop + sc.size), (sc.adjustedLeft, sc.adjustedTop),
       (sc.adjustedLeft + sc.size, sc.adjustedTop),
       (sc.adjustedLeft + sc.size, sc.adjustedTop + sc.size)] ∧
    (∃ a b, sc.points.get? phase = some a ∧ sc.points.get? ((phase + 1) % 4) = some b ∧
      sc.currentX = a.1 + easedProgress progress * (b.1 - a.1) ∧
      sc.currentY = a.2 + easedProgress progress * (b.2 - a.2) ∧
      (progress = 0 → sc.currentX = a.1 ∧ sc.currentY = a.2) ∧
      (progress = 1 → sc.currentX = b.1 ∧ sc.currentY = b.2)) := by
  obtain ⟨h1, h2, h3⟩ := drawScene_indicator s r progress phase timestamp sc h
  refine ⟨h1, sc.points.getD phase (0, 0), sc.points.getD ((phase + 1) % 4) (0, 0), ?_, ?_,
    h2, h3, ?_, ?_⟩
  · rw [h1]
    interval_cases phase <;> rfl
  · rw [h1]
    interval_cases phase <;> rfl
  · intro h0
    rw [h2, h3, h0, easedProgress_zero]
    constructor <;> ring
  · intro h0
    rw [h2, h3, h0, easedProgress_one]
    constructor <;> ring

/-- Witness for C18: a Running Box session in a 400 by 800 viewport, phase 1 (Hold).  At
progress 0 the indicator is on the top-left corner, at progress 1 on the top-right one. -/
theorem indicator_interpolates_witness :
    (∃ sc, drawScene (startSession (initialState zeroStats)) sampleRender 0 1 200 = some sc ∧
      sc.currentX = sc.adjustedLeft ∧ sc.currentY = sc.adjustedTop) ∧
    (∃ sc, drawScene (startSession (initialState zeroStats)) sampleRender 1 1 200 = some sc ∧
      sc.currentX = sc.adjustedLeft + sc.size ∧ sc.currentY = sc.adjustedTop) := by
  obtain ⟨sc0, h0⟩ := drawScene_draws (startSession (initialState zeroStats)) sampleRender
    0 1 200 (by norm_num [sampleRender]) (by norm_num [sampleRender]) (Or.inl rfl)
  obtain ⟨sc1, h1⟩ := drawScene_draws (startSession (initialState zeroStats)) sampleRender
    1 1 200 (by norm_num [sampleRender]) (by norm_num [sampleRender]) (Or.inl rfl)
  obtain ⟨p0, a, b, ha, hb, _, _, hz, _⟩ :=
    indicator_interpolates _ _ _ _ _ sc0 (by decide) h0
  obtain ⟨p1, a', b', ha', hb', _, _, _, ho⟩ :=
    indicator_interpolates _ _ _ _ _ sc1 (by decide) h1
  rw [p0] at ha hb
  rw [p1] at ha' hb'
  simp only [List.get?_cons_succ, List.get?_cons_zero, Option.some.injEq] at ha hb ha' hb'
  refine ⟨⟨sc0, h0, ?_, ?_⟩, ⟨sc1, h1, ?_, ?_⟩⟩
  · rw [(hz rfl).1, ← ha]
  · rw [(hz rfl).2, ← ha]
  · rw [(ho rfl).1, ← hb']
  · rw [(ho rfl).2, ← hb']

/-! ## C19 -/

theorem pauseSession_settings (s : State) :
    (pauseSession s).selectedPattern = s.selectedPattern ∧
      (pauseSession s).phaseMultiplier = s.phaseMultiplier := by
  unfold pauseSession
  split <;> exact ⟨rfl, rfl⟩

theorem resumeSession_settings (s : State) :
    (resumeSession s).selectedPattern = s.selectedPattern ∧
      (resumeSession s).phaseMultiplier = s.phaseMultiplier := by
  unfold resumeSession
  split <;> exact ⟨rfl, rfl⟩

theorem ClockInv.of_clock {s s' : State} (h : ClockInv s)
    (hp : s'.selectedPattern = s.selectedPattern) (hm : s'.phaseMultiplier = s.phaseMultiplier)
    (hc : clock s' = clock s) : ClockInv s' := by
  simp only [clock, Prod.mk.injEq] at hc
  exact h.of_fields hp hm hc.1 hc.2.1 hc.2.2.1 hc.2.2.2.1

theorem SessionReach.has_clockInv {s0 s : State} (hpos : 0 < getScaledPhaseDuration s0 0)
    (h : SessionReach s0 s) :
    ClockInv s ∧ s.selectedPattern = s0.selectedPattern ∧
      s.phaseMultiplier = s0.phaseMultiplier := by
  induction h with
  | start => exact ⟨startSession_clockInv s0 hpos, rfl, rfl⟩
  | tick t t' today fuel _ _ ht ih =>
    obtain ⟨hi, hp, hm⟩ := ih
    have hp' := tick_post today fuel t t' ht
    have hd : ∀ i, getScaledPhaseDuration t i = getScaledPhaseDuration s0 i := by
      intro i; rw [getScaledPhaseDuration_eq, getScaledPhaseDuration_eq, hp, hm]
    have h0 : 0 < getScaledPhaseDuration t 0 := by rw [hd]; exact hpos
    have hnn := getScaledPhaseDuration_nonneg_of_pos t h0
    obtain ⟨u, hu, hpost⟩ := tick_spec today (fuel + 3) t (by omega) h0 hnn hi
    have hmono := tick_mono today fuel t t' ht 3
    rw [hmono] at hu
    cases hu
    exact ⟨hpost.inv, hp'.settings.pattern.trans hp, hp'.settings.multiplier.trans hm⟩
  | pause t _ ih =>
    obtain ⟨hi, hp, hm⟩ := ih
    obtain ⟨a, b⟩ := pauseSession_settings t
    exact ⟨hi.of_clock a b (pauseSession_clock t), a.trans hp, b.trans hm⟩
  | resume t _ ih =>
    obtain ⟨hi, hp, hm⟩ := ih
    obtain ⟨a, b⟩ := resumeSession_settings t
    exact ⟨hi.of_clock a b (resumeSession_clock t), a.trans hp, b.trans hm⟩

/-- C19. When phase 0 has a positive effective duration, every state reached from
`startSession` by ticks, pauses and resumes satisfies
elapsed = cycleCount * C + (sum of the effective durations of the phases before the
current one) + (effective duration of the current phase - remaining countdown), with `C`
the sum of the four effective durations; and every tick from such a state, the completing
one included, returns and raises the elapsed seconds by exactly 1. -/
theorem elapsed_accounting (s0 s : State) (hpos : 0 < getScaledPhaseDuration s0 0)
    (h : SessionReach s0 s) :
    (s.totalTime : Int) =
      (s.cycleCount : Int) * getTotalCycleDuration s0 + phaseStart s0 s.currentPhase
        + (getScaledPhaseDuration s0 s.currentPhase - s.phaseCountdown) ∧
    getTotalCycleDuration s0 =
      getScaledPhaseDuration s0 0 + getScaledPhaseDuration s0 1
        + getScaledPhaseDuration s0 2 + getScaledPhaseDuration s0 3 ∧
    (∀ today fuel, 3 ≤ fuel →
      ∃ s', tick today fuel s = some s' ∧ s'.totalTime = s.totalTime + 1) ∧
    (∀ today fuel s', tick today fuel s = some s' → s'.totalTime = s.totalTime + 1) := by
  obtain ⟨hi, hp, hm⟩ := h.has_clockInv hpos
  have hd : ∀ i, getScaledPhaseDuration s i = getScaledPhaseDuration s0 i := by
    intro i; rw [getScaledPhaseDuration_eq, getScaledPhaseDuration_eq, hp, hm]
  have hC : getTotalCycleDuration s = getTotalCycleDuration s0 := by
    rw [getTotalCycleDuration_eq, getTotalCycleDuration_eq, hp, hm]
  have hP : ∀ k, phaseStart s k = phaseStart s0 k := by
    intro k; rw [phaseStart_eq, phaseStart_eq, hp, hm]
  refine ⟨?_, getTotalCycleDuration_eq s0, ?_, ?_⟩
  · have := hi.elapsed
    rw [hC, hP, hd] at this
    exact this
  · intro today fuel hfuel
    have h0 : 0 < getScaledPhaseDuration s 0 := by rw [hd]; exact hpos
    obtain ⟨s', hs', hpost⟩ := tick_spec today fuel s hfuel h0
      (getScaledPhaseDuration_nonneg_of_pos s h0) hi
    exact ⟨s', hs', hpost.totalTime_eq⟩
  · intro today fuel s' hs'
    exact (tick_post today fuel s s' hs').totalTime_eq

theorem SessionReach.of_ticks {s0 : State} (today : Int) (fuel : Nat) :
    ∀ (n : Nat) (t t' : State), SessionReach s0 t → ticks today fuel n t = some t' →
      SessionReach s0 t' := by
  intro n
  induction n with
  | zero =>
    intro t t' ht h
    cases h
    exact ht
  | succ n ih =>
    intro t t' ht h
    rw [ticks_succ] at h
    unfold second at h
    by_cases hmi : t.mainInterval = true
    · rw [if_pos hmi] at h
      cases hu : Box5n3.tick today fuel t with
      | none => rw [hu] at h; cases h
      | some u =>
        rw [hu] at h
        exact ih u t' (SessionReach.tick t u today fuel ht hmi hu) h
    · rw [if_neg hmi] at h
      exact ih t t' ht h

/-- Witness for C19: base durations 4-0-4-0 at pace 1.  After 5 ticks, a pause and a
resume the session is in phase 2 with countdown 3, and 5 = 0 * 8 + 4 + (4 - 3). -/
theorem elapsed_accounting_witness :
    0 < getScaledPhaseDuration skipSettings 0 ∧
    ∃ s, SessionReach skipSettings s ∧ s.totalTime = 5 ∧ s.cycleCount = 0 ∧
      s.currentPhase = 2 ∧ s.phaseCountdown = 3 ∧
      (s.totalTime : Int) =
        (s.cycleCount : Int) * getTotalCycleDuration skipSettings
          + phaseStart skipSettings s.currentPhase
          + (getScaledPhaseDuration skipSettings s.currentPhase - s.phaseCountdown) := by
  have hpos : 0 < getScaledPhaseDuration skipSettings 0 := by decide!
  obtain ⟨t, ht⟩ := ticks_exists 0 3 (startSession skipSettings) (by decide)
    ⟨0, by decide, by decide!⟩ 5
  have hr : SessionReach skipSettings (resumeSession (pauseSession t)) :=
    SessionReach.resume _ (SessionReach.pause _
      (SessionReach.of_ticks 0 3 5 _ t SessionReach.start ht))
  have hc : (ticks 0 3 5 (startSession skipSettings)).map clock =
      some (2, 3, 5, 0, TimeLimit.empty, false) := by decide!
  rw [ht] at hc
  simp only [Option.map_some', Option.some.injEq] at hc
  have hc' : clock (resumeSession (pauseSession t)) =
      (2, 3, 5, 0, TimeLimit.empty, false) := by
    rw [resumeSession_clock, pauseSession_clock, hc]
  simp only [clock, Prod.mk.injEq] at hc'
  exact ⟨hpos, _, hr, hc'.2.2.1, hc'.2.2.2.1, hc'.1, hc'.2.1,
    (elapsed_accounting skipSettings _ hpos hr).1⟩

/-! ## C20 -/

theorem getTotalCycleDuration_pos (s : State) (h0 : 0 < getScaledPhaseDuration s 0) :
    0 < getTotalCycleDuration s := by
  have hnn := getScaledPhaseDuration_nonneg_of_pos s h0
  have := (phaseStart_bounds s hnn 0 (by omega)).2.1
  rw [phaseStart_zero] at this
  omega

theorem ClockInv.cycle_eq_div {s : State} (hs : ClockInv s)
    (h0 : 0 < getScaledPhaseDuration s 0) :
    s.cycleCount = s.totalTime / cycleSeconds s := by
  have hnn := getScaledPhaseDuration_nonneg_of_pos s h0
  obtain ⟨hlt, h1, h2, h3⟩ := hs
  obtain ⟨b1, b2, _⟩ := phaseStart_bounds s hnn s.currentPhase hlt
  have hC := getTotalCycleDuration_pos s h0
  have hcast : ((cycleSeconds s : Nat) : Int) = getTotalCycleDuration s := by
    unfold cycleSeconds
    omega
  symm
  apply Nat.div_eq_of_lt_le
  · zify
    rw [hcast]
    omega
  · zify
    rw [hcast, add_mul]
    omega

theorem ceil_cycles (C T : Nat) (hC : 0 < C) (hT : 1 ≤ T) :
    60 * T ≤ C * ((60 * T + C - 1) / C) ∧ C * ((60 * T + C - 1) / C) < 60 * T + C ∧
      1 ≤ (60 * T + C - 1) / C := by
  have hdm := Nat.div_add_mod (60 * T + C - 1) C
  have hml := Nat.mod_lt (60 * T + C - 1) hC
  have h1 : 60 * T ≤ C * ((60 * T + C - 1) / C) := by omega
  refine ⟨h1, by omega, ?_⟩
  rcases Nat.eq_zero_or_pos ((60 * T + C - 1) / C) with h | h
  · rw [h] at h1; omega
  · exact h

theorem no_boundary_before (C T n : Nat) (hC : 0 < C) (hT : 1 ≤ T)
    (hn : n + 1 < C * ((60 * T + C - 1) / C)) (h60 : 60 * T ≤ n + 1) :
    ¬ n / C < (n + 1) / C := by
  intro hlt
  obtain ⟨a1, a2, _⟩ := ceil_cycles C T hC hT
  have hdm := Nat.div_add_mod (n + 1) C
  have h1 : n < (n + 1) / C * C := (Nat.div_lt_iff_lt_mul hC).mp hlt
  have h2 : C * ((n + 1) / C) = n + 1 := by
    rw [Nat.mul_comm] at h1
    omega
  have h3 : (n + 1) / C < (60 * T + C - 1) / C := by
    apply Nat.lt_of_mul_lt_mul_left (a := C)
    omega
  have h4 : C * ((n + 1) / C + 1) ≤ C * ((60 * T + C - 1) / C) :=
    Nat.mul_le_mul_left C h3
  rw [Nat.mul_add, Nat.mul_one] at h4
  omega

theorem boundary_at_target (C T : Nat) (hC : 0 < C) (hT : 1 ≤ T) :
    (C * ((60 * T + C - 1) / C) - 1) / C < C * ((60 * T + C - 1) / C) / C := by
  obtain ⟨a1, _, a3⟩ := ceil_cycles C T hC hT
  rw [Nat.mul_div_cancel_left _ hC, Nat.div_lt_iff_lt_mul hC]
  have := Nat.mul_comm C ((60 * T + C - 1) / C)
  omega

theorem tickHead_flag_target (t : State) (T : Nat)
    (hT : t.timeLimit = TimeLimit.text (some T)) :
    (tickHead t).timeLimitReached = true ↔
      (t.timeLimitReached = true ∨ 60 * T ≤ t.totalTime + 1) := by
  rw [tickHead_eq]
  simp only [Bool.or_eq_true, limitHit, hT, decide_eq_true_eq]
  constructor
  · rintro (h | h)
    · exact Or.inl h
    · exact Or.inr (by omega)
  · rintro (h | h)
    · exact Or.inl h
    · exact Or.inr (by omega)

/-- The run of a session with a target up to its completion: before the first cycle
boundary at or after the target it keeps running, and at that boundary it completes. -/
theorem run_to_target (today : Int) (fuel : Nat) (s : State) (T : Nat) (hfuel : 3 ≤ fuel)
    (hpos : 0 < getScaledPhaseDuration s 0) (hT : s.timeLimit = TimeLimit.text (some T))
    (hT1 : 1 ≤ T) (hflag : s.timeLimitReached = false) (hnc : s.sessionComplete = false) :
    ∀ n, n ≤ cycleSeconds s * cyclesToTarget s T →
      ∃ t, ticks today fuel n (startSession s) = some t ∧ ClockInv t ∧
        SameSettings (startSession s) t ∧ t.totalTime = n ∧
        (n < cycleSeconds s * cyclesToTarget s T →
          t.mainInterval = true ∧ t.isPlaying = true ∧ t.sessionComplete = false ∧
            (t.timeLimitReached = true → 60 * T ≤ n)) ∧
        (n = cycleSeconds s * cyclesToTarget s T →
          t.sessionComplete = true ∧ t.isPlaying = false) := by
  have hC : 0 < cycleSeconds s := by
    have := getTotalCycleDuration_pos s hpos
    unfold cycleSeconds
    omega
  obtain ⟨a1, a2, a3⟩ := ceil_cycles (cycleSeconds s) T hC hT1
  intro n
  induction n with
  | zero =>
    intro _
    refine ⟨startSession s, rfl, startSession_clockInv s hpos, ⟨rfl, rfl, rfl⟩, rfl, ?_, ?_⟩
    · intro _
      refine ⟨rfl, rfl, hnc, ?_⟩
      intro h
      have h' : s.timeLimitReached = true := h
      rw [hflag] at h'
      exact absurd h' (by simp)
    · intro h
      unfold cyclesToTarget at h
      omega
  | succ n ih =>
    intro hn
    obtain ⟨t, ht, hinv, ⟨hp, hm, hl⟩, htt, hrun, _⟩ := ih (by omega)
    obtain ⟨r1, r2, r3, r4⟩ := hrun (by omega)
    have hd : ∀ i, getScaledPhaseDuration t i = getScaledPhaseDuration s i := by
      intro i
      rw [getScaledPhaseDuration_eq, getScaledPhaseDuration_eq, hp, hm]
      rfl
    have hCt : cycleSeconds t = cycleSeconds s := by
      unfold cycleSeconds
      rw [getTotalCycleDuration_eq, getTotalCycleDuration_eq, hp, hm]
      rfl
    have h0 : 0 < getScaledPhaseDuration t 0 := by rw [hd]; exact hpos
    have hnn := getScaledPhaseDuration_nonneg_of_pos t h0
    obtain ⟨u, hu, q1, ⟨q21, q22, q23⟩, q3, q4, q5, q6⟩ := tick_spec today fuel t hfuel h0 hnn hinv
    have hsp := tick_post today fuel t u hu
    have hTt : t.timeLimit = TimeLimit.text (some T) := by rw [hl]; exact hT
    have hflag' : u.timeLimitReached = true ↔ 60 * T ≤ n + 1 := by
      rw [q4, tickHead_flag_target t T hTt, htt]
      constructor
      · rintro (h | h)
        · have := r4 h; omega
        · exact h
      · intro h; exact Or.inr h
    have hdu : ∀ i, getScaledPhaseDuration u i = getScaledPhaseDuration t i := by
      intro i; rw [getScaledPhaseDuration_eq, getScaledPhaseDuration_eq, q21, q22]
    have hCu : cycleSeconds u = cycleSeconds s := by
      unfold cycleSeconds
      rw [getTotalCycleDuration_eq, getTotalCycleDuration_eq, q21, q22, hp, hm]
      rfl
    have hct : t.cycleCount = n / cycleSeconds s := by
      rw [hinv.cycle_eq_div h0, hCt, htt]
    have hcu : u.cycleCount = (n + 1) / cycleSeconds s := by
      rw [q1.cycle_eq_div (by rw [hdu]; exact h0), hCu, q3, htt]
    have hciff := hsp.complete_iff r3
    rw [ticks_succ_last, ht]
    refine ⟨u, by show second today fuel t = some u; rw [second, r1]; exact hu, q1,
      ⟨q21.trans hp, q22.trans hm, q23.trans hl⟩, by omega, ?_, ?_⟩
    · intro hlt
      have hnot : ¬ u.sessionComplete = true := by
        intro hc
        obtain ⟨c1, c2⟩ := hciff.mp hc
        rw [hct, hcu] at c2
        exact no_boundary_before (cycleSeconds s) T n hC hT1 hlt (hflag'.mp c1) c2
      rcases q6 with ⟨o1, o2, o3⟩ | ⟨_, _, o3, _⟩
      · exact ⟨o1.trans r1, o2.trans r2, o3.trans r3, fun h => hflag'.mp h⟩
      · exact absurd o3 hnot
    · intro heq
      have hc : u.sessionComplete = true := by
        apply hciff.mpr
        refine ⟨hflag'.mpr (by unfold cyclesToTarget at heq; omega), ?_⟩
        rw [hct, hcu]
        have hb := boundary_at_target (cycleSeconds s) T hC hT1
        unfold cyclesToTarget at heq
        rw [← heq] at hb
        simpa using hb
      rcases q6 with ⟨_, _, o3⟩ | ⟨_, o2, _⟩
      · rw [o3, r3] at hc; exact absurd hc (by simp)
      · exact ⟨hc, o2⟩

theorem cyclesToTarget_eq_ceil (s : State) (T : Nat)
    (hpos : 0 < getScaledPhaseDuration s 0) (hT1 : 1 ≤ T) :
    ((cyclesToTarget s T : Nat) : Int) =
      ⌈((60 * T : Nat) : ℚ) / (getTotalCycleDuration s : ℚ)⌉ := by
  have hCpos := getTotalCycleDuration_pos s hpos
  have hC : 0 < cycleSeconds s := by
    unfold cycleSeconds
    omega
  have hcast : ((cycleSeconds s : Nat) : Int) = getTotalCycleDuration s := by
    unfold cycleSeconds
    omega
  obtain ⟨a1, a2, a3⟩ := ceil_cycles (cycleSeconds s) T hC hT1
  have hq : (getTotalCycleDuration s : ℚ) = ((cycleSeconds s : Nat) : ℚ) := by
    rw [← hcast]; simp
  have hCq : (0 : ℚ) < ((cycleSeconds s : Nat) : ℚ) := by exact_mod_cast hC
  symm
  rw [Int.ceil_eq_iff, hq]
  have b1 : ((60 * T : Nat) : ℚ) ≤
      ((cycleSeconds s : Nat) : ℚ) * ((cyclesToTarget s T : Nat) : ℚ) := by
    unfold cyclesToTarget
    exact_mod_cast a1
  have b2 : ((cycleSeconds s : Nat) : ℚ) * ((cyclesToTarget s T : Nat) : ℚ) <
      ((60 * T : Nat) : ℚ) + ((cycleSeconds s : Nat) : ℚ) := by
    unfold cyclesToTarget
    exact_mod_cast a2
  constructor
  · rw [lt_div_iff₀ hCq]
    push_cast at b1 b2 ⊢
    nlinarith
  · rw [div_le_iff₀ hCq]
    push_cast at b1 b2 ⊢
    nlinarith

/-- C20. When phase 0 has a positive effective duration, the total effective cycle
duration is `C` seconds and the target is `T >= 1` minutes, a session run from
`startSession` (target-reached and complete flags clear, as `startCountdown` leaves
them) is Running with elapsed = n after every n < C * ceil(60 T / C) ticks and completes
on tick C * ceil(60 T / C), with that many elapsed seconds and ceil(60 T / C) cycles; the
completion comes no earlier than the target and less than one cycle after it. -/
theorem completes_at_first_cycle_boundary (today : Int) (fuel : Nat) (s : State) (T : Nat)
    (hfuel : 3 ≤ fuel) (hpos : 0 < getScaledPhaseDuration s 0)
    (hT : s.timeLimit = TimeLimit.text (some T)) (hT1 : 1 ≤ T)
    (hflag : s.timeLimitReached = false) (hnc : s.sessionComplete = false) :
    ((cycleSeconds s : Nat) : Int) = getTotalCycleDuration s ∧
    ((cyclesToTarget s T : Nat) : Int) =
      ⌈((60 * T : Nat) : ℚ) / (getTotalCycleDuration s : ℚ)⌉ ∧
    (∃ s', ticks today fuel (cycleSeconds s * cyclesToTarget s T) (startSession s) = some s' ∧
      s'.sessionComplete = true ∧ s'.isPlaying = false ∧
      s'.totalTime = cycleSeconds s * cyclesToTarget s T ∧
      s'.cycleCount = cyclesToTarget s T) ∧
    (∀ n, n < cycleSeconds s * cyclesToTarget s T →
      ∃ s', ticks today fuel n (startSession s) = some s' ∧ s'.sessionComplete = false ∧
        s'.isPlaying = true ∧ s'.totalTime = n) ∧
    60 * T ≤ cycleSeconds s * cyclesToTarget s T ∧
    cycleSeconds s * cyclesToTarget s T < 60 * T + cycleSeconds s := by
  have hCpos := getTotalCycleDuration_pos s hpos
  have hC : 0 < cycleSeconds s := by
    unfold cycleSeconds
    omega
  obtain ⟨a1, a2, a3⟩ := ceil_cycles (cycleSeconds s) T hC hT1
  have hrun := run_to_target today fuel s T hfuel hpos hT hT1 hflag hnc
  refine ⟨by unfold cycleSeconds; omega, cyclesToTarget_eq_ceil s T hpos hT1, ?_, ?_, a1, a2⟩
  · obtain ⟨t, ht, hinv, ⟨hp, hm, _⟩, htt, _, hfin⟩ := hrun _ (le_refl _)
    obtain ⟨f1, f2⟩ := hfin rfl
    refine ⟨t, ht, f1, f2, htt, ?_⟩
    have hd0 : 0 < getScaledPhaseDuration t 0 := by
      rw [getScaledPhaseDuration_eq, hp, hm]
      exact hpos
    have hCt : cycleSeconds t = cycleSeconds s := by
      unfold cycleSeconds
      rw [getTotalCycleDuration_eq, getTotalCycleDuration_eq, hp, hm]
      rfl
    rw [hinv.cycle_eq_div hd0, hCt, htt, Nat.mul_div_cancel_left _ hC]
  · intro n hn
    obtain ⟨t, ht, _, _, htt, hr, _⟩ := hrun n (le_of_lt hn)
    obtain ⟨_, r2, r3, _⟩ := hr hn
    exact ⟨t, ht, r3, r2, htt⟩

/-- Witness for C20: Box 4-4-4-4 at pace 1 with a 2-minute target: C = 16,
ceil(120 / 16) = 8, and the session completes on tick 128 with 8 cycles. -/
theorem completes_at_first_cycle_boundary_witness :
    cycleSeconds boxTwoMinuteSettings = 16 ∧ cyclesToTarget boxTwoMinuteSettings 2 = 8 ∧
    (∃ s', ticks 0 3 128 (startSession boxTwoMinuteSettings) = some s' ∧
      s'.sessionComplete = true ∧ s'.isPlaying = false ∧ s'.totalTime = 128 ∧
      s'.cycleCount = 8) ∧
    (∃ s', ticks 0 3 127 (startSession boxTwoMinuteSettings) = some s' ∧
      s'.sessionComplete = false ∧ s'.isPlaying = true ∧ s'.totalTime = 127) := by
  have hC : cycleSeconds boxTwoMinuteSettings = 16 := by decide!
  have hK : cyclesToTarget boxTwoMinuteSettings 2 = 8 := by decide!
  have h := completes_at_first_cycle_boundary 0 3 boxTwoMinuteSettings 2 (by decide)
    (by decide!) rfl (by decide) rfl rfl
  rw [hC, hK] at h
  exact ⟨hC, hK, h.2.2.1, h.2.2.2.1 127 (by decide)⟩

/-! ## C21 -/

/-- C21. When phase 0 has a positive effective duration, in every state reached from
`startSession` by ticks, pauses and resumes (every Running and every Paused state of the
session among them) the phase index is below 4 and the remaining countdown `c` satisfies
1 <= c <= effective duration of the current phase.  So the lookup of the current phase in
the pattern is in range, the effective duration of the current phase is positive, and the
sampler computes its progress by the division and not by the zero-duration branch. -/
theorem countdown_in_range (s0 s : State) (hpos : 0 < getScaledPhaseDuration s0 0)
    (h : SessionReach s0 s) :
    s.currentPhase < 4 ∧ 1 ≤ s.phaseCountdown ∧
    s.phaseCountdown ≤ getScaledPhaseDuration s s.currentPhase ∧
    getScaledPhaseDuration s s.currentPhase = getScaledPhaseDuration s0 s.currentPhase ∧
    s.currentPhase < (getPattern s).phases.length ∧
    0 < getScaledPhaseDuration s s.currentPhase ∧
    (∀ elapsed : ℚ, animateProgress s elapsed =
      max 0 (min 1 (((getScaledPhaseDuration s s.currentPhase : ℚ)
        - ((s.phaseCountdown : ℚ) - elapsed)) / getScaledPhaseDuration s s.currentPhase))) := by
  obtain ⟨hi, hp, hm⟩ := h.has_clockInv hpos
  have hd : getScaledPhaseDuration s s.currentPhase =
      getScaledPhaseDuration s0 s.currentPhase := by
    rw [getScaledPhaseDuration_eq, getScaledPhaseDuration_eq, hp, hm]
  have hD : 0 < getScaledPhaseDuration s s.currentPhase :=
    lt_of_lt_of_le (by decide) (le_trans hi.one_le hi.le_dur)
  refine ⟨hi.phase_lt, hi.one_le, hi.le_dur, hd, ?_, hD, ?_⟩
  · rw [(getPattern s).four]
    exact hi.phase_lt
  · intro elapsed
    simp only [animateProgress, sampleProgress]
    rw [if_pos hD]

/-- Witness for C21: base durations 4-0-4-0 at pace 1.  After 5 ticks the session is
Running in phase 2 with countdown 3 of 4; paused there, it is Paused with the same
clock. -/
theorem countdown_in_range_witness :
    0 < getScaledPhaseDuration skipSettings 0 ∧
    ∃ s, SessionReach skipSettings s ∧ s.isPlaying = true ∧
      SessionReach skipSettings (pauseSession s) ∧ (pauseSession s).isPaused = true ∧
      (pauseSession s).currentPhase = 2 ∧ (pauseSession s).phaseCountdown = 3 ∧
      getScaledPhaseDuration (pauseSession s) (pauseSession s).currentPhase = 4 ∧
      1 ≤ (pauseSession s).phaseCountdown ∧
      (pauseSession s).phaseCountdown ≤
        getScaledPhaseDuration (pauseSession s) (pauseSession s).currentPhase := by
  have hpos : 0 < getScaledPhaseDuration skipSettings 0 := by decide!
  obtain ⟨t, ht⟩ := ticks_exists 0 3 (startSession skipSettings) (by decide)
    ⟨0, by decide, by decide!⟩ 5
  have e : skipSessionAfter 5 = t := by
    have h5 : ticks 0 3 5 skipSession = some t := ht
    unfold skipSessionAfter
    rw [h5]
    rfl
  rw [← e] at ht
  have hr : SessionReach skipSettings (skipSessionAfter 5) :=
    SessionReach.of_ticks 0 3 5 _ _ SessionReach.start ht
  have hq := SessionReach.pause _ hr
  have hc := countdown_in_range skipSettings (pauseSession (skipSessionAfter 5)) hpos hq
  exact ⟨hpos, skipSessionAfter 5, hr, by decide!, hq, by decide!, by decide!, by decide!,
    by decide!, hc.2.1, hc.2.2.1⟩

/-! ## C22 -/

theorem drawScene_box (s : State) (r : RenderState) (progress : ℝ) (phase : Nat)
    (timestamp : ℝ) (sc : Scene) (h : drawScene s r progress phase timestamp = some sc) :
    sc.adjustedLeft =
      r.viewportWidth / 2 - sc.sizeWithoutBreath / 2 + (sc.sizeWithoutBreath - sc.size) / 2 ∧
    sc.adjustedTop =
      r.viewportHeight / 2 + min (r.viewportHeight * 0.12) 80 - sc.sizeWithoutBreath / 2
        + (sc.sizeWithoutBreath - sc.size) / 2 ∧
    sc.sizeWithoutBreath =
      min (min r.viewportWidth r.viewportHeight * 0.55)
        (min r.viewportWidth r.viewportHeight - 30 * 2) ∧
    (((getPattern s).phases.getD s.currentPhase ⟨"", 0⟩).name = "Inhale" →
      sc.breathInfluence = easedProgress progress) := by
  unfold drawScene at h
  simp only [] at h
  split at h
  · cases h
  · split at h
    · cases h
    · simp only [Option.some.injEq] at h
      subst h
      refine ⟨rfl, rfl, rfl, ?_⟩
      intro hn
      simp only [hn, if_true]

theorem drawScene_centre (s : State) (r : RenderState) (progress : ℝ) (phase : Nat)
    (timestamp : ℝ) (sc : Scene) (h : drawScene s r progress phase timestamp = some sc) :
    sc.adjustedLeft + sc.size / 2 = r.viewportWidth / 2 ∧
    sc.adjustedTop + sc.size / 2 = r.viewportHeight / 2 + min (r.viewportHeight * 0.12) 80 := by
  obtain ⟨hl, ht, -, -⟩ := drawScene_box s r progress phase timestamp sc h
  constructor
  · rw [hl]; ring
  · rw [ht]; ring

theorem mathRoundReal_eq_iff (x : ℝ) (n : Int) :
    mathRoundReal x = n ↔ (n : ℝ) ≤ x + 1 / 2 ∧ x + 1 / 2 < n + 1 := by
  unfold mathRoundReal
  exact Int.floor_eq_iff

theorem mathRoundReal_close {x y : ℝ} (h : mathRoundReal x = mathRoundReal y) :
    |x - y| < 1 := by
  unfold mathRoundReal at h
  have := Int.abs_sub_lt_one_of_floor_eq_floor h
  have e : x + 1 / 2 - (y + 1 / 2) = x - y := by ring
  rwa [e] at this

theorem fillBackground_miss (cache : GradientCache) (sc : Scene) (accentColor : String)
    (h : cache.cachedGradient = none ∨
      cache.cachedGradientKey ≠ some (gradientKey sc accentColor)) :
    fillBackground cache sc accentColor =
      (createRadialGradient sc accentColor,
        { cachedGradient := some (createRadialGradient sc accentColor),
          cachedGradientKey := some (gradientKey sc accentColor) }) := by
  unfold fillBackground
  cases hg : cache.cachedGradient with
  | none => rfl
  | some g =>
    rcases h with h | h
    · rw [hg] at h; cases h
    · simp only []
      rw [if_pos h]

theorem fillBackground_hit (cache : GradientCache) (sc : Scene) (accentColor : String)
    (g : Gradient) (hg : cache.cachedGradient = some g)
    (hk : cache.cachedGradientKey = some (gradientKey sc accentColor)) :
    fillBackground cache sc accentColor = (g, cache) := by
  unfold fillBackground
  rw [hg]
  simp only []
  rw [if_neg (by rw [hk]; exact fun h => h rfl)]

theorem fillBackground_cases (cache : GradientCache) (sc : Scene) (accentColor : String) :
    fillBackground cache sc accentColor =
      (createRadialGradient sc accentColor,
        { cachedGradient := some (createRadialGradient sc accentColor),
          cachedGradientKey := some (gradientKey sc accentColor) }) ∨
    ∃ g, cache.cachedGradient = some g ∧
      cache.cachedGradientKey = some (gradientKey sc accentColor) ∧
      fillBackground cache sc accentColor = (g, cache) := by
  cases hg : cache.cachedGradient with
  | none => exact Or.inl (fillBackground_miss cache sc accentColor (Or.inl hg))
  | some g =>
    by_cases hk : cache.cachedGradientKey = some (gradientKey sc accentColor)
    · exact Or.inr ⟨g, rfl, hk, fillBackground_hit cache sc accentColor g hg hk⟩
    · exact Or.inl (fillBackground_miss cache sc accentColor (Or.inr hk))

theorem fillBackground_twice (cache : GradientCache) (sc : Scene) (accentColor : String) :
    fillBackground (fillBackground cache sc accentColor).2 sc accentColor =
      fillBackground cache sc accentColor := by
  rcases fillBackground_cases cache sc accentColor with h | ⟨g, hg, hk, h⟩
  · rw [h]
    exact fillBackground_hit _ sc accentColor _ rfl rfl
  · rw [h]
    exact h

theorem drawSceneCached_twice (r : RenderState) (cache : GradientCache) (s : State)
    (progress : ℝ) (phase : Nat) (timestamp : ℝ) :
    drawSceneCached r (drawSceneCached r cache s progress phase timestamp).2 s progress phase
      timestamp = drawSceneCached r cache s progress phase timestamp := by
  unfold drawSceneCached
  cases drawScene s r progress phase timestamp with
  | none => rfl
  | some sc =>
    cases PHASE_COLORS.get? phase with
    | none => rfl
    | some accentColor =>
      simp only []
      rw [fillBackground_twice]

theorem drawSceneCached_miss (r : RenderState) (cache : GradientCache) (s : State)
    (progress : ℝ) (phase : Nat) (timestamp : ℝ) (h : cache.cachedGradient = none) :
    (drawSceneCached r cache s progress phase timestamp).1 =
      drawSceneFresh r s progress phase timestamp := by
  unfold drawSceneCached drawSceneFresh
  cases drawScene s r progress phase timestamp with
  | none => rfl
  | some sc =>
    cases PHASE_COLORS.get? phase with
    | none => rfl
    | some accentColor =>
      simp only []
      rw [fillBackground_miss cache sc accentColor (Or.inl h)]

theorem CacheInv.empty (r : RenderState) (cache : GradientCache) :
    CacheInv r (invalidateGradient cache) := by
  intro g hg
  cases hg

theorem CacheInv.same_viewport {r r' : RenderState} {cache : GradientCache}
    (h : CacheInv r cache) (hw : r'.viewportWidth = r.viewportWidth)
    (hh : r'.viewportHeight = r.viewportHeight) : CacheInv r' cache := by
  intro g hg
  obtain ⟨sc, c, h1, h2, h3, h4⟩ := h g hg
  exact ⟨sc, c, h1, h2, by rw [hw]; exact h3, by rw [hh]; exact h4⟩

theorem SameUpToFingerprint.refl (o : Option (Scene × Gradient)) : SameUpToFingerprint o o := by
  cases o with
  | none => exact True.intro
  | some a =>
    refine ⟨rfl, rfl, rfl, rfl, rfl, rfl, ?_, ?_⟩ <;> simp <;> norm_num

theorem drawSceneCached_close (r : RenderState) (cache : GradientCache) (s : State)
    (progress : ℝ) (phase : Nat) (timestamp : ℝ) (hc : CacheInv r cache) :
    SameUpToFingerprint (drawSceneCached r cache s progress phase timestamp).1
      (drawSceneFresh r s progress phase timestamp) ∧
    CacheInv r (drawSceneCached r cache s progress phase timestamp).2 := by
  unfold drawSceneCached drawSceneFresh
  cases hd : drawScene s r progress phase timestamp with
  | none => exact ⟨True.intro, hc⟩
  | some sc =>
    cases PHASE_COLORS.get? phase with
    | none => exact ⟨True.intro, hc⟩
    | some accentColor =>
      simp only []
      obtain ⟨cx, cy⟩ := drawScene_centre s r progress phase timestamp sc hd
      rcases fillBackground_cases cache sc accentColor with h | ⟨g, hg, hk, h⟩
      · rw [h]
        refine ⟨SameUpToFingerprint.refl _, ?_⟩
        intro g hg
        simp only [Option.some.injEq] at hg
        exact ⟨sc, accentColor, rfl, hg.symm, cx, cy⟩
      · rw [h]
        refine ⟨?_, hc⟩
        obtain ⟨sc', c', h1, h2, h3, h4⟩ := hc g hg
        rw [hk] at h1
        simp only [Option.some.injEq, gradientKey, GradientKey.mk.injEq] at h1
        obtain ⟨ks, kc, -, -⟩ := h1
        have hs := mathRoundReal_close ks
        have hs' : |sc.size - sc'.size| < 1 / 100 := by
          have e : sc.size * 100 - sc'.size * 100 = (sc.size - sc'.size) * 100 := by ring
          rw [e, abs_mul] at hs
          have : |(100 : ℝ)| = 100 := abs_of_pos (by norm_num)
          rw [this] at hs
          linarith
        rw [abs_lt] at hs'
        subst h2
        refine ⟨rfl, ?_, ?_, ?_, ?_, ?_, ?_, ?_⟩
        · simp only [createRadialGradient, kc]
        · simp only [createRadialGradient]; rw [h3, cx]
        · simp only [createRadialGradient]; rw [h4, cy]
        · simp only [createRadialGradient]; rw [h3, cx]
        · simp only [createRadialGradient]; rw [h4, cy]
        · simp only [createRadialGradient]
          rw [abs_lt]
          constructor <;> linarith [hs'.1, hs'.2]
        · simp only [createRadialGradient]
          rw [abs_lt]
          constructor <;> linarith [hs'.1, hs'.2]

theorem renderCached_close (events : List RenderEvent) :
    ∀ (r : RenderState) (cache : GradientCache), CacheInv r cache →
      List.Forall₂ SameUpToFingerprint (renderCached r cache events) (renderFresh r events) := by
  induction events with
  | nil => intro r cache _; exact List.Forall₂.nil
  | cons e events ih =>
    intro r cache hc
    cases e with
    | draw s progress phase timestamp =>
      obtain ⟨h1, h2⟩ := drawSceneCached_close r cache s progress phase timestamp hc
      exact List.Forall₂.cons h1 (ih r _ h2)
    | resize width height => exact ih _ _ (CacheInv.empty _ cache)
    | invalidate => exact ih _ _ (CacheInv.empty _ cache)
    | pulse pulseStartTime => exact ih _ _ (hc.same_viewport rfl rfl)
    | reducedMotion prefers => exact ih _ _ (hc.same_viewport rfl rfl)

theorem easedProgress_small :
    0 < easedProgress (1 / 1000) ∧ easedProgress (1 / 1000) < 1 / 4400 := by
  constructor
  · have h := easedProgress_strict (le_refl (0 : ℝ)) (by norm_num : (0 : ℝ) < 1 / 1000)
      (by norm_num)
    rwa [easedProgress_zero] at h
  · unfold easedProgress
    have ec : max (0 : ℝ) (min 1 (1 / 1000)) = 1 / 1000 := by
      rw [min_eq_right (by norm_num), max_eq_right (by norm_num)]
    simp only [ec]
    have hc := Real.one_sub_sq_div_two_le_cos (x := Real.pi * (1 / 1000))
    have hpi := Real.pi_le_four
    have hpos := Real.pi_pos
    have hsq : (Real.pi * (1 / 1000)) ^ 2 ≤ (4 * (1 / 1000)) ^ 2 :=
      pow_le_pow_left₀ (by positivity) (by linarith) 2
    norm_num at hsq ⊢
    linarith

theorem twoFrames_first (sc : Scene)
    (h : drawScene (startSession (initialState zeroStats)) reducedMotionRender 0 0 1000
      = some sc) :
    sc.size = 220 ∧ gradientKey sc "#f97316" = ⟨22000, "#f97316", 90, 370⟩ := by
  obtain ⟨hl, ht, hw, hb⟩ := drawScene_box _ _ _ _ _ sc h
  obtain ⟨hp, hsize⟩ := drawScene_pulse _ _ _ _ _ sc h
  have hb' := hb rfl
  rw [easedProgress_zero] at hb'
  have hp' : sc.pulseBoost = 0 := by rw [hp]; rfl
  have hw' : sc.sizeWithoutBreath = 220 := by
    rw [hw]; norm_num [reducedMotionRender]
  have hs : sc.size = 220 := by rw [hsize, hw', hb', hp']; norm_num
  have hl' : sc.adjustedLeft = 90 := by
    rw [hl, hw', hs]; norm_num [reducedMotionRender]
  have ht' : sc.adjustedTop = 370 := by
    rw [ht, hw', hs]; norm_num [reducedMotionRender]
  refine ⟨hs, ?_⟩
  simp only [gradientKey, GradientKey.mk.injEq, true_and, and_true]
  rw [hs, hl', ht']
  refine ⟨?_, ?_, ?_⟩ <;> rw [mathRoundReal_eq_iff] <;> norm_num

theorem twoFrames_second (sc : Scene)
    (h : drawScene (startSession (initialState zeroStats)) reducedMotionRender (1 / 1000) 0
      1004 = some sc) :
    220 < sc.size ∧ gradientKey sc "#f97316" = ⟨22000, "#f97316", 90, 370⟩ := by
  obtain ⟨hl, ht, hw, hb⟩ := drawScene_box _ _ _ _ _ sc h
  obtain ⟨hp, hsize⟩ := drawScene_pulse _ _ _ _ _ sc h
  have hb' := hb rfl
  obtain ⟨e0, e1⟩ := easedProgress_small
  have hp' : sc.pulseBoost = 0 := by rw [hp]; rfl
  have hw' : sc.sizeWithoutBreath = 220 := by
    rw [hw]; norm_num [reducedMotionRender]
  have hs : sc.size = 220 + 22 * easedProgress (1 / 1000) := by
    rw [hsize, hw', hb', hp']; ring
  have hl' : sc.adjustedLeft = 90 - 11 * easedProgress (1 / 1000) := by
    rw [hl, hw', hs]; norm_num [reducedMotionRender]; ring
  have ht' : sc.adjustedTop = 370 - 11 * easedProgress (1 / 1000) := by
    rw [ht, hw', hs]; norm_num [reducedMotionRender]; ring
  refine ⟨by rw [hs]; linarith, ?_⟩
  simp only [gradientKey, GradientKey.mk.injEq, true_and, and_true]
  rw [hs, hl', ht']
  refine ⟨?_, ?_, ?_⟩ <;> rw [mathRoundReal_eq_iff] <;> constructor <;> push_cast <;> linarith

/-- Counterexample to C22 as stated: under reduced motion in a 400 by 800 viewport, two
frames of an Inhale phase at progress 0 and 1/1000 have boxes of side 220 and more than
220 with the same fingerprint.  The second call reuses the gradient of the first, of inner
radius 22, while the gradient computed afresh from its own box has a larger inner radius;
so rendering with the cache and rendering without it give different outputs. -/
theorem cached_gradient_is_stale :
    ∃ first sc g g',
      renderCached reducedMotionRender emptyCache twoFrames = [first, some (sc, g)] ∧
      renderFresh reducedMotionRender twoFrames = [first, some (sc, g')] ∧
      g' = createRadialGradient sc "#f97316" ∧ g.r0 = 22 ∧ 22 < g'.r0 ∧
      renderCached reducedMotionRender emptyCache twoFrames ≠
        renderFresh reducedMotionRender twoFrames := by
  obtain ⟨sc1, h1⟩ := drawScene_draws (startSession (initialState zeroStats))
    reducedMotionRender 0 0 1000 (by norm_num [reducedMotionRender])
    (by norm_num [reducedMotionRender]) (Or.inl rfl)
  obtain ⟨sc2, h2⟩ := drawScene_draws (startSession (initialState zeroStats))
    reducedMotionRender (1 / 1000) 0 1004 (by norm_num [reducedMotionRender])
    (by norm_num [reducedMotionRender]) (Or.inl rfl)
  obtain ⟨s1, k1⟩ := twoFrames_first sc1 h1
  obtain ⟨s2, k2⟩ := twoFrames_second sc2 h2
  have hc : PHASE_COLORS.get? 0 = some "#f97316" := rfl
  have d1 : drawSceneCached reducedMotionRender emptyCache
      (startSession (initialState zeroStats)) 0 0 1000 =
      (some (sc1, createRadialGradient sc1 "#f97316"),
        { cachedGradient := some (createRadialGradient sc1 "#f97316"),
          cachedGradientKey := some (gradientKey sc1 "#f97316") }) := by
    unfold drawSceneCached
    rw [h1, hc]
    simp only []
    rw [fillBackground_miss emptyCache sc1 "#f97316" (Or.inl rfl)]
  have d2 : drawSceneCached reducedMotionRender
      { cachedGradient := some (createRadialGradient sc1 "#f97316"),
        cachedGradientKey := some (gradientKey sc1 "#f97316") }
      (startSession (initialState zeroStats)) (1 / 1000) 0 1004 =
      (some (sc2, createRadialGradient sc1 "#f97316"),
        { cachedGradient := some (createRadialGradient sc1 "#f97316"),
          cachedGradientKey := some (gradientKey sc1 "#f97316") }) := by
    unfold drawSceneCached
    rw [h2, hc]
    simp only []
    rw [fillBackground_hit _ sc2 "#f97316" (createRadialGradient sc1 "#f97316") rfl
      (by rw [k1, k2])]
  have f1 : drawSceneFresh reducedMotionRender (startSession (initialState zeroStats)) 0 0
      1000 = some (sc1, createRadialGradient sc1 "#f97316") := by
    unfold drawSceneFresh
    rw [h1, hc]
  have f2 : drawSceneFresh reducedMotionRender (startSession (initialState zeroStats))
      (1 / 1000) 0 1004 = some (sc2, createRadialGradient sc2 "#f97316") := by
    unfold drawSceneFresh
    rw [h2, hc]
  have hcached : renderCached reducedMotionRender emptyCache twoFrames =
      [some (sc1, createRadialGradient sc1 "#f97316"),
       some (sc2, createRadialGradient sc1 "#f97316")] := by
    simp only [twoFrames, renderCached, d1, d2]
  have hfresh : renderFresh reducedMotionRender twoFrames =
      [some (sc1, createRadialGradient sc1 "#f97316"),
       some (sc2, createRadialGradient sc2 "#f97316")] := by
    simp only [twoFrames, renderFresh, f1, f2]
  have r1 : (createRadialGradient sc1 "#f97316").r0 = 22 := by
    simp only [createRadialGradient]; rw [s1]; norm_num
  have r2 : 22 < (createRadialGradient sc2 "#f97316").r0 := by
    simp only [createRadialGradient]; linarith
  refine ⟨_, sc2, _, _, hcached, hfresh, rfl, r1, r2, ?_⟩
  rw [hcached, hfresh]
  intro h
  simp only [List.cons.injEq, Option.some.injEq, Prod.mk.injEq, true_and, and_true] at h
  rw [h] at r1
  linarith

/-- C22 (amended). The gradient cache of `drawScene` is a memoization up to its
fingerprint.  For every sequence of renderer events from the empty cache (calls of
`drawScene`, with invalidation on resize, stop and completion), each call draws the same
scene with and without the cache, and the gradient it uses has the same colour stops and
the same centre as the gradient computed afresh from the call's own box, with an inner
radius within 0.001 and an outer radius within 0.009 of it.  A call that finds the cache
empty uses exactly the gradient computed afresh, and a call repeated with identical inputs
right after itself produces the identical output and leaves the cache as it is. -/
theorem gradient_cache_within_fingerprint (r : RenderState) (events : List RenderEvent)
    (cache : GradientCache) (s : State) (progress : ℝ) (phase : Nat) (timestamp : ℝ) :
    List.Forall₂ SameUpToFingerprint (renderCached r emptyCache events)
      (renderFresh r events) ∧
    (cache.cachedGradient = none →
      (drawSceneCached r cache s progress phase timestamp).1 =
        drawSceneFresh r s progress phase timestamp) ∧
    drawSceneCached r (drawSceneCached r cache s progress phase timestamp).2 s progress phase
      timestamp = drawSceneCached r cache s progress phase timestamp :=
  ⟨renderCached_close events r emptyCache (CacheInv.empty r emptyCache),
    drawSceneCached_miss r cache s progress phase timestamp,
    drawSceneCached_twice r cache s progress phase timestamp⟩

/-- Witness for C22 (amended): the two frames of the counterexample, and the first of them
drawn from the empty cache. -/
theorem gradient_cache_within_fingerprint_witness :
    List.Forall₂ SameUpToFingerprint (renderCached reducedMotionRender emptyCache twoFrames)
      (renderFresh reducedMotionRender twoFrames) ∧
    (drawSceneCached reducedMotionRender emptyCache (startSession (initialState zeroStats))
        0 0 1000).1 =
      drawSceneFresh reducedMotionRender (startSession (initialState zeroStats)) 0 0 1000 :=
  ⟨(gradient_cache_within_fingerprint reducedMotionRender twoFrames emptyCache
      (startSession (initialState zeroStats)) 0 0 1000).1,
    (gradient_cache_within_fingerprint reducedMotionRender twoFrames emptyCache
      (startSession (initialState zeroStats)) 0 0 1000).2.1 rfl⟩

/-! ## C23 -/

theorem completeOn_fields (st : Stats) (c : Int × State) :
    (completeOn st c).totalSessions = st.totalSessions + 1 ∧
    (completeOn st c).lastSessionDate = some c.1 ∧
    (completeOn st c).currentStreak = (updateStreak c.1 st).currentStreak ∧
    (completeOn st c).longestStreak =
      max st.longestStreak (updateStreak c.1 st).currentStreak :=
  ⟨rfl, rfl, rfl, rfl⟩

theorem completeOn_zero (c : Int × State) : StreakInv (completeOn zeroStats c) := by
  obtain ⟨h1, -, h3, h4⟩ := completeOn_fields zeroStats c
  have hc : (updateStreak c.1 zeroStats).currentStreak = 1 := rfl
  constructor
  · rw [h3, hc]
  · rw [h3, h4, hc]; exact le_max_right _ _
  · rw [h4, h1, hc]; decide

theorem completeOn_streakInv (st : Stats) (c : Int × State) (h : StreakInv st) :
    StreakInv (completeOn st c) := by
  obtain ⟨h1, -, h3, h4⟩ := completeOn_fields st c
  have hc : (updateStreak c.1 st).currentStreak = st.currentStreak ∨
      (updateStreak c.1 st).currentStreak = st.currentStreak + 1 ∨
      (updateStreak c.1 st).currentStreak = 1 := by
    unfold updateStreak
    cases st.lastSessionDate with
    | none => exact Or.inr (Or.inr rfl)
    | some d =>
      simp only
      split
      · exact Or.inl rfl
      · split
        · exact Or.inr (Or.inl rfl)
        · exact Or.inr (Or.inr rfl)
  have a := h.one_le
  have b := h.cur_le
  have d := h.longest_le
  constructor
  · rw [h3]; omega
  · rw [h3, h4]; exact le_max_right _ _
  · rw [h4, h1]
    apply max_le
    · omega
    · omega

theorem ledgerAfter_snoc (cs : List (Int × State)) (c : Int × State) :
    ledgerAfter (cs ++ [c]) = completeOn (ledgerAfter cs) c := by
  simp [ledgerAfter, List.foldl_append]

theorem ledgerAfter_streakInv (cs : List (Int × State)) (hne : cs ≠ []) :
    StreakInv (ledgerAfter cs) ∧ (ledgerAfter cs).lastSessionDate = cs.getLast?.map Prod.fst := by
  induction cs using List.reverseRecOn with
  | nil => exact absurd rfl hne
  | append_singleton cs c ih =>
    rw [ledgerAfter_snoc]
    refine ⟨?_, ?_⟩
    · by_cases hcs : cs = []
      · subst hcs
        exact completeOn_zero c
      · exact completeOn_streakInv _ c (ih hcs).1
    · rw [(completeOn_fields _ c).2.1]
      simp

theorem ledgerAfter_totalSessions (cs : List (Int × State)) :
    (ledgerAfter cs).totalSessions = cs.length := by
  induction cs using List.reverseRecOn with
  | nil => rfl
  | append_singleton cs c ih =>
    rw [ledgerAfter_snoc, (completeOn_fields _ c).1, ih]
    simp

/-- C23. Starting from the zeroed ledger, after any sequence of one or more session
completions, on any days and in any session states, the ledger satisfies
1 <= currentStreak <= longestStreak <= totalSessions, `lastSessionDate` is the day of the
most recent completion, and `totalSessions` is the number of completions. -/
theorem streak_bounds (completions : List (Int × State)) (hne : completions ≠ []) :
    1 ≤ (ledgerAfter completions).currentStreak ∧
    (ledgerAfter completions).currentStreak ≤ (ledgerAfter completions).longestStreak ∧
    (ledgerAfter completions).longestStreak ≤ (ledgerAfter completions).totalSessions ∧
    (ledgerAfter completions).lastSessionDate = completions.getLast?.map Prod.fst ∧
    (ledgerAfter completions).totalSessions = completions.length := by
  obtain ⟨h, hd⟩ := ledgerAfter_streakInv completions hne
  exact ⟨h.one_le, h.cur_le, h.longest_le, hd, ledgerAfter_totalSessions completions⟩

/-- Witness for C23: completions on day 10, again on day 10 and on day 11 leave the
streak at 2, the longest streak at 2, three sessions, and day 11 as the last day. -/
theorem streak_bounds_witness :
    (ledgerAfter threeCompletions).currentStreak = 2 ∧
    (ledgerAfter threeCompletions).longestStreak = 2 ∧
    (ledgerAfter threeCompletions).totalSessions = 3 ∧
    (ledgerAfter threeCompletions).lastSessionDate = some 11 ∧
    1 ≤ (ledgerAfter threeCompletions).currentStreak ∧
    (ledgerAfter threeCompletions).currentStreak ≤ (ledgerAfter threeCompletions).longestStreak ∧
    (ledgerAfter threeCompletions).longestStreak ≤
      (ledgerAfter threeCompletions).totalSessions := by
  have h := streak_bounds threeCompletions (List.cons_ne_nil _ _)
  exact ⟨by decide!, by decide!, by decide!, by decide!, h.1, h.2.1, h.2.2.1⟩

end Box5n3
